import Mathlib

/-! # goatv/pkg/pyatv: device discovery and aggregation

A shallow embedding of the discovery core of `pkg/pyatv` (`scanner.go`,
`interfaces.go`, `const.go`, `scan.go`) and theorems about it.

Modelling conventions

* A Go `string` is a Lean `String`; the functions of the Go `strings` package
  that the scanner calls are written out below on the character lists.
* A Go `map[string]T` is an association list `GoMap T`.  `GoMap.get` is the
  lookup `m[k]` (with the `ok` flag as `Option`), `GoMap.set` is the assignment
  `m[k] = v`.  A map has every key once (`GoMap.WF`); `get` and `set` are
  defined on every list and `set` keeps `WF`.  The scanner makes every map with
  `make`.  The one map that a function of the package writes without having
  made it, `Service.Properties` in `AddService`, carries the flag
  `PropertiesNil` for a nil map, on which the assignment panics.
* A Go pointer to a struct (`*Config`, `*Service`, `*DeviceInfo`) is the struct
  value; updates through the pointer become functional updates that are written
  back to the place the pointer was read from.  No record of the table shares
  a pointer with another one: `handleEntry` allocates a fresh `Config` for each
  new key.
* `int` enumerations (`Protocol`, `PairingRequirement`, `DeviceModel`,
  `OperatingSystem`) are `Int` with the constants of `const.go`.
* A `net.IP` is represented by the text its `String()` method returns, the only
  observation the scanner makes of an address.
* `strings.ToLower` of the Go standard library is a parameter of the functions
  that call it.
-/

namespace Pyatv

/-! ## Go strings -/

namespace GoStr

/-- Whether the character list `s` starts with `pre`. -/
def startsWith : List Char → List Char → Bool
  | _, [] => true
  | [], _ :: _ => false
  | c :: s, p :: pre => decide (c = p) && startsWith s pre

/-- Whether `sub` occurs in `s` as a contiguous block. -/
def containsChars : List Char → List Char → Bool
  | [], sub => startsWith [] sub
  | c :: s, sub => startsWith (c :: s) sub || containsChars s sub

/-- Go `strings.Contains(s, substr)`. -/
def Contains (s substr : String) : Bool :=
  containsChars s.data substr.data

/-- Cut `s` around the first occurrence of `sep`: the text before it and the
text after it, or `none` when `sep` does not occur. -/
def cutChars (sep : List Char) : List Char → Option (List Char × List Char)
  | [] => if startsWith [] sep then some ([], []) else none
  | c :: s =>
    if startsWith (c :: s) sep then some ([], (c :: s).drop sep.length)
    else match cutChars sep s with
      | some (a, b) => some (c :: a, b)
      | none => none

/-- Go `strings.SplitN(s, sep, 2)` for a non-empty `sep`: the text before and
after the first `sep`, or `s` alone when `sep` does not occur. -/
def SplitN2 (s sep : String) : List String :=
  match cutChars sep.data s.data with
  | some (a, b) => [String.mk a, String.mk b]
  | none => [s]

/-- Worker of `Split`: `skip` characters of a separator just matched are still
to be dropped, `cur` is the current piece, reversed. -/
def splitChars (sep : List Char) : List Char → Nat → List Char → List (List Char)
  | [], _, cur => [cur.reverse]
  | _ :: s, skip + 1, cur => splitChars sep s skip cur
  | c :: s, 0, cur =>
    if startsWith (c :: s) sep then cur.reverse :: splitChars sep s (sep.length - 1) []
    else splitChars sep s 0 (c :: cur)

/-- Go `strings.Split(s, sep)` for a non-empty `sep`. -/
def Split (s sep : String) : List String :=
  (splitChars sep.data s.data 0 []).map String.mk

end GoStr

/-! ## Go maps with string keys -/

/-- A Go `map[string]β`, as the list of its entries. -/
abbrev GoMap (β : Type) := List (String × β)

namespace GoMap

variable {β : Type}

/-- The lookup `v, ok := m[k]`. -/
def get : GoMap β → String → Option β
  | [], _ => none
  | (k', v) :: rest, k => if k' = k then some v else get rest k

/-- The assignment `m[k] = v`. -/
def set : GoMap β → String → β → GoMap β
  | [], k, v => [(k, v)]
  | (k', v') :: rest, k, v =>
    if k' = k then (k, v) :: rest else (k', v') :: set rest k v

/-- The keys of the map. -/
def keys (m : GoMap β) : List String := m.map Prod.fst

/-- The values of the map. -/
def values (m : GoMap β) : List β := m.map Prod.snd

/-- Every key occurs once. -/
def WF (m : GoMap β) : Prop := (keys m).Nodup

instance (m : GoMap β) : Decidable (WF m) := by
  unfold WF; infer_instance

end GoMap

/-! ## const.go -/

abbrev Protocol := Int
abbrev ProtocolDMAP : Protocol := 1
abbrev ProtocolMRP : Protocol := 2
abbrev ProtocolAirPlay : Protocol := 3
abbrev ProtocolCompanion : Protocol := 4
abbrev ProtocolRAOP : Protocol := 5

abbrev OperatingSystem := Int
abbrev OperatingSystemUnknown : OperatingSystem := 0
abbrev OperatingSystemLegacy : OperatingSystem := 1
abbrev OperatingSystemTvOS : OperatingSystem := 2
abbrev OperatingSystemAirPortOS : OperatingSystem := 3
abbrev OperatingSystemMacOS : OperatingSystem := 4

abbrev DeviceModel := Int
abbrev DeviceModelUnknown : DeviceModel := 0
abbrev DeviceModelGen2 : DeviceModel := 1
abbrev DeviceModelGen3 : DeviceModel := 2
abbrev DeviceModelGen4 : DeviceModel := 3
abbrev DeviceModelGen4K : DeviceModel := 4
abbrev DeviceModelHomePod : DeviceModel := 5
abbrev DeviceModelHomePodMini : DeviceModel := 6
abbrev DeviceModelAirPortExpress : DeviceModel := 7
abbrev DeviceModelAirPortExpressGen2 : DeviceModel := 8
abbrev DeviceModelAppleTV4KGen2 : DeviceModel := 9
abbrev DeviceModelMusic : DeviceModel := 10
abbrev DeviceModelAppleTV4KGen3 : DeviceModel := 11
abbrev DeviceModelHomePodGen2 : DeviceModel := 12
abbrev DeviceModelAppleTVGen1 : DeviceModel := 13

abbrev PairingRequirement := Int
abbrev PairingRequirementUnsupported : PairingRequirement := 1
abbrev PairingRequirementDisabled : PairingRequirement := 2
abbrev PairingRequirementNotNeeded : PairingRequirement := 3
abbrev PairingRequirementOptional : PairingRequirement := 4
abbrev PairingRequirementMandatory : PairingRequirement := 5

/-! ## interfaces.go -/

/-- A `net.IP`, by the text of its `String()` method. -/
structure IP where
  text : String
  deriving DecidableEq

/-- Go `ip.String()`. -/
def IP.String (ip : IP) : String := ip.text

/-- The struct `Service`.  `Properties` lists the entries of the map;
`PropertiesNil` says that the map is nil (it then has no entries). -/
structure Service where
  Identifier : String := ""
  Protocol : Protocol := 0
  Port : Int := 0
  Properties : GoMap String := []
  Credentials : String := ""
  Password : String := ""
  Enabled : Bool := false
  RequiresPassword : Bool := false
  Pairing : PairingRequirement := 0
  PropertiesNil : Bool := false
  deriving DecidableEq

/-- The struct `DeviceInfo`. -/
structure DeviceInfo where
  OperatingSystem : OperatingSystem := 0
  Version : String := ""
  BuildNumber : String := ""
  Model : DeviceModel := 0
  RawModel : String := ""
  MAC : String := ""
  OutputDeviceID : String := ""
  deriving DecidableEq

/-- The struct `Config`; `Address` is `none` for a nil `net.IP`. -/
structure Config where
  Address : Option IP := none
  Name : String := ""
  DeepSleep : Bool := false
  Services : List Service := []
  DeviceInfo : DeviceInfo := {}
  Properties : GoMap (GoMap String) := []
  Identifier : String := ""
  deriving DecidableEq

/-- `Config.GetService`: the first service of the protocol, `none` for nil. -/
def Config.GetService (c : Config) (protocol : Protocol) : Option Service :=
  c.Services.find? (fun s => decide (s.Protocol = protocol))

/-- The merge branch of `AddService`: what the service `s` found in the list
becomes when `service` is merged into it.  When the map of `s` is nil the loop
over the incoming entries writes nothing: it has no entry to write, or its
first assignment panics (`Service.mergePanics`) and the service stays as the
two assignments before the loop left it. -/
def Service.merge (s service : Service) : Service :=
  let s := if service.Credentials ≠ "" then { s with Credentials := service.Credentials } else s
  let s := if service.Password ≠ "" then { s with Password := service.Password } else s
  if s.PropertiesNil then s
  else
    { s with
      Properties := service.Properties.foldl (fun m kv => GoMap.set m kv.1 kv.2) s.Properties }

/-- Whether the merge of `service` into `s` panics: the loop assigns an entry
to the nil map of `s`. -/
def Service.mergePanics (s service : Service) : Bool :=
  s.PropertiesNil && !service.Properties.isEmpty

/-- The loop of `AddService` over `c.Services`, with the append after it. -/
def addServiceLoop : List Service → Service → List Service
  | [], service => [service]
  | s :: rest, service =>
    if s.Protocol = service.Protocol then s.merge service :: rest
    else s :: addServiceLoop rest service

/-- `Config.AddService`: the config when the call returns, or as it stands
when the call panics. -/
def Config.AddService (c : Config) (service : Service) : Config :=
  { c with Services := addServiceLoop c.Services service }

/-- Whether `AddService` panics: it merges into a service whose map is nil an
incoming service whose map has an entry. -/
def Config.AddServicePanics (c : Config) (service : Service) : Bool :=
  match c.Services.find? (fun s => decide (s.Protocol = service.Protocol)) with
  | some s => s.mergePanics service
  | none => false

/-- `Config.Ready`. -/
def Config.Ready (c : Config) : Bool :=
  c.Services.any (fun s => decide (s.Identifier ≠ ""))

/-- `Config.AllIdentifiers`. -/
def Config.AllIdentifiers (c : Config) : List String :=
  (c.Services.filter (fun s => decide (s.Identifier ≠ ""))).map (fun s => s.Identifier)

/-! ## scan.go -/

/-- The struct `ScanOptions`; `Timeout` in nanoseconds, `Protocol` is `none`
for a nil pointer.  The `Storage` field is not read by the scanner. -/
structure ScanOptions where
  Timeout : Int := 0
  Identifier : String := ""
  Protocol : Option Protocol := none
  Hosts : List String := []
  deriving DecidableEq

/-! ## scanner.go -/

/-- The fields of `mdns.ServiceEntry` that the scanner reads; an address is
`none` for a nil `net.IP`. -/
structure ServiceEntry where
  Name : String := ""
  Port : Int := 0
  AddrV4 : Option IP := none
  AddrV6 : Option IP := none
  InfoFields : List String := []
  deriving DecidableEq

/-- The struct `Scanner` (the mutex apart). -/
structure Scanner where
  opts : ScanOptions := {}
  devices : GoMap Config := []
  deriving DecidableEq

/-- `NewScanner`. -/
def NewScanner (opts : ScanOptions) : Scanner :=
  { opts := opts, devices := [] }

abbrev ServiceTypeMRP : String := "_mediaremotetv._tcp"
abbrev ServiceTypeDMAP : String := "_dacp._tcp"
abbrev ServiceTypeAirPlay : String := "_airplay._tcp"
abbrev ServiceTypeRAOP : String := "_raop._tcp"
abbrev ServiceTypeCompanion : String := "_companion-link._tcp"

/-- `Scanner.getProtocolFromService`. -/
def getProtocolFromService (name : String) : Protocol :=
  if GoStr.Contains name ServiceTypeMRP then ProtocolMRP
  else if GoStr.Contains name ServiceTypeDMAP then ProtocolDMAP
  else if GoStr.Contains name ServiceTypeAirPlay then ProtocolAirPlay
  else if GoStr.Contains name ServiceTypeRAOP then ProtocolRAOP
  else if GoStr.Contains name ServiceTypeCompanion then ProtocolCompanion
  else 0

/-- `Scanner.getServiceTypeForProtocol`. -/
def getServiceTypeForProtocol (protocol : Protocol) : String :=
  if protocol = ProtocolMRP then ServiceTypeMRP
  else if protocol = ProtocolDMAP then ServiceTypeDMAP
  else if protocol = ProtocolAirPlay then ServiceTypeAirPlay
  else if protocol = ProtocolRAOP then ServiceTypeRAOP
  else if protocol = ProtocolCompanion then ServiceTypeCompanion
  else ""

/-- The loop of `handleEntry` that parses the TXT records into a fresh map. -/
def parseTxtRecords (infoFields : List String) : GoMap String :=
  infoFields.foldl
    (fun txtRecords txt =>
      match GoStr.SplitN2 txt "=" with
      | [k, v] => GoMap.set txtRecords k v
      | [k] => GoMap.set txtRecords k ""
      | _ => txtRecords)
    []

/-- `Scanner.getDeviceKey`. -/
def getDeviceKey (entry : ServiceEntry) (txtRecords : GoMap String) : String :=
  match GoMap.get txtRecords "deviceid" with
  | some deviceID => deviceID
  | none =>
    match GoMap.get txtRecords "DeviceID" with
    | some deviceID => deviceID
    | none =>
      match entry.AddrV4 with
      | some ip => ip.String
      | none =>
        match entry.AddrV6 with
        | some ip => ip.String
        | none => entry.Name

/-- `Scanner.extractName`. -/
def extractName (serviceName : String) : String :=
  match GoStr.Split serviceName "._" with
  | part :: _ => part
  | [] => serviceName

/-- The fallback identifiers at the end of `extractIdentifier`. -/
def fallbackIdentifier (txtRecords : GoMap String) : String :=
  match GoMap.get txtRecords "deviceid" with
  | some id => id
  | none =>
    match GoMap.get txtRecords "DeviceID" with
    | some id => id
    | none => ""

/-- The attribute key the `switch` of `extractIdentifier` reads for a protocol,
`none` for a protocol without a case. -/
def identifierKey (protocol : Protocol) : Option String :=
  if protocol = ProtocolMRP then some "UniqueIdentifier"
  else if protocol = ProtocolDMAP then some "HSGID"
  else if protocol = ProtocolAirPlay then some "deviceid"
  else if protocol = ProtocolRAOP then some "deviceid"
  else if protocol = ProtocolCompanion then some "rpHA"
  else none

/-- `Scanner.extractIdentifier`. -/
def extractIdentifier (txtRecords : GoMap String) (protocol : Protocol) : String :=
  match identifierKey protocol with
  | some key =>
    match GoMap.get txtRecords key with
    | some id => id
    | none => fallbackIdentifier txtRecords
  | none => fallbackIdentifier txtRecords

/-- `Scanner.parseModel`; `toLower` is `strings.ToLower`. -/
def parseModel (toLower : String → String) (model : String) : DeviceModel :=
  let model := toLower model
  if GoStr.Contains model "appletv3,1" then DeviceModelGen3
  else if GoStr.Contains model "appletv3,2" then DeviceModelGen3
  else if GoStr.Contains model "appletv5,3" then DeviceModelGen4
  else if GoStr.Contains model "appletv6,2" then DeviceModelGen4K
  else if GoStr.Contains model "appletv11,1" then DeviceModelAppleTV4KGen2
  else if GoStr.Contains model "appletv14,1" then DeviceModelAppleTV4KGen3
  else if GoStr.Contains model "homepod" then
    if GoStr.Contains model "mini" then DeviceModelHomePodMini
    else DeviceModelHomePod
  else if GoStr.Contains model "airport" then DeviceModelAirPortExpress
  else DeviceModelUnknown

/-- `Scanner.updateDeviceInfo`, on the `DeviceInfo` the config points to. -/
def updateDeviceInfo (toLower : String → String) (info : DeviceInfo)
    (txtRecords : GoMap String) (_protocol : Protocol) : DeviceInfo :=
  let info := match GoMap.get txtRecords "model" with
    | some model => { info with RawModel := model, Model := parseModel toLower model }
    | none => info
  let info := match GoMap.get txtRecords "osvers" with
    | some osv => { info with Version := osv, OperatingSystem := OperatingSystemTvOS }
    | none => info
  let info := match GoMap.get txtRecords "srcvers" with
    | some build => { info with BuildNumber := build }
    | none => info
  match GoMap.get txtRecords "deviceid" with
  | some mac => if GoStr.Contains mac ":" then { info with MAC := mac } else info
  | none => info

/-- `Scanner.getPairingRequirement`. -/
def getPairingRequirement (txtRecords : GoMap String) (protocol : Protocol) :
    PairingRequirement :=
  if protocol = ProtocolMRP then PairingRequirementMandatory
  else if protocol = ProtocolAirPlay then
    match GoMap.get txtRecords "sf" with
    | some _ => PairingRequirementOptional
    | none => PairingRequirementNotNeeded
  else if protocol = ProtocolCompanion then PairingRequirementMandatory
  else PairingRequirementNotNeeded

/-- The `Config` that `handleEntry` allocates for a key not yet in the table. -/
def newConfig (entry : ServiceEntry) : Config :=
  let config : Config :=
    { Address := entry.AddrV4
      Name := extractName entry.Name
      Services := []
      Properties := []
      DeviceInfo := {} }
  if entry.AddrV4 = none ∧ entry.AddrV6 ≠ none then { config with Address := entry.AddrV6 }
  else config

/-- The `Service` that `handleEntry` builds from an announcement. -/
def newService (entry : ServiceEntry) (txtRecords : GoMap String) (protocol : Protocol) :
    Service :=
  { Identifier := extractIdentifier txtRecords protocol
    Protocol := protocol
    Port := entry.Port
    Properties := txtRecords
    Enabled := true
    Pairing := getPairingRequirement txtRecords protocol }

/-- What `handleEntry` does to the record `config` it found or created. -/
def updateConfig (toLower : String → String) (config : Config) (entry : ServiceEntry)
    (txtRecords : GoMap String) (protocol : Protocol) : Config :=
  let config := if config.Name = "" then { config with Name := extractName entry.Name } else config
  let config := { config with
    DeviceInfo := updateDeviceInfo toLower config.DeviceInfo txtRecords protocol }
  let service := newService entry txtRecords protocol
  let config := config.AddService service
  let config :=
    if config.Identifier = "" ∧ service.Identifier ≠ "" then
      { config with Identifier := service.Identifier }
    else config
  { config with
    Properties := GoMap.set config.Properties (getServiceTypeForProtocol protocol) txtRecords }

/-- `Scanner.handleEntry`: the scanner after the announcement `entry`. -/
def Scanner.handleEntry (toLower : String → String) (s : Scanner) (entry : ServiceEntry) :
    Scanner :=
  let protocol := getProtocolFromService entry.Name
  if protocol = 0 then s
  else
    let txtRecords := parseTxtRecords entry.InfoFields
    let deviceKey := getDeviceKey entry txtRecords
    let config := match GoMap.get s.devices deviceKey with
      | some config => config
      | none => newConfig entry
    { s with
      devices := GoMap.set s.devices deviceKey
        (updateConfig toLower config entry txtRecords protocol) }

/-- The announcements `entries` handled one after the other. -/
def Scanner.handleEntries (toLower : String → String) (s : Scanner)
    (entries : List ServiceEntry) : Scanner :=
  entries.foldl (Scanner.handleEntry toLower) s

/-- The `found` loop of `Discover` over `config.AllIdentifiers()`. -/
def identifierFound (ids : List String) (identifier : String) : Bool :=
  ids.any (fun id => decide (id = identifier))

/-- The filter at the end of `Scanner.Discover`: `visited` is the sequence of
records that `range s.devices` yields (Go leaves the order open), the result
is the slice `result`. -/
def Scanner.filterDevices (s : Scanner) (visited : List Config) : List Config :=
  visited.foldl
    (fun result config =>
      if !config.Ready then result
      else if s.opts.Identifier ≠ "" ∧
          !identifierFound config.AllIdentifiers s.opts.Identifier then result
      else result ++ [config])
    []

/-- ASCII lower-casing, an instance of `strings.ToLower` on ASCII text. -/
def asciiToLower (s : String) : String :=
  String.mk (s.data.map
    (fun c => if 65 ≤ c.toNat ∧ c.toNat ≤ 90 then Char.ofNat (c.toNat + 32) else c))

/-- The device-identity key of an announcement, as `handleEntry` computes it. -/
def announcementKey (entry : ServiceEntry) : String :=
  getDeviceKey entry (parseTxtRecords entry.InfoFields)

/-- The device-id attribute of an attribute map, as `getDeviceKey` reads it:
the value under `deviceid`, else the value under `DeviceID`. -/
def deviceIdAttr (txtRecords : GoMap String) : Option String :=
  match GoMap.get txtRecords "deviceid" with
  | some deviceID => some deviceID
  | none => GoMap.get txtRecords "DeviceID"

/-- No two services of the record have the same protocol. -/
def Config.OnePerProtocol (c : Config) : Prop :=
  (c.Services.map (fun s => s.Protocol)).Nodup

instance (c : Config) : Decidable c.OnePerProtocol := by
  unfold Config.OnePerProtocol; infer_instance

/-- Every record of the table has at most one service per protocol. -/
def Scanner.OnePerProtocol (s : Scanner) : Prop :=
  ∀ kc ∈ s.devices, kc.2.OnePerProtocol

instance (s : Scanner) : Decidable s.OnePerProtocol := by
  unfold Scanner.OnePerProtocol; infer_instance

/-- The first non-empty string of a list of candidates, `""` when there is
none. -/
def firstNonEmpty : List String → String
  | [] => ""
  | c :: rest => if c ≠ "" then c else firstNonEmpty rest

/-- The device-identity key as the specification words it: the first non-empty
candidate among the device-id attribute value (either spelling), the resolved
address string (v4 before v6) and the raw announcement name; an absent
candidate is skipped. -/
def specDeviceKey (entry : ServiceEntry) (txtRecords : GoMap String) : String :=
  firstNonEmpty
    ((GoMap.get txtRecords "deviceid").toList ++ (GoMap.get txtRecords "DeviceID").toList ++
      (entry.AddrV4.map IP.String).toList ++ (entry.AddrV6.map IP.String).toList ++
      [entry.Name])

/-! ## Sample data -/

/-- An AirPlay announcement with a `deviceid` attribute and a v4 address. -/
def sampleAirPlay : ServiceEntry :=
  { Name := "Living Room._airplay._tcp.local."
    Port := 7000
    AddrV4 := some ⟨"10.0.0.2"⟩
    InfoFields := ["deviceid=AA:BB:CC:DD:EE:FF", "model=AppleTV6,2"] }

/-- An MRP announcement of the same device, with the `DeviceID` spelling. -/
def sampleMRP : ServiceEntry :=
  { Name := "Living Room._mediaremotetv._tcp.local."
    Port := 49152
    AddrV4 := some ⟨"10.0.0.2"⟩
    InfoFields := ["DeviceID=AA:BB:CC:DD:EE:FF", "UniqueIdentifier=XYZ"] }

/-- An AirPlay announcement whose `deviceid` attribute is a bare flag. -/
def sampleBareFlag : ServiceEntry :=
  { Name := "Den._airplay._tcp.local."
    Port := 7000
    AddrV4 := some ⟨"10.0.0.7"⟩
    InfoFields := ["deviceid"] }

/-- An MRP announcement without any attribute. -/
def sampleMRPNoId : ServiceEntry :=
  { Name := "Den._mediaremotetv._tcp.local."
    Port := 49152
    AddrV4 := some ⟨"10.0.0.7"⟩
    InfoFields := [] }

/-- A later MRP announcement from the same address, now with an identifier. -/
def sampleMRPWithId : ServiceEntry :=
  { Name := "Den._mediaremotetv._tcp.local."
    Port := 49152
    AddrV4 := some ⟨"10.0.0.7"⟩
    InfoFields := ["UniqueIdentifier=XYZ"] }

/-- An MRP service without identifier, with credentials and a password. -/
def sampleServiceNoId : Service :=
  { Protocol := ProtocolMRP, Port := 49152, Properties := [("key1", "value1")],
    Credentials := "creds", Password := "secret" }

/-- A record with one MRP service that has no identifier. -/
def sampleConfigNoId : Config :=
  { Name := "Den", Services := [sampleServiceNoId] }

/-- An MRP service with an identifier and one attribute, without credentials. -/
def sampleServiceWithId : Service :=
  { Identifier := "abc123", Protocol := ProtocolMRP, Port := 49152,
    Properties := [("key2", "value2")] }

/-- A ready record with the identifier of its only service as a parameter. -/
def sampleReady (id : String) : Config :=
  { Name := id, Services := [{ Identifier := id, Protocol := ProtocolMRP }], Identifier := id }

/-- A scanner whose table has three ready records and whose identity filter
names the second. -/
def sampleScanner : Scanner :=
  { opts := { Identifier := "id2" }
    devices := [("id1", sampleReady "id1"), ("id2", sampleReady "id2"),
                ("id3", sampleReady "id3")] }

/-! ## const.go, continued -/

/-- `Protocol.String`. -/
def Protocol.String (p : Protocol) : String :=
  if p = ProtocolDMAP then "DMAP"
  else if p = ProtocolMRP then "MRP"
  else if p = ProtocolAirPlay then "AirPlay"
  else if p = ProtocolCompanion then "Companion"
  else if p = ProtocolRAOP then "RAOP"
  else "Unknown"

abbrev InputAction := Int
abbrev ShuffleState := Int
abbrev RepeatState := Int
abbrev MediaType := Int
abbrev DeviceState := Int

/-! ## errors.go -/

/-- A Go `error` value of the package: `sentinel text` is the value of one of
the `errors.New(text)` variables of `errors.go` (their texts are pairwise
different, so the text identifies the variable), `wrapped text err` is what
`fmt.Errorf` makes of a format with the verb `%w` applied to `err`. -/
inductive GoError where
  | sentinel (text : String)
  | wrapped (text : String) (err : GoError)
  deriving DecidableEq

/-- The method `Error()`. -/
def GoError.Error : GoError → String
  | .sentinel text => text
  | .wrapped text _ => text

/-- Go `errors.Is(err, target)`: `err` or an error it wraps is `target`. -/
def errorsIs : GoError → GoError → Bool
  | .sentinel text, target => decide (GoError.sentinel text = target)
  | .wrapped text err, target =>
    decide (GoError.wrapped text err = target) || errorsIs err target

abbrev ErrNoService : GoError := .sentinel "no service to connect to"
abbrev ErrUnsupportedProtocol : GoError := .sentinel "unsupported protocol"
abbrev ErrConnectionFailed : GoError := .sentinel "connection failed"
abbrev ErrConnectionLost : GoError := .sentinel "connection lost"
abbrev ErrPairing : GoError := .sentinel "pairing failed"
abbrev ErrAuthentication : GoError := .sentinel "authentication failed"
abbrev ErrNotSupported : GoError := .sentinel "not supported"
abbrev ErrInvalidDMAPData : GoError := .sentinel "invalid DMAP data"
abbrev ErrUnknownMediaKind : GoError := .sentinel "unknown media kind"
abbrev ErrUnknownPlayState : GoError := .sentinel "unknown play state"
abbrev ErrNoAsyncListener : GoError := .sentinel "no async listener"
abbrev ErrNoCredentials : GoError := .sentinel "no credentials"
abbrev ErrInvalidCredentials : GoError := .sentinel "invalid credentials"
abbrev ErrDeviceIDMissing : GoError := .sentinel "device id missing"
abbrev ErrBackOff : GoError := .sentinel "backoff required"
abbrev ErrPlayback : GoError := .sentinel "playback failed"
abbrev ErrCommand : GoError := .sentinel "command failed"
abbrev ErrInvalidState : GoError := .sentinel "invalid state"
abbrev ErrProtocol : GoError := .sentinel "protocol error"
abbrev ErrInvalidConfig : GoError := .sentinel "invalid config"
abbrev ErrBlocked : GoError := .sentinel "method blocked"
abbrev ErrInvalidResponse : GoError := .sentinel "invalid response"
abbrev ErrOperationTimeout : GoError := .sentinel "operation timeout"
abbrev ErrSettings : GoError := .sentinel "settings error"

/-! ## interfaces.go, continued -/

/-- The struct `ArtworkInfo`. -/
structure ArtworkInfo where
  Bytes : List Nat := []
  MimeType : String := ""
  Width : Int := 0
  Height : Int := 0

/-- The struct `MediaMetadata`; `Duration` is a `float64`. -/
structure MediaMetadata where
  Title : String := ""
  Artist : String := ""
  Album : String := ""
  Artwork : List Nat := []
  Duration : Float := 0

/-- The struct `Playing`; a nil pointer field is `none`. -/
structure Playing where
  MediaType : MediaType := 0
  DeviceState : DeviceState := 0
  Title : String := ""
  Artist : String := ""
  Album : String := ""
  Genre : String := ""
  TotalTime : Option Int := none
  Position : Option Int := none
  Shuffle : Option ShuffleState := none
  Repeat : Option RepeatState := none
  Hash : String := ""
  SeriesName : String := ""
  SeasonNumber : Option Int := none
  EpisodeNumber : Option Int := none
  ContentIdentifier : String := ""
  ITunesStoreIdentifier : Option Int := none

/-- A `context.Context`, by whether it is already cancelled. -/
structure Context where
  cancelled : Bool := false
  deriving DecidableEq

/-- An `io.Reader`, by the bytes it yields. -/
abbrev Reader := List Nat

/-! ## scan.go, continued; connection.go; pairing.go -/

/-- The struct `ConnectOptions`; `Protocol` is `none` for a nil pointer.  The
`Storage` field is an interface that no function of the package calls. -/
structure ConnectOptions where
  Protocol : Option Protocol := none
  deriving DecidableEq

/-- The struct `PairOptions`, whose only field is the `Storage` interface that
no function of the package calls. -/
structure PairOptions where
  deriving DecidableEq

/-- The struct `AppleTVConnection`: the configuration, the options and the
`connected` flag.  The handler fields always hold the default implementations
below; a handler is modelled by the connection it points back to. -/
structure AppleTVConnection where
  config : Config
  opts : ConnectOptions := {}
  connected : Bool := false
  deriving DecidableEq

/-- `NewAppleTVConnection`. -/
def NewAppleTVConnection (config : Config) (opts : ConnectOptions) : AppleTVConnection :=
  { config := config, opts := opts }

/-- `AppleTVConnection.Connect`: the connection afterwards and the error. -/
def AppleTVConnection.Connect (a : AppleTVConnection) (_ctx : Context) :
    AppleTVConnection × Option GoError :=
  if a.connected then (a, none)
  else ({ a with connected := true }, none)

/-- `Connect` of `scan.go`: `.error err` for the result `(nil, err)`, `.ok atv`
for `(atv, nil)`. -/
def Connect (ctx : Context) (config : Config) (opts : ConnectOptions) :
    Except GoError AppleTVConnection :=
  if config.Services.length = 0 then .error ErrNoService
  else if config.Identifier = "" then .error ErrDeviceIDMissing
  else
    match (NewAppleTVConnection config opts).Connect ctx with
    | (_, some err) => .error err
    | (atv, none) => .ok atv

/-- The struct `DefaultPairingHandler`; `service` is `none` for a nil pointer. -/
structure DefaultPairingHandler where
  config : Config
  service : Option Service
  protocol : Protocol
  opts : PairOptions := {}
  pin : String := ""
  paired : Bool := false
  deriving DecidableEq

/-- `NewPairingHandler`. -/
def NewPairingHandler (config : Config) (service : Option Service) (protocol : Protocol)
    (opts : PairOptions) : DefaultPairingHandler :=
  { config := config, service := service, protocol := protocol, opts := opts }

/-- `DefaultPairingHandler.Service`. -/
def DefaultPairingHandler.Service (p : DefaultPairingHandler) : Option Service := p.service

/-- `DefaultPairingHandler.HasPaired`. -/
def DefaultPairingHandler.HasPaired (p : DefaultPairingHandler) : Bool := p.paired

/-- `Pair` of `scan.go`: `.error err` for the result `(nil, err)`, `.ok handler`
for `(handler, nil)`. -/
def Pair (_ctx : Context) (config : Config) (protocol : Protocol) (opts : PairOptions) :
    Except GoError DefaultPairingHandler :=
  match config.GetService protocol with
  | none =>
    .error (.wrapped
      (ErrNoService.Error ++ ": no service available for " ++ Protocol.String protocol)
      ErrNoService)
  | some service => .ok (NewPairingHandler config (some service) protocol opts)

/-! ## connection.go: the default handlers -/

/-- The struct `defaultRemoteControl`. -/
structure defaultRemoteControl where
  atv : AppleTVConnection

/-- The struct `defaultMetadata`. -/
structure defaultMetadata where
  atv : AppleTVConnection

/-- The struct `defaultStream`. -/
structure defaultStream where
  atv : AppleTVConnection

/-- `AppleTVConnection.RemoteControl`. -/
def AppleTVConnection.RemoteControl (a : AppleTVConnection) : defaultRemoteControl := ⟨a⟩

/-- `AppleTVConnection.Metadata`. -/
def AppleTVConnection.Metadata (a : AppleTVConnection) : defaultMetadata := ⟨a⟩

/-- `AppleTVConnection.Stream`. -/
def AppleTVConnection.Stream (a : AppleTVConnection) : defaultStream := ⟨a⟩

/-- `defaultRemoteControl.Up`; the result is the `error`, `none` for nil. -/
def defaultRemoteControl.Up (_r : defaultRemoteControl) (_ctx : Context)
    (_action : InputAction) : Option GoError :=
  some ErrNotSupported

/-- `defaultRemoteControl.Down`; the result is the `error`, `none` for nil. -/
def defaultRemoteControl.Down (_r : defaultRemoteControl) (_ctx : Context)
    (_action : InputAction) : Option GoError :=
  some ErrNotSupported

/-- `defaultRemoteControl.Left`; the result is the `error`, `none` for nil. -/
def defaultRemoteControl.Left (_r : defaultRemoteControl) (_ctx : Context)
    (_action : InputAction) : Option GoError :=
  some ErrNotSupported

/-- `defaultRemoteControl.Right`; the result is the `error`, `none` for nil. -/
def defaultRemoteControl.Right (_r : defaultRemoteControl) (_ctx : Context)
    (_action : InputAction) : Option GoError :=
  some ErrNotSupported

/-- `defaultRemoteControl.Play`; the result is the `error`, `none` for nil. -/
def defaultRemoteControl.Play (_r : defaultRemoteControl) (_ctx : Context)
    : Option GoError :=
  some ErrNotSupported

/-- `defaultRemoteControl.PlayPause`; the result is the `error`, `none` for nil. -/
def defaultRemoteControl.PlayPause (_r : defaultRemoteControl) (_ctx : Context)
    : Option GoError :=
  some ErrNotSupported

/-- `defaultRemoteControl.Pause`; the result is the `error`, `none` for nil. -/
def defaultRemoteControl.Pause (_r : defaultRemoteControl) (_ctx : Context)
    : Option GoError :=
  some ErrNotSupported

/-- `defaultRemoteControl.Stop`; the result is the `error`, `none` for nil. -/
def defaultRemoteControl.Stop (_r : defaultRemoteControl) (_ctx : Context)
    : Option GoError :=
  some ErrNotSupported

/-- `defaultRemoteControl.Next`; the result is the `error`, `none` for nil. -/
def defaultRemoteControl.Next (_r : defaultRemoteControl) (_ctx : Context)
    : Option GoError :=
  some ErrNotSupported

/-- `defaultRemoteControl.Previous`; the result is the `error`, `none` for nil. -/
def defaultRemoteControl.Previous (_r : defaultRemoteControl) (_ctx : Context)
    : Option GoError :=
  some ErrNotSupported

/-- `defaultRemoteControl.Select`; the result is the `error`, `none` for nil. -/
def defaultRemoteControl.Select (_r : defaultRemoteControl) (_ctx : Context)
    (_action : InputAction) : Option GoError :=
  some ErrNotSupported

/-- `defaultRemoteControl.Menu`; the result is the `error`, `none` for nil. -/
def defaultRemoteControl.Menu (_r : defaultRemoteControl) (_ctx : Context)
    (_action : InputAction) : Option GoError :=
  some ErrNotSupported

/-- `defaultRemoteControl.VolumeUp`; the result is the `error`, `none` for nil. -/
def defaultRemoteControl.VolumeUp (_r : defaultRemoteControl) (_ctx : Context)
    : Option GoError :=
  some ErrNotSupported

/-- `defaultRemoteControl.VolumeDown`; the result is the `error`, `none` for nil. -/
def defaultRemoteControl.VolumeDown (_r : defaultRemoteControl) (_ctx : Context)
    : Option GoError :=
  some ErrNotSupported

/-- `defaultRemoteControl.Home`; the result is the `error`, `none` for nil. -/
def defaultRemoteControl.Home (_r : defaultRemoteControl) (_ctx : Context)
    (_action : InputAction) : Option GoError :=
  some ErrNotSupported

/-- `defaultRemoteControl.HomeHold`; the result is the `error`, `none` for nil. -/
def defaultRemoteControl.HomeHold (_r : defaultRemoteControl) (_ctx : Context)
    : Option GoError :=
  some ErrNotSupported

/-- `defaultRemoteControl.TopMenu`; the result is the `error`, `none` for nil. -/
def defaultRemoteControl.TopMenu (_r : defaultRemoteControl) (_ctx : Context)
    : Option GoError :=
  some ErrNotSupported

/-- `defaultRemoteControl.Suspend`; the result is the `error`, `none` for nil. -/
def defaultRemoteControl.Suspend (_r : defaultRemoteControl) (_ctx : Context)
    : Option GoError :=
  some ErrNotSupported

/-- `defaultRemoteControl.WakeUp`; the result is the `error`, `none` for nil. -/
def defaultRemoteControl.WakeUp (_r : defaultRemoteControl) (_ctx : Context)
    : Option GoError :=
  some ErrNotSupported

/-- `defaultRemoteControl.SkipForward`; the result is the `error`, `none` for nil. -/
def defaultRemoteControl.SkipForward (_r : defaultRemoteControl) (_ctx : Context)
    (_timeInterval : Float) : Option GoError :=
  some ErrNotSupported

/-- `defaultRemoteControl.SkipBackward`; the result is the `error`, `none` for nil. -/
def defaultRemoteControl.SkipBackward (_r : defaultRemoteControl) (_ctx : Context)
    (_timeInterval : Float) : Option GoError :=
  some ErrNotSupported

/-- `defaultRemoteControl.SetPosition`; the result is the `error`, `none` for nil. -/
def defaultRemoteControl.SetPosition (_r : defaultRemoteControl) (_ctx : Context)
    (_pos : Int) : Option GoError :=
  some ErrNotSupported

/-- `defaultRemoteControl.SetShuffle`; the result is the `error`, `none` for nil. -/
def defaultRemoteControl.SetShuffle (_r : defaultRemoteControl) (_ctx : Context)
    (_state : ShuffleState) : Option GoError :=
  some ErrNotSupported

/-- `defaultRemoteControl.SetRepeat`; the result is the `error`, `none` for nil. -/
def defaultRemoteControl.SetRepeat (_r : defaultRemoteControl) (_ctx : Context)
    (_state : RepeatState) : Option GoError :=
  some ErrNotSupported

/-- `defaultRemoteControl.ChannelUp`; the result is the `error`, `none` for nil. -/
def defaultRemoteControl.ChannelUp (_r : defaultRemoteControl) (_ctx : Context)
    : Option GoError :=
  some ErrNotSupported

/-- `defaultRemoteControl.ChannelDown`; the result is the `error`, `none` for nil. -/
def defaultRemoteControl.ChannelDown (_r : defaultRemoteControl) (_ctx : Context)
    : Option GoError :=
  some ErrNotSupported

/-- `defaultRemoteControl.Screensaver`; the result is the `error`, `none` for nil. -/
def defaultRemoteControl.Screensaver (_r : defaultRemoteControl) (_ctx : Context)
    : Option GoError :=
  some ErrNotSupported

/-- `defaultMetadata.DeviceID`. -/
def defaultMetadata.DeviceID (m : defaultMetadata) : String := m.atv.config.Identifier

/-- `defaultMetadata.Artwork`: `.error err` for the result `(nil, err)`. -/
def defaultMetadata.Artwork (_m : defaultMetadata) (_ctx : Context)
    (_width _height : Option Int) : Except GoError ArtworkInfo :=
  .error ErrNotSupported

/-- `defaultMetadata.Playing`: `.error err` for the result `(nil, err)`. -/
def defaultMetadata.Playing (_m : defaultMetadata) (_ctx : Context) : Except GoError Playing :=
  .error ErrNotSupported

/-- `defaultStream.Close`. -/
def defaultStream.Close (_s : defaultStream) : Option GoError := none

/-- `defaultStream.PlayURL`; `Any` is the type of the `interface{}` values. -/
def defaultStream.PlayURL {Any : Type} (_s : defaultStream) (_ctx : Context) (_url : String)
    (_options : GoMap Any) : Option GoError :=
  some ErrNotSupported

/-- `defaultStream.StreamFile`; `metadata` is `none` for a nil pointer. -/
def defaultStream.StreamFile {Any : Type} (_s : defaultStream) (_ctx : Context)
    (_file : Reader) (_metadata : Option MediaMetadata) (_overrideMissingMetadata : Bool)
    (_options : GoMap Any) : Option GoError :=
  some ErrNotSupported

/-! ## Reference definitions -/

/-- The hardware-revision tokens of `parseModel` with their models, in the
order of the `switch`. -/
def revisionTokens : List (String × DeviceModel) :=
  [("appletv3,1", DeviceModelGen3), ("appletv3,2", DeviceModelGen3),
   ("appletv5,3", DeviceModelGen4), ("appletv6,2", DeviceModelGen4K),
   ("appletv11,1", DeviceModelAppleTV4KGen2), ("appletv14,1", DeviceModelAppleTV4KGen3)]

/-- The ordered list of tokens of the specification for a lower-cased model
string: the revision tokens, then `homepod` (HomePodMini if the string also
contains `mini`, else HomePod), then `airport`. -/
def modelTokens (lowered : String) : List (String × DeviceModel) :=
  revisionTokens ++
    [("homepod",
        if GoStr.Contains lowered "mini" then DeviceModelHomePodMini else DeviceModelHomePod),
     ("airport", DeviceModelAirPortExpress)]

/-- The model parsing as the specification words it: lower-case the string,
then return the model of the first token of the ordered list that occurs in
it, the unknown model when none does. -/
def specParseModel (toLower : String → String) (model : String) : DeviceModel :=
  match (modelTokens (toLower model)).find?
      (fun t => GoStr.Contains (toLower model) t.1) with
  | some t => t.2
  | none => DeviceModelUnknown

/-- A record with an AirPlay and a RAOP service that carry the same
identifier, as two announcements with the same `deviceid` attribute give. -/
def sampleAirPlayRaop : Config :=
  { Name := "Kitchen"
    Services := [{ Identifier := "AA:BB:CC:DD:EE:FF", Protocol := ProtocolAirPlay, Port := 7000 },
                 { Identifier := "AA:BB:CC:DD:EE:FF", Protocol := ProtocolRAOP, Port := 7000 }]
    Identifier := "AA:BB:CC:DD:EE:FF" }

/-- A RAOP announcement of the device of `sampleAirPlay`. -/
def sampleRAOP : ServiceEntry :=
  { Name := "AABBCCDDEEFF@Living Room._raop._tcp.local."
    Port := 7000
    AddrV4 := some ⟨"10.0.0.2"⟩
    InfoFields := ["deviceid=AA:BB:CC:DD:EE:FF"] }

/-! ## pairing.go, continued -/

/-- `DefaultPairingHandler.Close`. -/
def DefaultPairingHandler.Close (_p : DefaultPairingHandler) : Option GoError := none

/-- `DefaultPairingHandler.Pin`: the handler afterwards. -/
def DefaultPairingHandler.Pin (p : DefaultPairingHandler) (pin : String) :
    DefaultPairingHandler :=
  { p with pin := pin }

/-- `DefaultPairingHandler.DeviceProvidesPin`. -/
def DefaultPairingHandler.DeviceProvidesPin (p : DefaultPairingHandler) : Bool :=
  if p.protocol = ProtocolMRP then true
  else if p.protocol = ProtocolAirPlay then true
  else if p.protocol = ProtocolCompanion then true
  else false

/-- `DefaultPairingHandler.Begin`: the handler afterwards and the error. -/
def DefaultPairingHandler.Begin (p : DefaultPairingHandler) (_ctx : Context) :
    DefaultPairingHandler × Option GoError :=
  (p, some ErrNotSupported)

/-- `DefaultPairingHandler.Finish`: the handler afterwards and the error. -/
def DefaultPairingHandler.Finish (p : DefaultPairingHandler) (_ctx : Context) :
    DefaultPairingHandler × Option GoError :=
  if p.pin = "" then (p, some ErrNoCredentials)
  else ({ p with paired := true }, none)

/-! ## scanner.go: `Discover`, and `Scan` of scan.go -/

/-- The fields of `mdns.QueryParam` that `Discover` sets after
`mdns.DefaultParams`; `Timeout` in nanoseconds. -/
structure QueryParam where
  Service : String
  Timeout : Int
  WantUnicastResponse : Bool
  deriving DecidableEq

/-- What one call of `mdns.Query` does: the announcements it puts on the
channel `params.Entries`, in order, and the error it returns. -/
structure QueryOutcome where
  entries : List ServiceEntry := []
  err : Option GoError := none

/-- The function `mdns.Query` of the discovery transport, a parameter of
`Discover`. -/
abbrev Transport := QueryParam → QueryOutcome

/-- The table `serviceTypes` of `Discover`. -/
def serviceTypes : List (String × Protocol) :=
  [(ServiceTypeMRP, ProtocolMRP), (ServiceTypeDMAP, ProtocolDMAP),
   (ServiceTypeAirPlay, ProtocolAirPlay), (ServiceTypeRAOP, ProtocolRAOP),
   (ServiceTypeCompanion, ProtocolCompanion)]

/-- The local `timeout` of `Discover`: five seconds when the option is zero. -/
def Scanner.timeout (s : Scanner) : Int :=
  if s.opts.Timeout = 0 then 5 * 1000000000 else s.opts.Timeout

/-- The parameters of the queries `Discover` issues, in order: one for each
service type that the protocol restriction does not skip. -/
def Scanner.queryParams (s : Scanner) : List QueryParam :=
  (serviceTypes.filter
    (fun st =>
      match s.opts.Protocol with
      | some protocol => !decide (protocol ≠ st.2)
      | none => true)).map
    (fun st => { Service := st.1, Timeout := s.timeout, WantUnicastResponse := true })

/-- The announcements that arrive on the channel of `Discover`, in order: the
queries run one after the other. -/
def Scanner.queryEntries (s : Scanner) (query : Transport) : List ServiceEntry :=
  (s.queryParams.map (fun params => (query params).entries)).flatten

/-- The warnings `Discover` prints: one for each query that returns an error
whose text does not contain `no such host`. -/
def Scanner.queryWarnings (s : Scanner) (query : Transport) : List String :=
  s.queryParams.filterMap
    (fun params =>
      match (query params).err with
      | some err =>
        if !GoStr.Contains err.Error "no such host" then
          some ("Warning: failed to query " ++ params.Service ++ ": " ++ err.Error ++ "\n")
        else none
      | none => none)

/-- What a call of `Discover` leaves: the scanner afterwards, the two results,
the text printed, and the calls of `mdns.Query` it made, in order (each call
blocks until the transport returns; the next one is made after it). -/
structure DiscoverResult where
  scanner : Scanner
  result : List Config
  err : Option GoError
  output : List String
  queries : List QueryParam

/-- `Scanner.Discover`.  `query` is the transport, `visited` is the sequence of
records that `range s.devices` yields at the end.  The goroutine that drains
the channel handles the announcements in channel order and has handled all of
them when the filter starts. -/
def Scanner.Discover (toLower : String → String) (s : Scanner) (_ctx : Context)
    (query : Transport) (visited : List Config) : DiscoverResult :=
  let after := s.handleEntries toLower (s.queryEntries query)
  { scanner := after
    result := after.filterDevices visited
    err := none
    output := s.queryWarnings query
    queries := s.queryParams }

/-- `Scan` of scan.go. -/
def Scan (toLower : String → String) (ctx : Context) (opts : ScanOptions)
    (query : Transport) (visited : List Config) : DiscoverResult :=
  let opts := if opts.Timeout = 0 then { opts with Timeout := 5 * 1000000000 } else opts
  (NewScanner opts).Discover toLower ctx query visited

/-! ## Reference definitions, continued -/

/-- The key of an attribute string as the specification words it: the text
before the first `=`, the whole string when there is none. -/
def attrKey (txt : String) : String :=
  String.mk (txt.data.takeWhile (fun c => decide (c ≠ '=')))

/-- The value of an attribute string as the specification words it: everything
after the first `=`, empty when there is none. -/
def attrValue (txt : String) : String :=
  String.mk ((txt.data.dropWhile (fun c => decide (c ≠ '='))).drop 1)

/-- A transport whose every query fails and delivers nothing. -/
def sampleFailingTransport : Transport :=
  fun _ => { entries := [], err := some ErrConnectionFailed }

/-- A transport that delivers the AirPlay announcement to the AirPlay query and
the MRP announcement to the MRP query. -/
def sampleTransport : Transport :=
  fun params =>
    if params.Service = ServiceTypeAirPlay then { entries := [sampleAirPlay] }
    else if params.Service = ServiceTypeMRP then { entries := [sampleMRP] }
    else {}

/-- A scanner without identity filter whose table has two ready records. -/
def sampleScannerTwo : Scanner :=
  { devices := [("id1", sampleReady "id1"), ("id2", sampleReady "id2")] }

/-- A record whose metadata block is filled. -/
def sampleConfigWithInfo : Config :=
  { Name := "Living Room"
    DeviceInfo := { OperatingSystem := OperatingSystemTvOS, Version := "17.4",
                    BuildNumber := "21L227", Model := DeviceModelGen4K,
                    RawModel := "AppleTV6,2", MAC := "AA:BB:CC:DD:EE:FF" } }

/-- A scanner whose table has the record with the filled metadata block under
the address key 10.0.0.2. -/
def sampleScannerWithInfo : Scanner :=
  { devices := [("10.0.0.2", sampleConfigWithInfo)] }

/-- An AirPlay announcement from 10.0.0.2 without device id, whose model,
version and build attributes are present with an empty value. -/
def sampleSparse : ServiceEntry :=
  { Name := "Living Room._airplay._tcp.local."
    Port := 7000
    AddrV4 := some ⟨"10.0.0.2"⟩
    InfoFields := ["model=", "osvers", "srcvers="] }

/-! ## Reference definitions and invariants, continued -/

/-- Whether a character is a hexadecimal digit. -/
def isHexDigit (c : Char) : Bool :=
  (48 ≤ c.toNat && c.toNat ≤ 57) || (65 ≤ c.toNat && c.toNat ≤ 70) ||
    (97 ≤ c.toNat && c.toNat ≤ 102)

/-- Whether the characters are hex octets (two hex digits each) separated by
colons. -/
def hexOctetsChars : List Char → Bool
  | [a, b] => isHexDigit a && isHexDigit b
  | a :: b :: ':' :: rest => isHexDigit a && isHexDigit b && hexOctetsChars rest
  | _ => false

/-- The shape of a hardware address as the specification words it: the string
consists of colon-separated hex octets. -/
def isColonHexOctets (s : String) : Bool := hexOctetsChars s.data

/-- The characters before the first occurrence of `sep`, all of them when
`sep` does not occur. -/
def beforeFirstChars (sep : List Char) : List Char → List Char
  | [] => []
  | c :: s => if GoStr.startsWith (c :: s) sep then [] else c :: beforeFirstChars sep s

/-- The text of `s` before the first occurrence of `sep`, as the specification
words the display name. -/
def textBeforeFirst (s sep : String) : String :=
  String.mk (beforeFirstChars sep.data s.data)

/-- Every ready record of the table has a non-empty `Identifier`. -/
def Scanner.ReadyHasIdentifier (s : Scanner) : Prop :=
  ∀ kc ∈ s.devices, kc.2.Ready = true → kc.2.Identifier ≠ ""

/-- A call of a method of the pairing handler that can change its state or
return an error. -/
inductive PairingCall where
  | Begin
  | Finish
  | Pin (pin : String)
  | Close
  deriving DecidableEq

/-- The handler after one call. -/
def DefaultPairingHandler.call (ctx : Context) (p : DefaultPairingHandler) :
    PairingCall → DefaultPairingHandler
  | .Begin => (p.Begin ctx).1
  | .Finish => (p.Finish ctx).1
  | .Pin pin => p.Pin pin
  | .Close => p

/-- The handler after a sequence of calls. -/
def DefaultPairingHandler.calls (ctx : Context) (p : DefaultPairingHandler)
    (calls : List PairingCall) : DefaultPairingHandler :=
  calls.foldl (DefaultPairingHandler.call ctx) p

/-- An AirPlay announcement whose `deviceid` is a host and port. -/
def sampleHostPort : ServiceEntry :=
  { Name := "Living Room._airplay._tcp.local."
    Port := 7000
    AddrV4 := some ⟨"10.0.0.2"⟩
    InfoFields := ["deviceid=host:7000"] }

/-- A later AirPlay announcement of the device of `sampleAirPlay`, on another
port and with the feature flag `sf`. -/
def sampleAirPlayLater : ServiceEntry :=
  { Name := "Living Room._airplay._tcp.local."
    Port := 7100
    AddrV4 := some ⟨"10.0.0.2"⟩
    InfoFields := ["deviceid=AA:BB:CC:DD:EE:FF", "sf=0x4"] }

/-- An MRP announcement with a v6 address only and a name that starts with the
delimiter of the display name. -/
def sampleV6 : ServiceEntry :=
  { Name := "._mediaremotetv._tcp.local."
    Port := 49152
    AddrV6 := some ⟨"fe80::1"⟩
    InfoFields := ["UniqueIdentifier=XYZ"] }

/-- Every service of every record of the table has an allocated attribute
map. -/
def Scanner.MapsAllocated (s : Scanner) : Prop :=
  ∀ kc ∈ s.devices, ∀ sv ∈ kc.2.Services, sv.PropertiesNil = false

/-- A record whose MRP service has a nil attribute map, as the struct literal
`&Service{Protocol: ProtocolMRP, Port: 49152}` gives. -/
def sampleConfigNilMap : Config :=
  { Services := [{ Protocol := ProtocolMRP, Port := 49152, PropertiesNil := true }] }

/-- Three MRP announcements of three devices. -/
def sampleThree : List ServiceEntry :=
  [{ Name := "Den._mediaremotetv._tcp.local.", Port := 49152, AddrV4 := some ⟨"10.0.0.7"⟩,
     InfoFields := ["UniqueIdentifier=id1"] },
   { Name := "Bedroom._mediaremotetv._tcp.local.", Port := 49152, AddrV4 := some ⟨"10.0.0.8"⟩,
     InfoFields := ["UniqueIdentifier=id2"] },
   { Name := "Kitchen._mediaremotetv._tcp.local.", Port := 49152, AddrV4 := some ⟨"10.0.0.9"⟩,
     InfoFields := ["UniqueIdentifier=id3"] }]

/-- A transport whose MRP query delivers the three announcements. -/
def sampleTransportThree : Transport :=
  fun params => if params.Service = ServiceTypeMRP then { entries := sampleThree } else {}

/-- How long a call of `mdns.Query` blocks, in nanoseconds; `none` for a call
that never returns. -/
abbrev Blocking := QueryParam → Option Int

/-- The time `Discover` spends in its query loop, `none` when it never leaves
it: the loop makes the calls of `mdns.Query` one after the other on the
goroutine of the caller, and the context with the deadline is passed to none of
them, so each call runs until it returns by itself. -/
def Scanner.queryLoopTime (s : Scanner) (blocking : Blocking) : Option Int :=
  s.queryParams.foldl
    (fun total params =>
      match total, blocking params with
      | some t, some d => some (t + d)
      | _, _ => none)
    (some 0)

/-- A transport that hears nothing: each call blocks for its `Timeout`. -/
def sampleBlocking : Blocking :=
  fun params => some params.Timeout

/-- A transport whose DMAP query never returns; the other queries return at
once. -/
def sampleHanging : Blocking :=
  fun params => if params.Service = ServiceTypeDMAP then none else some 0

/-- The table after the three announcements, in reverse order of arrival. -/
def sampleThreeVisited : List Config :=
  (GoMap.values ((NewScanner { Identifier := "id2" }).handleEntries asciiToLower
    sampleThree).devices).reverse

/-- The record of the second of the three devices. -/
def sampleBedroom : Config :=
  sampleThreeVisited.getD 1 {}

/-! ## Lemmas on maps -/

namespace GoMap

variable {β : Type}

theorem get_set_self (m : GoMap β) (k : String) (v : β) : get (set m k v) k = some v := by
  induction m with
  | nil => simp [set, get]
  | cons kv rest ih =>
    obtain ⟨k', v'⟩ := kv
    by_cases h : k' = k
    · simp [set, get, h]
    · simp [set, get, h, ih]

theorem get_set_ne (m : GoMap β) {k k' : String} (v : β) (h : k ≠ k') :
    get (set m k v) k' = get m k' := by
  induction m with
  | nil => simp [set, get, h]
  | cons kv rest ih =>
    obtain ⟨k0, v0⟩ := kv
    by_cases h0 : k0 = k
    · subst h0
      simp [set, get, h]
    · by_cases h1 : k0 = k'
      · subst h1
        simp [set, get, h0]
      · simp [set, get, h0, h1, ih]

theorem set_eq_self (m : GoMap β) {k : String} {v : β} (h : get m k = some v) :
    set m k v = m := by
  induction m with
  | nil => simp [get] at h
  | cons kv rest ih =>
    obtain ⟨k0, v0⟩ := kv
    by_cases h0 : k0 = k
    · subst h0
      simp [get] at h
      simp [set, h]
    · simp [get, h0] at h
      simp [set, h0, ih h]

theorem set_set (m : GoMap β) (k : String) (v w : β) : set (set m k v) k w = set m k w := by
  induction m with
  | nil => simp [set]
  | cons kv rest ih =>
    obtain ⟨k0, v0⟩ := kv
    by_cases h0 : k0 = k
    · simp [set, h0]
    · simp [set, h0, ih]

theorem mem_of_get {m : GoMap β} {k : String} {v : β} (h : get m k = some v) : (k, v) ∈ m := by
  induction m with
  | nil => simp [get] at h
  | cons kv rest ih =>
    obtain ⟨k0, v0⟩ := kv
    by_cases h0 : k0 = k
    · subst h0
      simp [get] at h
      simp [h]
    · simp [get, h0] at h
      exact List.mem_cons_of_mem _ (ih h)

theorem mem_set {m : GoMap β} {k : String} {v : β} {x : String × β} (h : x ∈ set m k v) :
    x ∈ m ∨ x = (k, v) := by
  induction m with
  | nil => simpa [set] using h
  | cons kv rest ih =>
    obtain ⟨k0, v0⟩ := kv
    by_cases h0 : k0 = k
    · simp [set, h0] at h
      rcases h with h | h
      · exact Or.inr h
      · exact Or.inl (List.mem_cons_of_mem _ h)
    · simp [set, h0] at h
      rcases h with h | h
      · exact Or.inl (by simp [h])
      · rcases ih h with h | h
        · exact Or.inl (List.mem_cons_of_mem _ h)
        · exact Or.inr h

theorem get_eq_none_of_not_mem_keys {m : GoMap β} {k : String} (h : k ∉ keys m) :
    get m k = none := by
  induction m with
  | nil => simp [get]
  | cons kv rest ih =>
    obtain ⟨k0, v0⟩ := kv
    simp [keys] at h
    have h0 : ¬ k0 = k := fun e => h.1 e.symm
    simp only [get, h0, if_false]
    exact ih (by simpa [keys] using h.2)

theorem keys_set (m : GoMap β) (k : String) (v : β) :
    keys (set m k v) = if k ∈ keys m then keys m else keys m ++ [k] := by
  induction m with
  | nil => simp [set, keys]
  | cons kv rest ih =>
    obtain ⟨k0, v0⟩ := kv
    by_cases h0 : k0 = k
    · subst h0
      simp [set, keys]
    · have h1 : ¬ k = k0 := fun e => h0 e.symm
      simp only [keys] at ih
      by_cases hk : k ∈ List.map Prod.fst rest
      · simp [set, keys, h0, h1, hk, ih]
      · simp [set, keys, h0, h1, hk, ih]

theorem WF_set {m : GoMap β} (h : WF m) (k : String) (v : β) : WF (set m k v) := by
  unfold WF at *
  rw [keys_set]
  by_cases hk : k ∈ keys m
  · simpa [hk] using h
  · simp only [hk, if_false]
    exact List.Nodup.append h (List.nodup_singleton k) (by simpa using hk)

/-- The loop `for k, v := range src { dst[k] = v }`. -/
theorem get_foldl_set (src : GoMap β) (hsrc : WF src) (dst : GoMap β) (k : String) :
    get (src.foldl (fun m kv => set m kv.1 kv.2) dst) k =
      match get src k with
      | some v => some v
      | none => get dst k := by
  induction src generalizing dst with
  | nil => simp [get]
  | cons kv rest ih =>
    obtain ⟨k0, v0⟩ := kv
    have hrest : WF rest := by
      unfold WF keys at *
      exact (List.nodup_cons.mp hsrc).2
    have hk0 : k0 ∉ keys rest := by
      unfold WF keys at *
      exact (List.nodup_cons.mp hsrc).1
    simp only [List.foldl_cons]
    rw [ih hrest]
    by_cases h0 : k0 = k
    · subst h0
      simp [get, get_eq_none_of_not_mem_keys hk0, get_set_self]
    · simp [get, h0, get_set_ne _ _ h0]

theorem foldl_set_eq_self (src : GoMap β) (m : GoMap β)
    (h : ∀ kv ∈ src, get m kv.1 = some kv.2) :
    src.foldl (fun m kv => set m kv.1 kv.2) m = m := by
  induction src with
  | nil => rfl
  | cons kv rest ih =>
    simp only [List.foldl_cons]
    rw [set_eq_self m (h kv (List.mem_cons_self _ _))]
    exact ih (fun x hx => h x (List.mem_cons_of_mem _ hx))

theorem get_of_mem_WF {m : GoMap β} (h : WF m) {k : String} {v : β} (hm : (k, v) ∈ m) :
    get m k = some v := by
  induction m with
  | nil => simp at hm
  | cons kv rest ih =>
    obtain ⟨k0, v0⟩ := kv
    have hrest : WF rest := by
      unfold WF keys at *
      exact (List.nodup_cons.mp h).2
    have hk0 : k0 ∉ keys rest := by
      unfold WF keys at *
      exact (List.nodup_cons.mp h).1
    rcases List.mem_cons.mp hm with e | hm'
    · cases e
      simp [get]
    · have h0 : ¬ k0 = k := by
        intro e
        subst e
        exact hk0 (by simpa [keys] using ⟨v, hm'⟩)
      simp only [get, h0, if_false]
      exact ih hrest hm'

/-- Merging a map into the result of merging it changes nothing. -/
theorem foldl_set_idem (src : GoMap β) (hsrc : WF src) (dst : GoMap β) :
    src.foldl (fun m kv => set m kv.1 kv.2) (src.foldl (fun m kv => set m kv.1 kv.2) dst) =
      src.foldl (fun m kv => set m kv.1 kv.2) dst := by
  apply foldl_set_eq_self
  intro kv hkv
  rw [get_foldl_set src hsrc, get_of_mem_WF hsrc (show (kv.1, kv.2) ∈ src from hkv)]

theorem foldl_set_self (src : GoMap β) (hsrc : WF src) :
    src.foldl (fun m kv => set m kv.1 kv.2) src = src :=
  foldl_set_eq_self src src (fun _ hkv => get_of_mem_WF hsrc hkv)

end GoMap

/-! ## Lemmas on `Config` and `AddService` -/

theorem identifierFound_iff (ids : List String) (identifier : String) :
    identifierFound ids identifier = true ↔ identifier ∈ ids := by
  unfold identifierFound
  simp [List.any_eq_true]

theorem mem_AllIdentifiers (c : Config) (id : String) :
    id ∈ c.AllIdentifiers ↔ id ≠ "" ∧ ∃ s ∈ c.Services, s.Identifier = id := by
  unfold Config.AllIdentifiers
  constructor
  · intro h
    obtain ⟨s, hs, rfl⟩ := List.mem_map.mp h
    have hs' := List.mem_filter.mp hs
    exact ⟨by simpa using hs'.2, s, hs'.1, rfl⟩
  · rintro ⟨hne, s, hs, rfl⟩
    exact List.mem_map.mpr ⟨s, List.mem_filter.mpr ⟨hs, by simpa using hne⟩, rfl⟩

theorem ready_iff_exists (c : Config) :
    c.Ready = true ↔ ∃ s ∈ c.Services, s.Identifier ≠ "" := by
  unfold Config.Ready
  simp [List.any_eq_true]

theorem ready_of_mem_AllIdentifiers {c : Config} {id : String} (h : id ∈ c.AllIdentifiers) :
    c.Ready = true := by
  obtain ⟨hne, s, hs, rfl⟩ := (mem_AllIdentifiers c id).mp h
  exact (ready_iff_exists c).mpr ⟨s, hs, hne⟩

/-- The condition under which the filter of `Discover` keeps a record. -/
theorem filterDevices_eq_filter (s : Scanner) (visited : List Config) :
    s.filterDevices visited =
      visited.filter (fun c => c.Ready &&
        (decide (s.opts.Identifier = "") || decide (s.opts.Identifier ∈ c.AllIdentifiers))) := by
  unfold Scanner.filterDevices
  suffices h : ∀ acc : List Config,
      visited.foldl
        (fun result config =>
          if !config.Ready then result
          else if s.opts.Identifier ≠ "" ∧
              !identifierFound config.AllIdentifiers s.opts.Identifier then result
          else result ++ [config]) acc =
      acc ++ visited.filter (fun c => c.Ready &&
        (decide (s.opts.Identifier = "") || decide (s.opts.Identifier ∈ c.AllIdentifiers))) by
    simpa using h []
  induction visited with
  | nil => intro acc; simp
  | cons c rest ih =>
    intro acc
    simp only [List.foldl_cons]
    rw [ih]
    by_cases hr : c.Ready = true
    · by_cases hid : s.opts.Identifier = ""
      · simp [List.filter_cons, hr, hid]
      · by_cases hf : s.opts.Identifier ∈ c.AllIdentifiers
        · have hf' := (identifierFound_iff _ _).mpr hf
          simp [List.filter_cons, hr, hid, hf, hf']
        · have hf' : identifierFound c.AllIdentifiers s.opts.Identifier = false := by
            cases hx : identifierFound c.AllIdentifiers s.opts.Identifier with
            | false => rfl
            | true => exact absurd ((identifierFound_iff _ _).mp hx) hf
          simp [List.filter_cons, hr, hid, hf, hf']
    · have hr' : c.Ready = false := by
        cases hx : c.Ready with
        | false => rfl
        | true => exact absurd hx hr
      simp [List.filter_cons, hr']

/-- The service after a merge, field by field. -/
theorem merge_eq (e svc : Service) :
    e.merge svc =
      { e with
        Credentials := if svc.Credentials ≠ "" then svc.Credentials else e.Credentials
        Password := if svc.Password ≠ "" then svc.Password else e.Password
        Properties :=
          if e.PropertiesNil then e.Properties
          else svc.Properties.foldl (fun m kv => GoMap.set m kv.1 kv.2) e.Properties } := by
  unfold Service.merge
  obtain ⟨i1, i2, i3, i4, i5, i6, i7, i8, i9, isNil⟩ := e
  cases isNil <;> by_cases hc : svc.Credentials = "" <;>
    by_cases hp : svc.Password = "" <;> simp [hc, hp]

theorem merge_Identifier (e svc : Service) : (e.merge svc).Identifier = e.Identifier := by
  rw [merge_eq]

theorem merge_Protocol (e svc : Service) : (e.merge svc).Protocol = e.Protocol := by
  rw [merge_eq]

theorem merge_Credentials (e svc : Service) :
    (e.merge svc).Credentials =
      if svc.Credentials ≠ "" then svc.Credentials else e.Credentials := by
  rw [merge_eq]

theorem merge_Password (e svc : Service) :
    (e.merge svc).Password = if svc.Password ≠ "" then svc.Password else e.Password := by
  rw [merge_eq]

theorem merge_PropertiesNil (e svc : Service) :
    (e.merge svc).PropertiesNil = e.PropertiesNil := by
  rw [merge_eq]

/-- The map after a merge that does not panic. -/
theorem merge_Properties (e svc : Service) (h : e.mergePanics svc = false) :
    (e.merge svc).Properties =
      svc.Properties.foldl (fun m kv => GoMap.set m kv.1 kv.2) e.Properties := by
  rw [merge_eq]
  unfold Service.mergePanics at h
  cases hn : e.PropertiesNil with
  | false => simp
  | true =>
    have hempty : svc.Properties = [] := by
      rw [hn] at h
      simpa using h
    simp [hempty]

theorem getService_eq_none_iff (c : Config) (p : Protocol) :
    c.GetService p = none ↔ p ∉ c.Services.map (fun s => s.Protocol) := by
  unfold Config.GetService
  rw [List.find?_eq_none]
  simp only [decide_eq_true_eq, List.mem_map, not_exists, not_and]

theorem getService_some_protocol {c : Config} {p : Protocol} {e : Service}
    (h : c.GetService p = some e) : e.Protocol = p := by
  unfold Config.GetService at h
  simpa using List.find?_some h

/-- With no service of the protocol in the list the new one is appended. -/
theorem addServiceLoop_absent (l : List Service) (svc : Service)
    (h : svc.Protocol ∉ l.map (fun s => s.Protocol)) : addServiceLoop l svc = l ++ [svc] := by
  induction l with
  | nil => rfl
  | cons s rest ih =>
    simp only [List.map_cons, List.mem_cons, not_or] at h
    have hs : ¬ s.Protocol = svc.Protocol := fun e => h.1 e.symm
    simp [addServiceLoop, hs, ih h.2]

theorem addServiceLoop_length_present (l : List Service) (svc : Service)
    (h : svc.Protocol ∈ l.map (fun s => s.Protocol)) :
    (addServiceLoop l svc).length = l.length := by
  induction l with
  | nil => simp at h
  | cons s rest ih =>
    by_cases hs : s.Protocol = svc.Protocol
    · simp [addServiceLoop, hs]
    · have hrest : svc.Protocol ∈ rest.map (fun s => s.Protocol) := by
        simp only [List.map_cons, List.mem_cons] at h
        rcases h with h | h
        · exact absurd h.symm hs
        · exact h
      simp [addServiceLoop, hs, ih hrest]

theorem addServiceLoop_protocols_present (l : List Service) (svc : Service)
    (h : svc.Protocol ∈ l.map (fun s => s.Protocol)) :
    (addServiceLoop l svc).map (fun s => s.Protocol) = l.map (fun s => s.Protocol) := by
  induction l with
  | nil => simp at h
  | cons s rest ih =>
    by_cases hs : s.Protocol = svc.Protocol
    · simp [addServiceLoop, hs, merge_Protocol]
    · have hrest : svc.Protocol ∈ rest.map (fun s => s.Protocol) := by
        simp only [List.map_cons, List.mem_cons] at h
        rcases h with h | h
        · exact absurd h.symm hs
        · exact h
      simp [addServiceLoop, hs, ih hrest]

theorem addServiceLoop_identifiers_present (l : List Service) (svc : Service)
    (h : svc.Protocol ∈ l.map (fun s => s.Protocol)) :
    (addServiceLoop l svc).map (fun s => s.Identifier) = l.map (fun s => s.Identifier) := by
  induction l with
  | nil => simp at h
  | cons s rest ih =>
    by_cases hs : s.Protocol = svc.Protocol
    · simp [addServiceLoop, hs, merge_Identifier]
    · have hrest : svc.Protocol ∈ rest.map (fun s => s.Protocol) := by
        simp only [List.map_cons, List.mem_cons] at h
        rcases h with h | h
        · exact absurd h.symm hs
        · exact h
      simp [addServiceLoop, hs, ih hrest]

theorem addService_onePerProtocol (c : Config) (svc : Service) (h : c.OnePerProtocol) :
    (c.AddService svc).OnePerProtocol := by
  unfold Config.OnePerProtocol Config.AddService at *
  by_cases hp : svc.Protocol ∈ c.Services.map (fun s => s.Protocol)
  · simpa [addServiceLoop_protocols_present _ _ hp] using h
  · rw [addServiceLoop_absent _ _ hp, List.map_append]
    exact List.Nodup.append h (List.nodup_singleton _) (by simpa using hp)

theorem find_addServiceLoop_merge (l : List Service) (svc e : Service)
    (h : l.find? (fun s => decide (s.Protocol = svc.Protocol)) = some e) :
    (addServiceLoop l svc).find? (fun s => decide (s.Protocol = svc.Protocol)) =
      some (e.merge svc) := by
  induction l with
  | nil => simp at h
  | cons s rest ih =>
    by_cases hs : s.Protocol = svc.Protocol
    · simp [List.find?_cons, hs] at h
      subst h
      simp [addServiceLoop, hs, List.find?_cons, merge_Protocol]
    · simp [List.find?_cons, hs] at h
      simp [addServiceLoop, hs, List.find?_cons, ih h]

/-- The service found for the protocol of `svc` is replaced by its merge. -/
theorem getService_addService_merge (c : Config) (svc e : Service)
    (h : c.GetService svc.Protocol = some e) :
    (c.AddService svc).GetService svc.Protocol = some (e.merge svc) :=
  find_addServiceLoop_merge c.Services svc e h

theorem any_identifier_map (l : List Service) :
    l.any (fun s => decide (s.Identifier ≠ "")) =
      (l.map (fun s => s.Identifier)).any (fun i => decide (i ≠ "")) := by
  induction l with
  | nil => rfl
  | cons s rest ih => simp only [List.any_cons, List.map_cons, ih]

theorem ready_eq_of_identifiers {c d : Config}
    (h : d.Services.map (fun s => s.Identifier) = c.Services.map (fun s => s.Identifier)) :
    d.Ready = c.Ready := by
  unfold Config.Ready
  rw [any_identifier_map, any_identifier_map, h]


/-! ## Lemmas on `handleEntry` -/

theorem merge_merge (e svc : Service) (hwf : GoMap.WF svc.Properties) :
    (e.merge svc).merge svc = e.merge svc := by
  rw [merge_eq (e.merge svc) svc, merge_Credentials, merge_Password, merge_PropertiesNil,
    merge_eq e svc]
  simp only [Service.mk.injEq, true_and, and_true]
  refine ⟨?_, ?_, ?_⟩
  · cases e.PropertiesNil
    · simp only [Bool.false_eq_true, if_false]
      exact GoMap.foldl_set_idem _ hwf _
    · simp only [if_true]
  · split_ifs <;> rfl
  · split_ifs <;> rfl

theorem merge_self (svc : Service) (hwf : GoMap.WF svc.Properties) : svc.merge svc = svc := by
  rw [merge_eq]
  cases svc
  simp only [Service.mk.injEq, true_and, and_true]
  refine ⟨?_, ?_, ?_⟩
  · split_ifs
    · rfl
    · exact GoMap.foldl_set_self _ hwf
  · split_ifs <;> rfl
  · split_ifs <;> rfl

/-- Adding the same service a second time changes nothing. -/
theorem addServiceLoop_idem (l : List Service) (svc : Service)
    (hwf : GoMap.WF svc.Properties) :
    addServiceLoop (addServiceLoop l svc) svc = addServiceLoop l svc := by
  induction l with
  | nil => simp [addServiceLoop, merge_self svc hwf]
  | cons s rest ih =>
    by_cases hs : s.Protocol = svc.Protocol
    · simp [addServiceLoop, hs, merge_Protocol, merge_merge s svc hwf]
    · simp [addServiceLoop, hs, ih]

theorem addServiceLoop_mem_protocols (l : List Service) (svc : Service) :
    svc.Protocol ∈ (addServiceLoop l svc).map (fun s => s.Protocol) := by
  by_cases hp : svc.Protocol ∈ l.map (fun s => s.Protocol)
  · rw [addServiceLoop_protocols_present l svc hp]; exact hp
  · rw [addServiceLoop_absent l svc hp]; simp

theorem parseTxtRecords_WF (infoFields : List String) :
    GoMap.WF (parseTxtRecords infoFields) := by
  unfold parseTxtRecords
  suffices h : ∀ acc : GoMap String, GoMap.WF acc →
      GoMap.WF (infoFields.foldl
        (fun txtRecords txt =>
          match GoStr.SplitN2 txt "=" with
          | [k, v] => GoMap.set txtRecords k v
          | [k] => GoMap.set txtRecords k ""
          | _ => txtRecords) acc) by
    exact h [] (by simp [GoMap.WF, GoMap.keys])
  induction infoFields with
  | nil => intro acc h; exact h
  | cons txt rest ih =>
    intro acc h
    simp only [List.foldl_cons]
    apply ih
    split
    · exact GoMap.WF_set h _ _
    · exact GoMap.WF_set h _ _
    · exact h

theorem updateDeviceInfo_idem (toLower : String → String) (info : DeviceInfo)
    (txtRecords : GoMap String) (protocol : Protocol) :
    updateDeviceInfo toLower (updateDeviceInfo toLower info txtRecords protocol)
      txtRecords protocol = updateDeviceInfo toLower info txtRecords protocol := by
  unfold updateDeviceInfo
  cases GoMap.get txtRecords "model" <;> cases GoMap.get txtRecords "osvers" <;>
    cases GoMap.get txtRecords "srcvers" <;> cases GoMap.get txtRecords "deviceid" <;>
    simp only <;> split_ifs <;> rfl

/-- The record `handleEntry` writes back, field by field. -/
theorem updateConfig_eq (toLower : String → String) (config : Config) (entry : ServiceEntry)
    (txtRecords : GoMap String) (protocol : Protocol) :
    updateConfig toLower config entry txtRecords protocol =
      { Address := config.Address
        Name := if config.Name = "" then extractName entry.Name else config.Name
        DeepSleep := config.DeepSleep
        Services := addServiceLoop config.Services (newService entry txtRecords protocol)
        DeviceInfo := updateDeviceInfo toLower config.DeviceInfo txtRecords protocol
        Properties :=
          GoMap.set config.Properties (getServiceTypeForProtocol protocol) txtRecords
        Identifier :=
          if config.Identifier = "" ∧ (newService entry txtRecords protocol).Identifier ≠ "" then
            (newService entry txtRecords protocol).Identifier
          else config.Identifier } := by
  unfold updateConfig Config.AddService
  simp only
  split_ifs <;> rfl

theorem updateConfig_idem (toLower : String → String) (config : Config) (entry : ServiceEntry)
    (txtRecords : GoMap String) (hwf : GoMap.WF txtRecords) (protocol : Protocol) :
    updateConfig toLower (updateConfig toLower config entry txtRecords protocol)
      entry txtRecords protocol = updateConfig toLower config entry txtRecords protocol := by
  rw [updateConfig_eq toLower (updateConfig toLower config entry txtRecords protocol),
    updateConfig_eq toLower config]
  simp only [Config.mk.injEq, true_and]
  refine ⟨?_, ?_, ?_, ?_, ?_⟩
  · split_ifs <;> simp_all
  · exact addServiceLoop_idem _ _ hwf
  · exact updateDeviceInfo_idem _ _ _ _
  · exact GoMap.set_set _ _ _ _
  · split_ifs <;> simp_all

/-- The table after an announcement of a recognized service type. -/
theorem handleEntry_devices (toLower : String → String) (s : Scanner) (entry : ServiceEntry)
    (h : getProtocolFromService entry.Name ≠ 0) :
    (s.handleEntry toLower entry).devices =
      GoMap.set s.devices (announcementKey entry)
        (updateConfig toLower
          ((GoMap.get s.devices (announcementKey entry)).getD (newConfig entry))
          entry (parseTxtRecords entry.InfoFields) (getProtocolFromService entry.Name)) := by
  unfold Scanner.handleEntry announcementKey
  simp only [h, if_false]
  cases GoMap.get s.devices (getDeviceKey entry (parseTxtRecords entry.InfoFields)) <;> rfl

theorem handleEntry_opts (toLower : String → String) (s : Scanner) (entry : ServiceEntry) :
    (s.handleEntry toLower entry).opts = s.opts := by
  unfold Scanner.handleEntry
  simp only
  split_ifs <;> rfl

/-- Handling the same announcement a second time leaves the scanner as it is
after the first time. -/
theorem handleEntry_idem (toLower : String → String) (s : Scanner) (entry : ServiceEntry) :
    (s.handleEntry toLower entry).handleEntry toLower entry = s.handleEntry toLower entry := by
  by_cases h : getProtocolFromService entry.Name = 0
  · simp [Scanner.handleEntry, h]
  · have h1 := handleEntry_devices toLower s entry h
    have h2 := handleEntry_devices toLower (s.handleEntry toLower entry) entry h
    rw [h1, GoMap.get_set_self, Option.getD_some,
      updateConfig_idem _ _ _ _ (parseTxtRecords_WF _), GoMap.set_set, ← h1] at h2
    have h3 := handleEntry_opts toLower (s.handleEntry toLower entry) entry
    cases hx : (s.handleEntry toLower entry).handleEntry toLower entry
    cases hy : s.handleEntry toLower entry
    rw [hx, hy] at h2 h3
    simp only at h2 h3
    rw [h2, h3]

theorem handleEntry_onePerProtocol (toLower : String → String) (s : Scanner)
    (entry : ServiceEntry) (h : s.OnePerProtocol) :
    (s.handleEntry toLower entry).OnePerProtocol := by
  by_cases hp : getProtocolFromService entry.Name = 0
  · simpa [Scanner.handleEntry, hp] using h
  · intro kc hkc
    rw [handleEntry_devices toLower s entry hp] at hkc
    rcases GoMap.mem_set hkc with hold | hnew
    · exact h kc hold
    · rw [hnew]
      simp only
      rw [updateConfig_eq]
      have hbase : ((GoMap.get s.devices (announcementKey entry)).getD
          (newConfig entry)).OnePerProtocol := by
        cases hget : GoMap.get s.devices (announcementKey entry) with
        | none =>
          simp only [Option.getD_none]
          unfold newConfig Config.OnePerProtocol
          simp only
          split_ifs <;> simp
        | some c => exact h _ (GoMap.mem_of_get hget)
      exact addService_onePerProtocol _ (newService entry _ _) hbase

theorem handleEntries_onePerProtocol (toLower : String → String) (entries : List ServiceEntry)
    (s : Scanner) (h : s.OnePerProtocol) :
    (s.handleEntries toLower entries).OnePerProtocol := by
  unfold Scanner.handleEntries
  induction entries generalizing s with
  | nil => exact h
  | cons e rest ih => exact ih _ (handleEntry_onePerProtocol toLower s e h)

/-- In a list without two services of one protocol, the services of a protocol
that occurs are a single one, the one `GetService` finds. -/
theorem filter_protocol_singleton (l : List Service) (p : Protocol)
    (hnd : (l.map (fun s => s.Protocol)).Nodup) (hp : p ∈ l.map (fun s => s.Protocol)) :
    ∃ x, l.filter (fun s => decide (s.Protocol = p)) = [x] ∧
      l.find? (fun s => decide (s.Protocol = p)) = some x := by
  induction l with
  | nil => simp at hp
  | cons s rest ih =>
    simp only [List.map_cons, List.nodup_cons] at hnd
    by_cases hs : s.Protocol = p
    · refine ⟨s, ?_, by simp [List.find?_cons, hs]⟩
      have hnone : rest.filter (fun s => decide (s.Protocol = p)) = [] := by
        rw [List.filter_eq_nil_iff]
        intro x hx hxp
        exact hnd.1 (List.mem_map.mpr ⟨x, hx, by rw [hs]; simpa using hxp⟩)
      simp [List.filter_cons, hs, hnone]
    · have hrest : p ∈ rest.map (fun s => s.Protocol) := by
        simp only [List.map_cons, List.mem_cons] at hp
        rcases hp with hp | hp
        · exact absurd hp.symm hs
        · exact hp
      obtain ⟨x, hx1, hx2⟩ := ih hnd.2 hrest
      exact ⟨x, by simp [List.filter_cons, hs, hx1], by simp [List.find?_cons, hs, hx2]⟩

theorem getDeviceKey_of_deviceIdAttr (entry : ServiceEntry) (txtRecords : GoMap String)
    (d : String) (h : deviceIdAttr txtRecords = some d) : getDeviceKey entry txtRecords = d := by
  unfold deviceIdAttr at h
  unfold getDeviceKey
  cases h1 : GoMap.get txtRecords "deviceid" with
  | some v => rw [h1] at h; simpa using h
  | none =>
    rw [h1] at h
    simp only at h
    rw [h]

theorem newConfig_Services (entry : ServiceEntry) : (newConfig entry).Services = [] := by
  unfold newConfig
  simp only
  split_ifs <;> rfl

/-- Two announcements of different recognized protocols with the same
device-id attribute, handled by a fresh scanner one after the other. -/
theorem handleEntries_pair (toLower : String → String) (opts : ScanOptions)
    (a b : ServiceEntry) (d : String)
    (ha : deviceIdAttr (parseTxtRecords a.InfoFields) = some d)
    (hb : deviceIdAttr (parseTxtRecords b.InfoFields) = some d)
    (hpa : getProtocolFromService a.Name ≠ 0) (hpb : getProtocolFromService b.Name ≠ 0)
    (hne : getProtocolFromService a.Name ≠ getProtocolFromService b.Name) :
    ∃ c, ((NewScanner opts).handleEntries toLower [a, b]).devices = [(d, c)] ∧
      c.Services.map (fun x => x.Protocol) =
        [getProtocolFromService a.Name, getProtocolFromService b.Name] := by
  have hka : announcementKey a = d := getDeviceKey_of_deviceIdAttr a _ d ha
  have hkb : announcementKey b = d := getDeviceKey_of_deviceIdAttr b _ d hb
  have h1 : ((NewScanner opts).handleEntry toLower a).devices =
      [(d, updateConfig toLower (newConfig a) a (parseTxtRecords a.InfoFields)
        (getProtocolFromService a.Name))] := by
    rw [handleEntry_devices toLower _ a hpa, hka]
    simp [NewScanner, GoMap.get, GoMap.set]
  refine ⟨updateConfig toLower
      (updateConfig toLower (newConfig a) a (parseTxtRecords a.InfoFields)
        (getProtocolFromService a.Name))
      b (parseTxtRecords b.InfoFields) (getProtocolFromService b.Name), ?_, ?_⟩
  · unfold Scanner.handleEntries
    simp only [List.foldl_cons, List.foldl_nil]
    rw [handleEntry_devices toLower _ b hpb, hkb, h1]
    simp [GoMap.get, GoMap.set]
  · rw [updateConfig_eq, updateConfig_eq]
    simp only [newConfig_Services]
    simp [addServiceLoop, newService, hne]


/-! ## Lemmas on the record identifier and on `parseModel` -/

theorem handleEntry_identifier_kept (toLower : String → String) (s : Scanner)
    (a : ServiceEntry) (k : String) (c : Config) (h : GoMap.get s.devices k = some c)
    (hne : c.Identifier ≠ "") :
    ∃ c', GoMap.get (s.handleEntry toLower a).devices k = some c' ∧
      c'.Identifier = c.Identifier := by
  by_cases hp : getProtocolFromService a.Name = 0
  · exact ⟨c, by simpa [Scanner.handleEntry, hp] using h, rfl⟩
  · rw [handleEntry_devices toLower s a hp]
    by_cases hk : announcementKey a = k
    · subst hk
      refine ⟨_, GoMap.get_set_self _ _ _, ?_⟩
      rw [h, Option.getD_some, updateConfig_eq]
      simp [hne]
    · exact ⟨c, by rw [GoMap.get_set_ne _ _ hk]; exact h, rfl⟩

theorem handleEntries_identifier_kept (toLower : String → String)
    (entries : List ServiceEntry) (s : Scanner) (k : String) (c : Config)
    (h : GoMap.get s.devices k = some c) (hne : c.Identifier ≠ "") :
    ∃ c', GoMap.get (s.handleEntries toLower entries).devices k = some c' ∧
      c'.Identifier = c.Identifier := by
  unfold Scanner.handleEntries
  induction entries generalizing s c with
  | nil => exact ⟨c, h, rfl⟩
  | cons a rest ih =>
    obtain ⟨c1, h1, e1⟩ := handleEntry_identifier_kept toLower s a k c h hne
    obtain ⟨c2, h2, e2⟩ := ih (s.handleEntry toLower a) c1 h1 (by rw [e1]; exact hne)
    exact ⟨c2, h2, by rw [e2, e1]⟩

theorem newConfig_Identifier (entry : ServiceEntry) : (newConfig entry).Identifier = "" := by
  unfold newConfig
  simp only
  split_ifs <;> rfl

/-- One announcement changes the identifier of the record of a key only from
empty to the non-empty identifier of the service it builds. -/
theorem handleEntry_identifier_change (toLower : String → String) (s : Scanner)
    (a : ServiceEntry) (k : String) (c' : Config)
    (h : GoMap.get (s.handleEntry toLower a).devices k = some c')
    (hch : c'.Identifier ≠ ((GoMap.get s.devices k).map (fun c => c.Identifier)).getD "") :
    ((GoMap.get s.devices k).map (fun c => c.Identifier)).getD "" = "" ∧
    k = announcementKey a ∧
    c'.Identifier = extractIdentifier (parseTxtRecords a.InfoFields)
      (getProtocolFromService a.Name) ∧
    c'.Identifier ≠ "" := by
  by_cases hp : getProtocolFromService a.Name = 0
  · simp only [Scanner.handleEntry, hp, if_true] at h
    rw [h] at hch
    simp at hch
  · rw [handleEntry_devices toLower s a hp] at h
    by_cases hk : announcementKey a = k
    · subst hk
      rw [GoMap.get_set_self] at h
      cases h
      rw [updateConfig_eq] at hch ⊢
      simp only at hch ⊢
      have hold : ((GoMap.get s.devices (announcementKey a)).getD (newConfig a)).Identifier =
          ((GoMap.get s.devices (announcementKey a)).map (fun c => c.Identifier)).getD "" := by
        cases GoMap.get s.devices (announcementKey a) with
        | none => simp [newConfig_Identifier]
        | some c => simp
      rw [hold] at hch ⊢
      by_cases hc : ((GoMap.get s.devices (announcementKey a)).map
          (fun c => c.Identifier)).getD "" = "" ∧
          (newService a (parseTxtRecords a.InfoFields)
            (getProtocolFromService a.Name)).Identifier ≠ ""
      · rw [if_pos hc]
        refine ⟨hc.1, ?_, ?_, hc.2⟩ <;> first | rfl | trivial
      · rw [if_neg hc] at hch
        exact absurd rfl hch
    · rw [GoMap.get_set_ne _ _ hk] at h
      rw [h] at hch
      simp at hch

theorem parseModel_eq_spec (toLower : String → String) (model : String) :
    parseModel toLower model = specParseModel toLower model := by
  unfold parseModel specParseModel modelTokens revisionTokens
  simp only [List.cons_append, List.nil_append, List.find?_cons, List.find?_nil]
  cases GoStr.Contains (toLower model) "appletv3,1" <;>
    cases GoStr.Contains (toLower model) "appletv3,2" <;>
    cases GoStr.Contains (toLower model) "appletv5,3" <;>
    cases GoStr.Contains (toLower model) "appletv6,2" <;>
    cases GoStr.Contains (toLower model) "appletv11,1" <;>
    cases GoStr.Contains (toLower model) "appletv14,1" <;>
    cases GoStr.Contains (toLower model) "homepod" <;>
    cases GoStr.Contains (toLower model) "airport" <;>
    simp

theorem asciiToLower_idem (s : String) : asciiToLower (asciiToLower s) = asciiToLower s := by
  unfold asciiToLower
  simp only [List.map_map]
  congr 1
  apply List.map_congr_left
  intro c _
  simp only [Function.comp]
  by_cases h : 65 ≤ c.toNat ∧ c.toNat ≤ 90
  · simp only [h, and_self, if_true]
    obtain ⟨h1, h2⟩ := h
    generalize c.toNat = n at h1 h2 ⊢
    interval_cases n <;> rfl
  · simp only [h, if_false]

theorem Pair_of_no_service (ctx : Context) (config : Config) (protocol : Protocol)
    (opts : PairOptions) (h : config.GetService protocol = none) :
    Pair ctx config protocol opts =
      .error (.wrapped
        (ErrNoService.Error ++ ": no service available for " ++ Protocol.String protocol)
        ErrNoService) := by
  unfold Pair
  rw [h]

theorem Pair_of_service (ctx : Context) (config : Config) (protocol : Protocol)
    (opts : PairOptions) (service : Service) (h : config.GetService protocol = some service) :
    Pair ctx config protocol opts =
      .ok (NewPairingHandler config (some service) protocol opts) := by
  unfold Pair
  rw [h]


/-! ## Lemmas on the attribute parsing and on the metadata -/

theorem cutChars_eq (l : List Char) :
    GoStr.cutChars ['='] l =
      if '=' ∈ l then
        some (l.takeWhile (fun c => decide (c ≠ '=')),
          (l.dropWhile (fun c => decide (c ≠ '='))).drop 1)
      else none := by
  induction l with
  | nil => simp [GoStr.cutChars, GoStr.startsWith]
  | cons c s ih =>
    by_cases hc : c = '='
    · subst hc
      simp [GoStr.cutChars, GoStr.startsWith, List.takeWhile, List.dropWhile]
    · have hc' : ¬ '=' = c := fun e => hc e.symm
      by_cases hs : '=' ∈ s
      · simp [GoStr.cutChars, GoStr.startsWith, hc, hc', ih, hs, List.takeWhile,
          List.dropWhile]
      · simp [GoStr.cutChars, GoStr.startsWith, hc, hc', ih, hs]

theorem takeWhile_of_not_mem (l : List Char) (h : '=' ∉ l) :
    l.takeWhile (fun c => decide (c ≠ '=')) = l := by
  induction l with
  | nil => rfl
  | cons c s ih =>
    simp only [List.mem_cons, not_or] at h
    have hd : decide (c ≠ '=') = true := decide_eq_true (fun e => h.1 e.symm)
    rw [List.takeWhile_cons]
    simp only [hd, if_true]
    rw [ih h.2]

theorem dropWhile_of_not_mem (l : List Char) (h : '=' ∉ l) :
    l.dropWhile (fun c => decide (c ≠ '=')) = [] := by
  induction l with
  | nil => rfl
  | cons c s ih =>
    simp only [List.mem_cons, not_or] at h
    have hd : decide (c ≠ '=') = true := decide_eq_true (fun e => h.1 e.symm)
    rw [List.dropWhile_cons]
    simp only [hd, if_true]
    rw [ih h.2]

theorem takeWhile_append_eq (k v : List Char) (h : '=' ∉ k) :
    (k ++ '=' :: v).takeWhile (fun c => decide (c ≠ '=')) = k := by
  induction k with
  | nil => simp [List.takeWhile]
  | cons c s ih =>
    simp only [List.mem_cons, not_or] at h
    have hd : decide (c ≠ '=') = true := decide_eq_true (fun e => h.1 e.symm)
    rw [List.cons_append, List.takeWhile_cons]
    simp only [hd, if_true]
    rw [ih h.2]

theorem dropWhile_append_eq (k v : List Char) (h : '=' ∉ k) :
    (k ++ '=' :: v).dropWhile (fun c => decide (c ≠ '=')) = '=' :: v := by
  induction k with
  | nil => simp [List.dropWhile]
  | cons c s ih =>
    simp only [List.mem_cons, not_or] at h
    have hd : decide (c ≠ '=') = true := decide_eq_true (fun e => h.1 e.symm)
    rw [List.cons_append, List.dropWhile_cons]
    simp only [hd, if_true]
    rw [ih h.2]

/-- Without `=` the key is the whole string and the value is empty. -/
theorem attr_of_bare (txt : String) (h : '=' ∉ txt.data) :
    attrKey txt = txt ∧ attrValue txt = "" := by
  unfold attrKey attrValue
  rw [takeWhile_of_not_mem _ h, dropWhile_of_not_mem _ h]
  exact ⟨rfl, rfl⟩

/-- One step of the parsing loop assigns the value of the string to its key. -/
theorem parse_step (txtRecords : GoMap String) (txt : String) :
    (match GoStr.SplitN2 txt "=" with
      | [k, v] => GoMap.set txtRecords k v
      | [k] => GoMap.set txtRecords k ""
      | _ => txtRecords) = GoMap.set txtRecords (attrKey txt) (attrValue txt) := by
  unfold GoStr.SplitN2
  have hsep : ("=" : String).data = ['='] := rfl
  rw [hsep, cutChars_eq]
  by_cases h : '=' ∈ txt.data
  · simp only [h, if_true]
    rfl
  · simp only [h, if_false]
    rw [(attr_of_bare txt h).1, (attr_of_bare txt h).2]

theorem parseTxtRecords_eq_foldl (infoFields : List String) :
    parseTxtRecords infoFields =
      infoFields.foldl (fun m txt => GoMap.set m (attrKey txt) (attrValue txt)) [] := by
  unfold parseTxtRecords
  congr 1
  funext m txt
  exact parse_step m txt

theorem get_foldl_attr (infoFields : List String) (m : GoMap String) (k : String) :
    GoMap.get (infoFields.foldl (fun m txt => GoMap.set m (attrKey txt) (attrValue txt)) m) k =
      match infoFields.reverse.find? (fun txt => decide (attrKey txt = k)) with
      | some txt => some (attrValue txt)
      | none => GoMap.get m k := by
  induction infoFields generalizing m with
  | nil => simp
  | cons f rest ih =>
    simp only [List.foldl_cons, List.reverse_cons, List.find?_append]
    rw [ih]
    cases hr : rest.reverse.find? (fun txt => decide (attrKey txt = k)) with
    | some txt => simp
    | none =>
      by_cases hk : attrKey f = k
      · subst hk
        simp [GoMap.get_set_self]
      · simp [hk, GoMap.get_set_ne _ _ hk]

theorem get_ne_none_iff_mem_keys {β : Type} (m : GoMap β) (k : String) :
    GoMap.get m k ≠ none ↔ k ∈ GoMap.keys m := by
  constructor
  · intro h
    by_contra hk
    exact h (GoMap.get_eq_none_of_not_mem_keys hk)
  · intro hk
    induction m with
    | nil => simp [GoMap.keys] at hk
    | cons kv rest ih =>
      obtain ⟨k0, v0⟩ := kv
      by_cases h0 : k0 = k
      · simp [GoMap.get, h0]
      · simp only [GoMap.get, h0, if_false]
        apply ih
        simp only [GoMap.keys, List.map_cons, List.mem_cons] at hk
        rcases hk with hk | hk
        · exact absurd hk.symm h0
        · exact hk

theorem getProtocolFromService_of_no_type (name : String)
    (h : ∀ st ∈ serviceTypes, GoStr.Contains name st.1 = false) :
    getProtocolFromService name = 0 := by
  unfold getProtocolFromService
  have h1 := h (ServiceTypeMRP, ProtocolMRP) (by simp [serviceTypes])
  have h2 := h (ServiceTypeDMAP, ProtocolDMAP) (by simp [serviceTypes])
  have h3 := h (ServiceTypeAirPlay, ProtocolAirPlay) (by simp [serviceTypes])
  have h4 := h (ServiceTypeRAOP, ProtocolRAOP) (by simp [serviceTypes])
  have h5 := h (ServiceTypeCompanion, ProtocolCompanion) (by simp [serviceTypes])
  simp only at h1 h2 h3 h4 h5
  simp [h1, h2, h3, h4, h5]

theorem handleEntry_of_unrecognized (toLower : String → String) (s : Scanner)
    (a : ServiceEntry) (h : getProtocolFromService a.Name = 0) :
    s.handleEntry toLower a = s := by
  simp [Scanner.handleEntry, h]

/-- Adding a service without identifier does not change `Ready`. -/
theorem ready_addService_empty (c : Config) (svc : Service) (h : svc.Identifier = "") :
    (c.AddService svc).Ready = c.Ready := by
  by_cases hp : svc.Protocol ∈ c.Services.map (fun s => s.Protocol)
  · exact ready_eq_of_identifiers (addServiceLoop_identifiers_present _ _ hp)
  · unfold Config.Ready Config.AddService
    simp only
    rw [addServiceLoop_absent _ _ hp, List.any_append]
    simp [h]

theorem ready_updateConfig (toLower : String → String) (config : Config)
    (entry : ServiceEntry) (txtRecords : GoMap String) (protocol : Protocol) :
    (updateConfig toLower config entry txtRecords protocol).Ready =
      (config.AddService (newService entry txtRecords protocol)).Ready := by
  rw [updateConfig_eq]
  rfl

theorem newConfig_Ready (entry : ServiceEntry) : (newConfig entry).Ready = false := by
  unfold Config.Ready
  rw [newConfig_Services]
  rfl

theorem contains_colon_ne_empty (mac : String) (h : GoStr.Contains mac ":" = true) :
    mac ≠ "" := by
  intro e
  subst e
  exact absurd h (by decide)

/-- The metadata block after `updateDeviceInfo`, field by field. -/
theorem updateDeviceInfo_eq (toLower : String → String) (info : DeviceInfo)
    (txtRecords : GoMap String) (protocol : Protocol) :
    updateDeviceInfo toLower info txtRecords protocol =
      { OperatingSystem :=
          match GoMap.get txtRecords "osvers" with
          | some _ => OperatingSystemTvOS
          | none => info.OperatingSystem
        Version := (GoMap.get txtRecords "osvers").getD info.Version
        BuildNumber := (GoMap.get txtRecords "srcvers").getD info.BuildNumber
        Model :=
          match GoMap.get txtRecords "model" with
          | some model => parseModel toLower model
          | none => info.Model
        RawModel := (GoMap.get txtRecords "model").getD info.RawModel
        MAC :=
          match GoMap.get txtRecords "deviceid" with
          | some mac => if GoStr.Contains mac ":" then mac else info.MAC
          | none => info.MAC
        OutputDeviceID := info.OutputDeviceID } := by
  unfold updateDeviceInfo
  cases GoMap.get txtRecords "model" <;> cases GoMap.get txtRecords "osvers" <;>
    cases GoMap.get txtRecords "srcvers" <;> cases GoMap.get txtRecords "deviceid" <;>
    simp only [Option.getD_some, Option.getD_none] <;> split_ifs <;> rfl


/-! ## Lemmas on the display name -/

theorem startsWith_append (x y sep : List Char) (h : GoStr.startsWith x sep = true) :
    GoStr.startsWith (x ++ y) sep = true := by
  induction sep generalizing x with
  | nil => cases x <;> cases y <;> simp [GoStr.startsWith]
  | cons p pre ih =>
    cases x with
    | nil => simp [GoStr.startsWith] at h
    | cons c s =>
      simp only [GoStr.startsWith, Bool.and_eq_true, decide_eq_true_eq] at h
      simp only [List.cons_append, GoStr.startsWith, Bool.and_eq_true, decide_eq_true_eq]
      exact ⟨h.1, ih s h.2⟩

theorem beforeFirstChars_cons_pos (sep : List Char) (c : Char) (s : List Char)
    (h : GoStr.startsWith (c :: s) sep = true) : beforeFirstChars sep (c :: s) = [] := by
  rw [beforeFirstChars, if_pos h]

theorem beforeFirstChars_cons_neg (sep : List Char) (c : Char) (s : List Char)
    (h : GoStr.startsWith (c :: s) sep = false) :
    beforeFirstChars sep (c :: s) = c :: beforeFirstChars sep s := by
  rw [beforeFirstChars, if_neg (by rw [h]; exact Bool.false_ne_true)]

theorem splitChars_head (sep s cur : List Char) :
    (GoStr.splitChars sep s 0 cur).head? = some (cur.reverse ++ beforeFirstChars sep s) := by
  induction s generalizing cur with
  | nil => simp [GoStr.splitChars, beforeFirstChars]
  | cons c s ih =>
    cases h : GoStr.startsWith (c :: s) sep with
    | true =>
      rw [beforeFirstChars_cons_pos sep c s h, GoStr.splitChars, if_pos h]
      simp
    | false =>
      rw [beforeFirstChars_cons_neg sep c s h, GoStr.splitChars,
        if_neg (by rw [h]; exact Bool.false_ne_true), ih]
      simp

theorem extractName_eq (serviceName : String) :
    extractName serviceName = textBeforeFirst serviceName "._" := by
  unfold extractName GoStr.Split textBeforeFirst
  have h := splitChars_head ("._" : String).data serviceName.data []
  cases hs : GoStr.splitChars ("._" : String).data serviceName.data 0 [] with
  | nil => rw [hs] at h; simp at h
  | cons part rest =>
    rw [hs] at h
    simp only [List.head?_cons, Option.some.injEq, List.reverse_nil, List.nil_append] at h
    simp only [List.map_cons, h]

/-- The text before the first occurrence is a prefix, followed by the
separator or by nothing. -/
theorem beforeFirstChars_prefix (sep s : List Char) :
    ∃ rest, s = beforeFirstChars sep s ++ rest ∧
      (rest = [] ∨ GoStr.startsWith rest sep = true) := by
  induction s with
  | nil => exact ⟨[], rfl, Or.inl rfl⟩
  | cons c s ih =>
    cases h : GoStr.startsWith (c :: s) sep with
    | true =>
      exact ⟨c :: s, by rw [beforeFirstChars_cons_pos sep c s h]; rfl, Or.inr h⟩
    | false =>
      obtain ⟨rest, hr, hs⟩ := ih
      refine ⟨rest, ?_, hs⟩
      rw [beforeFirstChars_cons_neg sep c s h, List.cons_append, ← hr]

/-- No occurrence of the separator starts inside the text before the first
one. -/
theorem beforeFirstChars_no_earlier (sep s : List Char) (i : Nat)
    (hi : i < (beforeFirstChars sep s).length) : GoStr.startsWith (s.drop i) sep = false := by
  induction s generalizing i with
  | nil => simp [beforeFirstChars] at hi
  | cons c s ih =>
    cases h : GoStr.startsWith (c :: s) sep with
    | true =>
      rw [beforeFirstChars_cons_pos sep c s h] at hi
      simp at hi
    | false =>
      rw [beforeFirstChars_cons_neg sep c s h] at hi
      cases i with
      | zero => simpa using h
      | succ j =>
        simp only [List.length_cons, Nat.add_lt_add_iff_right] at hi
        simpa using ih j hi

theorem containsChars_nil_of_ne (sep : List Char) (hsep : sep ≠ []) :
    GoStr.containsChars [] sep = false := by
  cases sep with
  | nil => exact absurd rfl hsep
  | cons p pre => rfl

theorem beforeFirstChars_not_contains (sep s : List Char) (hsep : sep ≠ []) :
    GoStr.containsChars (beforeFirstChars sep s) sep = false := by
  induction s with
  | nil => exact containsChars_nil_of_ne sep hsep
  | cons c s ih =>
    cases h : GoStr.startsWith (c :: s) sep with
    | true =>
      rw [beforeFirstChars_cons_pos sep c s h]
      exact containsChars_nil_of_ne sep hsep
    | false =>
      rw [beforeFirstChars_cons_neg sep c s h, GoStr.containsChars, ih, Bool.or_false]
      obtain ⟨rest, hr, _⟩ := beforeFirstChars_prefix sep s
      cases hx : GoStr.startsWith (c :: beforeFirstChars sep s) sep with
      | false => rfl
      | true =>
        have hcontra := startsWith_append (c :: beforeFirstChars sep s) rest sep hx
        rw [List.cons_append, ← hr, h] at hcontra
        exact absurd hcontra Bool.false_ne_true

theorem beforeFirstChars_of_not_contains (sep s : List Char)
    (h : GoStr.containsChars s sep = false) : beforeFirstChars sep s = s := by
  induction s with
  | nil => rfl
  | cons c s ih =>
    rw [GoStr.containsChars, Bool.or_eq_false_iff] at h
    rw [beforeFirstChars_cons_neg sep c s h.1, ih h.2]

/-! ## Lemmas on names, addresses, readiness and the pairing handler -/

theorem handleEntry_name_address_kept (toLower : String → String) (s : Scanner)
    (a : ServiceEntry) (k : String) (c : Config) (h : GoMap.get s.devices k = some c) :
    ∃ c', GoMap.get (s.handleEntry toLower a).devices k = some c' ∧
      c'.Address = c.Address ∧ (c.Name ≠ "" → c'.Name = c.Name) := by
  by_cases hp : getProtocolFromService a.Name = 0
  · exact ⟨c, by simpa [Scanner.handleEntry, hp] using h, rfl, fun _ => rfl⟩
  · rw [handleEntry_devices toLower s a hp]
    by_cases hk : announcementKey a = k
    · subst hk
      refine ⟨_, GoMap.get_set_self _ _ _, ?_, ?_⟩
      · rw [h, Option.getD_some, updateConfig_eq]
      · intro hne
        rw [h, Option.getD_some, updateConfig_eq]
        simp [hne]
    · exact ⟨c, by rw [GoMap.get_set_ne _ _ hk]; exact h, rfl, fun _ => rfl⟩

theorem handleEntries_name_address_kept (toLower : String → String)
    (entries : List ServiceEntry) (s : Scanner) (k : String) (c : Config)
    (h : GoMap.get s.devices k = some c) :
    ∃ c', GoMap.get (s.handleEntries toLower entries).devices k = some c' ∧
      c'.Address = c.Address ∧ (c.Name ≠ "" → c'.Name = c.Name) := by
  unfold Scanner.handleEntries
  induction entries generalizing s c with
  | nil => exact ⟨c, h, rfl, fun _ => rfl⟩
  | cons a rest ih =>
    obtain ⟨c1, h1, ha1, hn1⟩ := handleEntry_name_address_kept toLower s a k c h
    obtain ⟨c2, h2, ha2, hn2⟩ := ih (s.handleEntry toLower a) c1 h1
    refine ⟨c2, h2, by rw [ha2, ha1], ?_⟩
    intro hne
    rw [hn2 (by rw [hn1 hne]; exact hne), hn1 hne]

/-- A record that `updateConfig` makes ready from a record that was not ready
got a service with a non-empty identifier. -/
theorem updateConfig_ready_identifier (toLower : String → String) (config : Config)
    (entry : ServiceEntry) (txtRecords : GoMap String) (protocol : Protocol)
    (h : config.Ready = true → config.Identifier ≠ "")
    (hr : (updateConfig toLower config entry txtRecords protocol).Ready = true) :
    (updateConfig toLower config entry txtRecords protocol).Identifier ≠ "" := by
  rw [ready_updateConfig] at hr
  rw [updateConfig_eq]
  simp only
  by_cases hid : (newService entry txtRecords protocol).Identifier = ""
  · rw [ready_addService_empty _ _ hid] at hr
    simp only [hid, ne_eq, not_true_eq_false, and_false, if_false]
    exact h hr
  · by_cases hc : config.Identifier = ""
    · simp only [hc, hid, ne_eq, not_false_eq_true, and_self, if_true]
    · simp only [hc, false_and, if_false, ne_eq, not_false_eq_true]

theorem handleEntry_readyHasIdentifier (toLower : String → String) (s : Scanner)
    (a : ServiceEntry) (h : s.ReadyHasIdentifier) :
    (s.handleEntry toLower a).ReadyHasIdentifier := by
  by_cases hp : getProtocolFromService a.Name = 0
  · simpa [Scanner.handleEntry, hp] using h
  · intro kc hkc hready
    rw [handleEntry_devices toLower s a hp] at hkc
    rcases GoMap.mem_set hkc with hold | hnew
    · exact h kc hold hready
    · rw [hnew] at hready ⊢
      simp only at hready ⊢
      apply updateConfig_ready_identifier toLower _ a _ _ _ hready
      cases hget : GoMap.get s.devices (announcementKey a) with
      | none =>
        intro hr
        rw [Option.getD_none, newConfig_Ready] at hr
        exact absurd hr Bool.false_ne_true
      | some c => exact h _ (GoMap.mem_of_get hget)

theorem handleEntries_readyHasIdentifier (toLower : String → String)
    (entries : List ServiceEntry) (s : Scanner) (h : s.ReadyHasIdentifier) :
    (s.handleEntries toLower entries).ReadyHasIdentifier := by
  unfold Scanner.handleEntries
  induction entries generalizing s with
  | nil => exact h
  | cons e rest ih => exact ih _ (handleEntry_readyHasIdentifier toLower s e h)

theorem mem_values_iff {β : Type} (m : GoMap β) (v : β) :
    v ∈ GoMap.values m ↔ ∃ k, (k, v) ∈ m := by
  unfold GoMap.values
  simp [List.mem_map]

theorem getProtocolFromService_eq_zero_iff (name : String) :
    getProtocolFromService name = 0 ↔
      ∀ st ∈ serviceTypes, GoStr.Contains name st.1 = false := by
  constructor
  · intro h st hst
    unfold getProtocolFromService at h
    simp only [serviceTypes, List.mem_cons, List.mem_singleton, List.not_mem_nil, or_false]
      at hst
    cases h1 : GoStr.Contains name ServiceTypeMRP <;>
      cases h2 : GoStr.Contains name ServiceTypeDMAP <;>
      cases h3 : GoStr.Contains name ServiceTypeAirPlay <;>
      cases h4 : GoStr.Contains name ServiceTypeRAOP <;>
      cases h5 : GoStr.Contains name ServiceTypeCompanion <;>
      first
      | (simp [h1, h2, h3, h4, h5] at h; done)
      | (rcases hst with e | e | e | e | e <;> (rw [e]; assumption))
  · exact getProtocolFromService_of_no_type name

/-- The list after a merge: the service found is replaced, its neighbours are
the same. -/
theorem addServiceLoop_merge_split (l : List Service) (svc e : Service)
    (h : l.find? (fun s => decide (s.Protocol = svc.Protocol)) = some e) :
    ∃ before after, l = before ++ e :: after ∧
      addServiceLoop l svc = before ++ e.merge svc :: after ∧
      ∀ x ∈ before, x.Protocol ≠ svc.Protocol := by
  induction l with
  | nil => simp at h
  | cons s rest ih =>
    by_cases hs : s.Protocol = svc.Protocol
    · simp [List.find?_cons, hs] at h
      subst h
      exact ⟨[], rest, rfl, by simp [addServiceLoop, hs], by simp⟩
    · simp [List.find?_cons, hs] at h
      obtain ⟨before, after, hl, hadd, hb⟩ := ih h
      refine ⟨s :: before, after, by rw [hl]; rfl, ?_, ?_⟩
      · simp [addServiceLoop, hs, hadd]
      · intro x hx
        rcases List.mem_cons.mp hx with rfl | hx
        · exact hs
        · exact hb x hx

theorem merge_frame (e svc : Service) :
    (e.merge svc).Protocol = e.Protocol ∧ (e.merge svc).Port = e.Port ∧
    (e.merge svc).Enabled = e.Enabled ∧ (e.merge svc).RequiresPassword = e.RequiresPassword ∧
    (e.merge svc).Pairing = e.Pairing ∧ (e.merge svc).Identifier = e.Identifier := by
  rw [merge_eq]
  exact ⟨rfl, rfl, rfl, rfl, rfl, rfl⟩

theorem call_paired_mono (ctx : Context) (p : DefaultPairingHandler) (c : PairingCall)
    (h : p.paired = true) : (p.call ctx c).paired = true := by
  cases c with
  | Begin => exact h
  | Finish =>
    unfold DefaultPairingHandler.call DefaultPairingHandler.Finish
    split_ifs
    · exact h
    · rfl
  | Pin pin => exact h
  | Close => exact h

theorem calls_paired_mono (ctx : Context) (calls : List PairingCall)
    (p : DefaultPairingHandler) (h : p.paired = true) : (p.calls ctx calls).paired = true := by
  unfold DefaultPairingHandler.calls
  induction calls generalizing p with
  | nil => exact h
  | cons c rest ih => exact ih _ (call_paired_mono ctx p c h)

/-- A handler that is paired after a sequence of calls was paired before it, or
one of the calls is a `Finish` made when a PIN was set. -/
theorem calls_paired_cause (ctx : Context) (calls : List PairingCall)
    (p : DefaultPairingHandler) (h : (p.calls ctx calls).paired = true) :
    p.paired = true ∨
      ∃ before after, calls = before ++ PairingCall.Finish :: after ∧
        (p.calls ctx before).pin ≠ "" := by
  induction calls generalizing p with
  | nil => exact Or.inl h
  | cons c rest ih =>
    have hstep : (p.call ctx c).calls ctx rest = p.calls ctx (c :: rest) := rfl
    rcases ih (p.call ctx c) (by rw [hstep]; exact h) with h1 | ⟨before, after, hl, hpin⟩
    · cases c with
      | Begin => exact Or.inl h1
      | Pin pin => exact Or.inl h1
      | Close => exact Or.inl h1
      | Finish =>
        by_cases hp : p.pin = ""
        · left
          simpa [DefaultPairingHandler.call, DefaultPairingHandler.Finish, hp] using h1
        · exact Or.inr ⟨[], rest, rfl, hp⟩
    · exact Or.inr ⟨c :: before, after, by rw [hl]; rfl, hpin⟩

theorem Connect_ok (ctx : Context) (config : Config) (opts : ConnectOptions)
    (hs : config.Services ≠ []) (hid : config.Identifier ≠ "") :
    Connect ctx config opts = .ok { config := config, opts := opts, connected := true } := by
  have hlen : ¬ config.Services.length = 0 := by
    simpa [List.length_eq_zero] using hs
  simp [Connect, hlen, hid, NewAppleTVConnection, AppleTVConnection.Connect]

theorem services_ne_nil_of_ready (c : Config) (h : c.Ready = true) : c.Services ≠ [] := by
  intro hn
  rw [Config.Ready, hn] at h
  exact absurd h (by decide)

theorem newScanner_readyHasIdentifier (opts : ScanOptions) :
    (NewScanner opts).ReadyHasIdentifier := by
  intro kc hkc
  simp [NewScanner] at hkc

/-! ## Lemmas on nil maps and on what `Discover` does -/

theorem addServiceLoop_allocated (l : List Service) (svc : Service)
    (hl : ∀ sv ∈ l, sv.PropertiesNil = false) (hsvc : svc.PropertiesNil = false) :
    ∀ sv ∈ addServiceLoop l svc, sv.PropertiesNil = false := by
  induction l with
  | nil =>
    intro sv hsv
    simp only [addServiceLoop, List.mem_singleton] at hsv
    rw [hsv]
    exact hsvc
  | cons s rest ih =>
    intro sv hsv
    by_cases hs : s.Protocol = svc.Protocol
    · simp only [addServiceLoop, hs, if_true, List.mem_cons] at hsv
      rcases hsv with e | hmem
      · rw [e, merge_PropertiesNil]
        exact hl s (List.mem_cons_self _ _)
      · exact hl sv (List.mem_cons_of_mem _ hmem)
    · simp only [addServiceLoop, hs, if_false, List.mem_cons] at hsv
      rcases hsv with e | hmem
      · rw [e]
        exact hl s (List.mem_cons_self _ _)
      · exact ih (fun x hx => hl x (List.mem_cons_of_mem _ hx)) sv hmem

theorem addServicePanics_of_allocated (c : Config) (svc : Service)
    (h : ∀ sv ∈ c.Services, sv.PropertiesNil = false) : c.AddServicePanics svc = false := by
  unfold Config.AddServicePanics
  cases hf : c.Services.find? (fun s => decide (s.Protocol = svc.Protocol)) with
  | none => rfl
  | some e =>
    simp only [Service.mergePanics, h e (List.mem_of_find?_eq_some hf), Bool.false_and]

theorem handleEntry_mapsAllocated (toLower : String → String) (s : Scanner)
    (a : ServiceEntry) (h : s.MapsAllocated) : (s.handleEntry toLower a).MapsAllocated := by
  by_cases hp : getProtocolFromService a.Name = 0
  · simpa [Scanner.handleEntry, hp] using h
  · intro kc hkc
    rw [handleEntry_devices toLower s a hp] at hkc
    rcases GoMap.mem_set hkc with hold | hnew
    · exact h kc hold
    · rw [hnew]
      simp only
      rw [updateConfig_eq]
      apply addServiceLoop_allocated _ _ _ rfl
      cases hget : GoMap.get s.devices (announcementKey a) with
      | none =>
        rw [Option.getD_none, newConfig_Services]
        intro sv hsv
        simp at hsv
      | some c => exact h _ (GoMap.mem_of_get hget)

theorem handleEntries_mapsAllocated (toLower : String → String)
    (entries : List ServiceEntry) (s : Scanner) (h : s.MapsAllocated) :
    (s.handleEntries toLower entries).MapsAllocated := by
  unfold Scanner.handleEntries
  induction entries generalizing s with
  | nil => exact h
  | cons e rest ih => exact ih _ (handleEntry_mapsAllocated toLower s e h)

theorem handleEntries_opts (toLower : String → String) (entries : List ServiceEntry)
    (s : Scanner) : (s.handleEntries toLower entries).opts = s.opts := by
  unfold Scanner.handleEntries
  induction entries generalizing s with
  | nil => rfl
  | cons e rest ih => rw [List.foldl_cons, ih, handleEntry_opts]

theorem filterDevices_spec (s : Scanner) (visited : List Config)
    (hvisit : visited.Perm (GoMap.values s.devices)) :
    (∀ c, c ∈ s.filterDevices visited ↔
      (c ∈ GoMap.values s.devices ∧ c.Ready = true ∧
        (s.opts.Identifier = "" ∨ s.opts.Identifier ∈ c.AllIdentifiers))) ∧
    (s.filterDevices visited).Perm
      ((GoMap.values s.devices).filter (fun c => c.Ready &&
        (decide (s.opts.Identifier = "") || decide (s.opts.Identifier ∈ c.AllIdentifiers)))) ∧
    (∀ c sv, c.Services = [sv] → sv.Identifier = "" → c ∉ s.filterDevices visited) ∧
    (∀ c, (GoMap.values s.devices).filter
        (fun d => d.Ready && decide (s.opts.Identifier ∈ d.AllIdentifiers)) = [c] →
      s.filterDevices visited = [c]) := by
  have hmem : ∀ c, c ∈ s.filterDevices visited ↔
      (c ∈ GoMap.values s.devices ∧ c.Ready = true ∧
        (s.opts.Identifier = "" ∨ s.opts.Identifier ∈ c.AllIdentifiers)) := by
    intro c
    rw [filterDevices_eq_filter, List.mem_filter, hvisit.mem_iff]
    simp
  have hperm : (s.filterDevices visited).Perm
      ((GoMap.values s.devices).filter (fun c => c.Ready &&
        (decide (s.opts.Identifier = "") || decide (s.opts.Identifier ∈ c.AllIdentifiers)))) := by
    rw [filterDevices_eq_filter]
    exact hvisit.filter _
  refine ⟨hmem, hperm, ?_, ?_⟩
  · intro c sv hc hsv hin
    have hready := ((hmem c).mp hin).2.1
    obtain ⟨x, hx, hne⟩ := (ready_iff_exists c).mp hready
    rw [hc, List.mem_singleton] at hx
    exact hne (hx ▸ hsv)
  · intro c hone
    have hc : c ∈ (GoMap.values s.devices).filter
        (fun d => d.Ready && decide (s.opts.Identifier ∈ d.AllIdentifiers)) := by
      rw [hone]; exact List.mem_singleton_self c
    have hcid : s.opts.Identifier ∈ c.AllIdentifiers := by
      have := (List.mem_filter.mp hc).2
      simp at this
      exact this.2
    have hne : s.opts.Identifier ≠ "" := ((mem_AllIdentifiers c _).mp hcid).1
    have hsame : (GoMap.values s.devices).filter (fun c => c.Ready &&
        (decide (s.opts.Identifier = "") || decide (s.opts.Identifier ∈ c.AllIdentifiers))) =
        (GoMap.values s.devices).filter
          (fun d => d.Ready && decide (s.opts.Identifier ∈ d.AllIdentifiers)) := by
      apply List.filter_congr
      intro d _
      simp [hne]
    rw [hsame, hone] at hperm
    exact List.perm_singleton.mp hperm

theorem queryEntries_congr (s : Scanner) (query other : Transport)
    (h : ∀ q ∈ s.queryParams, other q = query q) :
    s.queryEntries other = s.queryEntries query := by
  unfold Scanner.queryEntries
  congr 1
  apply List.map_congr_left
  intro q hq
  rw [h q hq]

theorem queryWarnings_congr (s : Scanner) (query other : Transport)
    (h : ∀ q ∈ s.queryParams, other q = query q) :
    s.queryWarnings other = s.queryWarnings query := by
  unfold Scanner.queryWarnings
  apply List.filterMap_congr
  intro q hq
  rw [h q hq]

theorem Discover_congr (toLower : String → String) (s : Scanner) (ctx : Context)
    (query other : Transport) (visited : List Config)
    (h : ∀ q ∈ s.queryParams, other q = query q) :
    s.Discover toLower ctx other visited = s.Discover toLower ctx query visited := by
  unfold Scanner.Discover
  simp only [queryEntries_congr s query other h, queryWarnings_congr s query other h]

theorem queryParams_services (s : Scanner) :
    (s.opts.Protocol = none →
      s.queryParams.map (fun q => q.Service) =
        ["_mediaremotetv._tcp", "_dacp._tcp", "_airplay._tcp", "_raop._tcp",
         "_companion-link._tcp"]) ∧
    (∀ st ∈ serviceTypes, s.opts.Protocol = some st.2 →
      s.queryParams.map (fun q => q.Service) = [st.1]) ∧
    (∀ p : Protocol, s.opts.Protocol = some p → (∀ st ∈ serviceTypes, st.2 ≠ p) →
      s.queryParams = []) ∧
    (∀ other : Scanner, other.opts.Protocol = s.opts.Protocol →
      other.queryParams.map (fun q => q.Service) = s.queryParams.map (fun q => q.Service)) ∧
    (∀ q ∈ s.queryParams, q.Timeout = s.timeout ∧ q.WantUnicastResponse = true) := by
  refine ⟨?_, ?_, ?_, ?_, ?_⟩
  · intro h
    simp [Scanner.queryParams, serviceTypes, h]
  · intro st hst h
    simp only [serviceTypes, List.mem_cons, List.mem_singleton, List.not_mem_nil, or_false]
      at hst
    rcases hst with e | e | e | e | e <;> subst e <;>
      simp [Scanner.queryParams, serviceTypes, h, List.filter_cons]
  · intro p h hnone
    have h1 := hnone (ServiceTypeMRP, ProtocolMRP) (by simp [serviceTypes])
    have h2 := hnone (ServiceTypeDMAP, ProtocolDMAP) (by simp [serviceTypes])
    have h3 := hnone (ServiceTypeAirPlay, ProtocolAirPlay) (by simp [serviceTypes])
    have h4 := hnone (ServiceTypeRAOP, ProtocolRAOP) (by simp [serviceTypes])
    have h5 := hnone (ServiceTypeCompanion, ProtocolCompanion) (by simp [serviceTypes])
    simp only at h1 h2 h3 h4 h5
    simp [Scanner.queryParams, serviceTypes, h, List.filter_cons, Ne.symm h1, Ne.symm h2,
      Ne.symm h3, Ne.symm h4, Ne.symm h5]
  · intro other h
    unfold Scanner.queryParams
    rw [h]
    simp [List.map_map, Function.comp]
  · intro q hq
    unfold Scanner.queryParams at hq
    obtain ⟨st, _, rfl⟩ := List.mem_map.mp hq
    exact ⟨rfl, rfl⟩

theorem mergePanics_of_addServicePanics (c : Config) (svc e : Service)
    (h : c.GetService svc.Protocol = some e) :
    c.AddServicePanics svc = e.mergePanics svc := by
  unfold Config.AddServicePanics
  unfold Config.GetService at h
  rw [h]

theorem addService_properties_union (c : Config) (svc e : Service)
    (h : c.GetService svc.Protocol = some e) (hok : c.AddServicePanics svc = false)
    (hwf : GoMap.WF svc.Properties) :
    ∃ e', (c.AddService svc).GetService svc.Protocol = some e' ∧
      (∀ k v, GoMap.get svc.Properties k = some v → GoMap.get e'.Properties k = some v) ∧
      (∀ k, GoMap.get svc.Properties k = none →
        GoMap.get e'.Properties k = GoMap.get e.Properties k) ∧
      (∀ k, GoMap.get e.Properties k ≠ none → GoMap.get e'.Properties k ≠ none) := by
  have hmp : e.mergePanics svc = false := by
    rw [← mergePanics_of_addServicePanics c svc e h]
    exact hok
  refine ⟨e.merge svc, getService_addService_merge c svc e h, ?_, ?_, ?_⟩
  · intro k v hk
    rw [merge_Properties _ _ hmp, GoMap.get_foldl_set _ hwf, hk]
  · intro k hk
    rw [merge_Properties _ _ hmp, GoMap.get_foldl_set _ hwf, hk]
  · intro k hk
    rw [merge_Properties _ _ hmp, GoMap.get_foldl_set _ hwf]
    cases hs : GoMap.get svc.Properties k with
    | none => simpa using hk
    | some v => simp

theorem newScanner_addService_total (toLower : String → String) (opts : ScanOptions)
    (entries : List ServiceEntry) (service : Service) :
    ∀ kc ∈ ((NewScanner opts).handleEntries toLower entries).devices,
      kc.2.AddServicePanics service = false := by
  intro kc hkc
  apply addServicePanics_of_allocated
  have hall : ((NewScanner opts).handleEntries toLower entries).MapsAllocated :=
    handleEntries_mapsAllocated toLower entries _ (by
      intro kc hkc
      simp [NewScanner] at hkc)
  exact hall kc hkc


/-! ## The result filter of `Discover` -/

/-- C1: for every table and identity filter, whatever order the table is
visited in, `Scanner.Discover` hands the announcements of its queries to
`handleEntry` (so with queries that deliver nothing the table is the one the
scanner has) and returns exactly the records of the resulting table that are
ready and, when the filter string is set, carry it among `AllIdentifiers` (as a
set, and with the multiplicities of the table); a record whose only service has
an empty identifier is never returned; and when exactly one ready record of the
table carries the filter string among its identifiers, the result is the
one-element list of that record. -/
theorem Discover_returns_ready_matching (toLower : String → String) (s : Scanner)
    (ctx : Context) (query : Transport) (visited : List Config)
    (hvisit : visited.Perm
      (GoMap.values (s.Discover toLower ctx query visited).scanner.devices)) :
    (s.Discover toLower ctx query visited).scanner =
      s.handleEntries toLower (s.queryEntries query) ∧
    (s.queryEntries query = [] →
      (s.Discover toLower ctx query visited).scanner.devices = s.devices) ∧
    (∀ c, c ∈ (s.Discover toLower ctx query visited).result ↔
      (c ∈ GoMap.values (s.Discover toLower ctx query visited).scanner.devices ∧
        c.Ready = true ∧
        (s.opts.Identifier = "" ∨ s.opts.Identifier ∈ c.AllIdentifiers))) ∧
    ((s.Discover toLower ctx query visited).result).Perm
      ((GoMap.values (s.Discover toLower ctx query visited).scanner.devices).filter
        (fun c => c.Ready &&
          (decide (s.opts.Identifier = "") || decide (s.opts.Identifier ∈ c.AllIdentifiers)))) ∧
    (∀ c sv, c.Services = [sv] → sv.Identifier = "" →
      c ∉ (s.Discover toLower ctx query visited).result) ∧
    (∀ c, (GoMap.values (s.Discover toLower ctx query visited).scanner.devices).filter
        (fun d => d.Ready && decide (s.opts.Identifier ∈ d.AllIdentifiers)) = [c] →
      (s.Discover toLower ctx query visited).result = [c]) := by
  have hscanner : (s.Discover toLower ctx query visited).scanner =
      s.handleEntries toLower (s.queryEntries query) := rfl
  have hresult : (s.Discover toLower ctx query visited).result =
      (s.handleEntries toLower (s.queryEntries query)).filterDevices visited := rfl
  have hopts : (s.handleEntries toLower (s.queryEntries query)).opts = s.opts :=
    handleEntries_opts toLower _ s
  rw [hscanner] at hvisit
  rw [hscanner, hresult]
  have hspec := filterDevices_spec (s.handleEntries toLower (s.queryEntries query)) visited hvisit
  rw [hopts] at hspec
  refine ⟨rfl, ?_, hspec⟩
  intro hnil
  rw [hnil]
  rfl

/-- C2: a `Config` is ready exactly when one of its services has a non-empty
`Identifier`; a `Config` without services, or whose services all have an empty
identifier, is not ready. -/
theorem Ready_iff_some_identifier (c : Config) :
    (c.Ready = true ↔ ∃ s ∈ c.Services, s.Identifier ≠ "") ∧
    (c.Services = [] → c.Ready = false) ∧
    ((∀ s ∈ c.Services, s.Identifier = "") → c.Ready = false) := by
  refine ⟨ready_iff_exists c, ?_, ?_⟩
  · intro h
    simp [Config.Ready, h]
  · intro h
    cases hx : c.Ready with
    | false => rfl
    | true =>
      obtain ⟨s, hs, hne⟩ := (ready_iff_exists c).mp hx
      exact absurd (h s hs) hne

/-- Witness of C1: three devices announce themselves, the table is visited in
reverse order, and the filter is the identifier of the second device. -/
theorem Discover_returns_ready_matching_witness :
    sampleThreeVisited.Perm
      (GoMap.values ((NewScanner { Identifier := "id2" }).Discover asciiToLower {}
        sampleTransportThree sampleThreeVisited).scanner.devices) ∧
    (GoMap.values ((NewScanner { Identifier := "id2" }).Discover asciiToLower {}
        sampleTransportThree sampleThreeVisited).scanner.devices).map
        (fun c => (c.Name, c.Ready)) =
      [("Den", true), ("Bedroom", true), ("Kitchen", true)] ∧
    sampleBedroom.Name = "Bedroom" ∧
    ((NewScanner { Identifier := "id2" }).Discover asciiToLower {} sampleTransportThree
      sampleThreeVisited).result = [sampleBedroom] :=
  have hperm : sampleThreeVisited.Perm
      (GoMap.values ((NewScanner { Identifier := "id2" }).Discover asciiToLower {}
        sampleTransportThree sampleThreeVisited).scanner.devices) := by
    decide
  ⟨hperm, by decide, by decide,
    (Discover_returns_ready_matching asciiToLower (NewScanner { Identifier := "id2" }) {}
      sampleTransportThree sampleThreeVisited hperm).2.2.2.2.2 sampleBedroom (by decide)⟩

/-! ## Merging announcements -/

/-- C3: in a table whose records have at most one service per protocol,
handling an announcement of a recognized service type twice leaves the record
of the announcement's key with exactly one service of the announcement's
protocol, as many services as after handling it once, and that service's
attribute map is the one it has after handling the announcement once. -/
theorem handleEntry_twice_one_service (toLower : String → String) (s : Scanner)
    (a : ServiceEntry) (hrec : getProtocolFromService a.Name ≠ 0)
    (hinv : s.OnePerProtocol) :
    ∃ c1 c2 sv1 sv2,
      GoMap.get (s.handleEntry toLower a).devices (announcementKey a) = some c1 ∧
      GoMap.get ((s.handleEntry toLower a).handleEntry toLower a).devices
        (announcementKey a) = some c2 ∧
      c1.Services.filter
        (fun x => decide (x.Protocol = getProtocolFromService a.Name)) = [sv1] ∧
      c2.Services.filter
        (fun x => decide (x.Protocol = getProtocolFromService a.Name)) = [sv2] ∧
      c2.Services.length = c1.Services.length ∧
      sv2.Properties = sv1.Properties := by
  have hget : GoMap.get (s.handleEntry toLower a).devices (announcementKey a) =
      some (updateConfig toLower
        ((GoMap.get s.devices (announcementKey a)).getD (newConfig a))
        a (parseTxtRecords a.InfoFields) (getProtocolFromService a.Name)) := by
    rw [handleEntry_devices toLower s a hrec, GoMap.get_set_self]
  have hone := handleEntry_onePerProtocol toLower s a hinv _ (GoMap.mem_of_get hget)
  have hmem : getProtocolFromService a.Name ∈
      (updateConfig toLower
        ((GoMap.get s.devices (announcementKey a)).getD (newConfig a))
        a (parseTxtRecords a.InfoFields) (getProtocolFromService a.Name)).Services.map
        (fun x => x.Protocol) := by
    rw [updateConfig_eq]
    exact addServiceLoop_mem_protocols _ (newService a _ _)
  obtain ⟨sv, hsv, _⟩ := filter_protocol_singleton _ _ hone hmem
  refine ⟨_, _, sv, sv, hget, ?_, hsv, hsv, rfl, rfl⟩
  rw [handleEntry_idem]
  exact hget

/-- Witness of C3: the AirPlay announcement handled twice after an MRP
announcement of the same device. -/
theorem handleEntry_twice_one_service_witness :
    getProtocolFromService sampleAirPlay.Name ≠ 0 ∧
    ((NewScanner {}).handleEntry asciiToLower sampleMRP).OnePerProtocol ∧
    ∃ c1 c2 sv1 sv2,
      GoMap.get (((NewScanner {}).handleEntry asciiToLower sampleMRP).handleEntry
        asciiToLower sampleAirPlay).devices (announcementKey sampleAirPlay) = some c1 ∧
      GoMap.get ((((NewScanner {}).handleEntry asciiToLower sampleMRP).handleEntry
        asciiToLower sampleAirPlay).handleEntry asciiToLower sampleAirPlay).devices
        (announcementKey sampleAirPlay) = some c2 ∧
      c1.Services.filter
        (fun x => decide (x.Protocol = getProtocolFromService sampleAirPlay.Name)) = [sv1] ∧
      c2.Services.filter
        (fun x => decide (x.Protocol = getProtocolFromService sampleAirPlay.Name)) = [sv2] ∧
      c2.Services.length = c1.Services.length ∧
      sv2.Properties = sv1.Properties :=
  ⟨by decide, by decide,
    handleEntry_twice_one_service asciiToLower
      ((NewScanner {}).handleEntry asciiToLower sampleMRP) sampleAirPlay
      (by decide) (by decide)⟩

/-- C4: starting from the empty table, two announcements of recognized, different
protocols that carry the same device-id attribute value `d` (the value under
`deviceid`, else under `DeviceID`), handled in either order, give a table with
the single record of key `d`, and that record has exactly two services, one of
each of the two protocols. -/
theorem cross_protocol_merge (toLower : String → String) (opts : ScanOptions)
    (a b : ServiceEntry) (d : String)
    (ha : deviceIdAttr (parseTxtRecords a.InfoFields) = some d)
    (hb : deviceIdAttr (parseTxtRecords b.InfoFields) = some d)
    (hpa : getProtocolFromService a.Name ≠ 0) (hpb : getProtocolFromService b.Name ≠ 0)
    (hne : getProtocolFromService a.Name ≠ getProtocolFromService b.Name) :
    (∃ c, ((NewScanner opts).handleEntries toLower [a, b]).devices = [(d, c)] ∧
      c.Services.map (fun x => x.Protocol) =
        [getProtocolFromService a.Name, getProtocolFromService b.Name]) ∧
    (∃ c, ((NewScanner opts).handleEntries toLower [b, a]).devices = [(d, c)] ∧
      c.Services.map (fun x => x.Protocol) =
        [getProtocolFromService b.Name, getProtocolFromService a.Name]) :=
  ⟨handleEntries_pair toLower opts a b d ha hb hpa hpb hne,
    handleEntries_pair toLower opts b a d hb ha hpb hpa (fun e => hne e.symm)⟩

/-- Witness of C4: the AirPlay and the MRP announcement of one device, one with
the `deviceid` and one with the `DeviceID` spelling. -/
theorem cross_protocol_merge_witness :
    deviceIdAttr (parseTxtRecords sampleAirPlay.InfoFields) = some "AA:BB:CC:DD:EE:FF" ∧
    deviceIdAttr (parseTxtRecords sampleMRP.InfoFields) = some "AA:BB:CC:DD:EE:FF" ∧
    getProtocolFromService sampleAirPlay.Name = ProtocolAirPlay ∧
    getProtocolFromService sampleMRP.Name = ProtocolMRP ∧
    (∃ c, ((NewScanner {}).handleEntries asciiToLower [sampleAirPlay, sampleMRP]).devices =
        [("AA:BB:CC:DD:EE:FF", c)] ∧
      c.Services.map (fun x => x.Protocol) =
        [getProtocolFromService sampleAirPlay.Name, getProtocolFromService sampleMRP.Name]) ∧
    (∃ c, ((NewScanner {}).handleEntries asciiToLower [sampleMRP, sampleAirPlay]).devices =
        [("AA:BB:CC:DD:EE:FF", c)] ∧
      c.Services.map (fun x => x.Protocol) =
        [getProtocolFromService sampleMRP.Name, getProtocolFromService sampleAirPlay.Name]) :=
  ⟨by decide, by decide, by decide, by decide,
    cross_protocol_merge asciiToLower {} sampleAirPlay sampleMRP "AA:BB:CC:DD:EE:FF"
      (by decide) (by decide) (by decide) (by decide) (by decide)⟩

/-! ## The device-identity key -/

/-- C5: for every announcement whose attribute map has a device-id attribute
(key `deviceid` or `DeviceID`), `getDeviceKey` returns the value of that
attribute (of `deviceid` when both are present), whatever the resolved
addresses of the announcement are. -/
theorem getDeviceKey_prefers_device_id (entry : ServiceEntry) (txtRecords : GoMap String)
    (hattr : GoMap.get txtRecords "deviceid" ≠ none ∨ GoMap.get txtRecords "DeviceID" ≠ none) :
    some (getDeviceKey entry txtRecords) = deviceIdAttr txtRecords ∧
    (GoMap.get txtRecords "deviceid" = some (getDeviceKey entry txtRecords) ∨
      GoMap.get txtRecords "DeviceID" = some (getDeviceKey entry txtRecords)) ∧
    getDeviceKey entry txtRecords =
      getDeviceKey { entry with AddrV4 := none, AddrV6 := none } txtRecords := by
  unfold deviceIdAttr getDeviceKey
  cases h1 : GoMap.get txtRecords "deviceid" with
  | some v => simp
  | none =>
    cases h2 : GoMap.get txtRecords "DeviceID" with
    | some v => simp
    | none => simp [h1, h2] at hattr

/-- Witness of C5: the MRP announcement has a `DeviceID` attribute and a v4
address and is keyed by the attribute. -/
theorem getDeviceKey_prefers_device_id_witness :
    (GoMap.get (parseTxtRecords sampleMRP.InfoFields) "deviceid" ≠ none ∨
      GoMap.get (parseTxtRecords sampleMRP.InfoFields) "DeviceID" ≠ none) ∧
    sampleMRP.AddrV4 = some ⟨"10.0.0.2"⟩ ∧
    getDeviceKey sampleMRP (parseTxtRecords sampleMRP.InfoFields) = "AA:BB:CC:DD:EE:FF" :=
  ⟨by decide, rfl,
    Option.some.inj
      ((getDeviceKey_prefers_device_id sampleMRP (parseTxtRecords sampleMRP.InfoFields)
        (by decide)).1.trans (by decide))⟩

/-- C6, as stated, fails: the announcement with a bare `deviceid` flag and the
resolved address 10.0.0.7 is keyed by the empty string, while the first
non-empty candidate is the address. -/
theorem getDeviceKey_bare_flag_empty_key :
    parseTxtRecords sampleBareFlag.InfoFields = [("deviceid", "")] ∧
    getDeviceKey sampleBareFlag (parseTxtRecords sampleBareFlag.InfoFields) = "" ∧
    specDeviceKey sampleBareFlag (parseTxtRecords sampleBareFlag.InfoFields) = "10.0.0.7" ∧
    ¬ (∀ (entry : ServiceEntry) (txtRecords : GoMap String),
      getDeviceKey entry txtRecords = specDeviceKey entry txtRecords) := by
  refine ⟨by decide, by decide, by decide, ?_⟩
  intro h
  exact absurd (h sampleBareFlag (parseTxtRecords sampleBareFlag.InfoFields)) (by decide)

/-- C6, amended: the key is the first candidate that is present, in the order
`deviceid` attribute, `DeviceID` attribute, resolved v4 address, resolved v6
address, announcement name, also when that candidate is the empty string; and
when no device-id attribute and no resolved address string is empty, the key is
the first non-empty candidate. -/
theorem getDeviceKey_first_present (entry : ServiceEntry) (txtRecords : GoMap String) :
    getDeviceKey entry txtRecords =
      ((((GoMap.get txtRecords "deviceid").orElse (fun _ => GoMap.get txtRecords "DeviceID")).orElse
        (fun _ => entry.AddrV4.map IP.String)).orElse
        (fun _ => entry.AddrV6.map IP.String)).getD entry.Name ∧
    (GoMap.get txtRecords "deviceid" = some "" → getDeviceKey entry txtRecords = "") ∧
    (GoMap.get txtRecords "deviceid" ≠ some "" → GoMap.get txtRecords "DeviceID" ≠ some "" →
      entry.AddrV4.map IP.String ≠ some "" → entry.AddrV6.map IP.String ≠ some "" →
      getDeviceKey entry txtRecords = specDeviceKey entry txtRecords) := by
  refine ⟨?_, ?_, ?_⟩
  · unfold getDeviceKey
    cases GoMap.get txtRecords "deviceid" <;> cases GoMap.get txtRecords "DeviceID" <;>
      cases entry.AddrV4 <;> cases entry.AddrV6 <;> rfl
  · intro h
    simp [getDeviceKey, h]
  · intro hd hD hv4 hv6
    unfold getDeviceKey specDeviceKey
    cases h1 : GoMap.get txtRecords "deviceid" <;> cases h2 : GoMap.get txtRecords "DeviceID" <;>
      cases h3 : entry.AddrV4 <;> cases h4 : entry.AddrV6 <;>
      simp only [h1, h2, h3, h4, Option.map_some', Option.map_none', ne_eq, Option.some.injEq,
        not_false_eq_true, Option.toList_some, Option.toList_none, List.nil_append,
        List.singleton_append, List.cons_append, firstNonEmpty] at hd hD hv4 hv6 ⊢ <;>
      split_ifs <;> simp_all

/-- Witness of C6, amended: the AirPlay announcement, none of whose candidates
is empty, and the bare flag, which gives the empty key. -/
theorem getDeviceKey_first_present_witness :
    getDeviceKey sampleAirPlay (parseTxtRecords sampleAirPlay.InfoFields) =
      specDeviceKey sampleAirPlay (parseTxtRecords sampleAirPlay.InfoFields) ∧
    getDeviceKey sampleBareFlag (parseTxtRecords sampleBareFlag.InfoFields) = "" :=
  ⟨(getDeviceKey_first_present sampleAirPlay (parseTxtRecords sampleAirPlay.InfoFields)).2.2
      (by decide) (by decide) (by decide) (by decide),
    (getDeviceKey_first_present sampleBareFlag (parseTxtRecords sampleBareFlag.InfoFields)).2.1
      (by decide)⟩

/-! ## `AddService` -/

/-- C7: `AddService` keeps the invariant that no two services of a `Config` have
the same protocol; a service whose protocol is absent is appended at the end
(the list grows by one), a service whose protocol is present leaves the length
of the list unchanged; and every record of a table built from the empty table
by any sequence of announcements has at most one service per protocol. -/
theorem AddService_one_per_protocol :
    (∀ (c : Config) (svc : Service), c.OnePerProtocol → (c.AddService svc).OnePerProtocol) ∧
    (∀ (c : Config) (svc : Service), c.GetService svc.Protocol = none →
      (c.AddService svc).Services = c.Services ++ [svc] ∧
      (c.AddService svc).Services.length = c.Services.length + 1) ∧
    (∀ (c : Config) (svc : Service), c.GetService svc.Protocol ≠ none →
      (c.AddService svc).Services.length = c.Services.length) ∧
    (∀ (toLower : String → String) (opts : ScanOptions) (entries : List ServiceEntry),
      ((NewScanner opts).handleEntries toLower entries).OnePerProtocol) := by
  refine ⟨addService_onePerProtocol, ?_, ?_, ?_⟩
  · intro c svc h
    have happ : (c.AddService svc).Services = c.Services ++ [svc] :=
      addServiceLoop_absent _ _ ((getService_eq_none_iff c _).mp h)
    exact ⟨happ, by rw [happ]; simp⟩
  · intro c svc h
    apply addServiceLoop_length_present
    by_contra hp
    exact h ((getService_eq_none_iff c _).mpr hp)
  · intro toLower opts entries
    apply handleEntries_onePerProtocol
    intro kc hkc
    simp [NewScanner] at hkc

/-- Witness of C7: a service of a present protocol merged into a record, a
service of an absent protocol appended to it. -/
theorem AddService_one_per_protocol_witness :
    sampleConfigNoId.OnePerProtocol ∧
    (sampleConfigNoId.AddService sampleServiceWithId).OnePerProtocol ∧
    (sampleConfigNoId.AddService sampleServiceWithId).Services.length = 1 ∧
    (sampleConfigNoId.AddService { sampleServiceWithId with Protocol := ProtocolAirPlay }).Services
      = sampleConfigNoId.Services ++ [{ sampleServiceWithId with Protocol := ProtocolAirPlay }] :=
  ⟨by decide,
    AddService_one_per_protocol.1 sampleConfigNoId sampleServiceWithId (by decide),
    AddService_one_per_protocol.2.2.1 sampleConfigNoId sampleServiceWithId (by decide),
    (AddService_one_per_protocol.2.1 sampleConfigNoId
      { sampleServiceWithId with Protocol := ProtocolAirPlay } (by decide)).1⟩

/-- C8, as stated, fails: merging an MRP service with the identifier `abc123`
into a record whose MRP service has none leaves that service without identifier
and the record not ready; and a device announced for MRP first without and then
with an identifier ends up with an MRP service without identifier, not ready,
although the record's own `Identifier` is set. -/
theorem AddService_drops_incoming_identifier :
    (sampleConfigNoId.GetService ProtocolMRP).map (fun e => e.Identifier) = some "" ∧
    sampleServiceWithId.Identifier = "abc123" ∧
    ((sampleConfigNoId.AddService sampleServiceWithId).GetService ProtocolMRP).map
      (fun e => e.Identifier) = some "" ∧
    (sampleConfigNoId.AddService sampleServiceWithId).Ready = false ∧
    (GoMap.values ((NewScanner {}).handleEntries asciiToLower
      [sampleMRPNoId, sampleMRPWithId]).devices).map
      (fun c => (c.Services.map (fun e => (e.Protocol, e.Identifier)), c.Ready, c.Identifier)) =
      [([(ProtocolMRP, "")], false, "XYZ")] := by
  decide

/-- C8, amended: when `AddService` merges an incoming service into the existing
service of the same protocol, the existing service keeps its `Identifier`,
whatever the incoming one is; the identifiers of all services, `AllIdentifiers`
and `Ready` of the record are unchanged. -/
theorem AddService_merge_keeps_identifier (c : Config) (svc e : Service)
    (h : c.GetService svc.Protocol = some e) :
    (∃ e', (c.AddService svc).GetService svc.Protocol = some e' ∧
      e'.Identifier = e.Identifier) ∧
    (c.AddService svc).Services.map (fun x => x.Identifier) =
      c.Services.map (fun x => x.Identifier) ∧
    (c.AddService svc).AllIdentifiers = c.AllIdentifiers ∧
    (c.AddService svc).Ready = c.Ready := by
  have hp : svc.Protocol ∈ c.Services.map (fun s => s.Protocol) := by
    by_contra hp
    rw [(getService_eq_none_iff c _).mpr hp] at h
    exact Option.noConfusion h
  have hids : (c.AddService svc).Services.map (fun x => x.Identifier) =
      c.Services.map (fun x => x.Identifier) :=
    addServiceLoop_identifiers_present _ _ hp
  refine ⟨⟨e.merge svc, getService_addService_merge c svc e h, merge_Identifier e svc⟩,
    hids, ?_, ready_eq_of_identifiers hids⟩
  have key : ∀ x : Config, x.AllIdentifiers =
      (x.Services.map (fun s => s.Identifier)).filter (fun i => decide (i ≠ "")) := by
    intro x
    unfold Config.AllIdentifiers
    rw [List.filter_map]
    rfl
  rw [key, key, hids]

/-- Witness of C8, amended: the record without identifier and the incoming
service with one. -/
theorem AddService_merge_keeps_identifier_witness :
    sampleConfigNoId.GetService sampleServiceWithId.Protocol =
      some sampleServiceNoId ∧
    (sampleConfigNoId.AddService sampleServiceWithId).Ready = sampleConfigNoId.Ready :=
  ⟨by decide,
    (AddService_merge_keeps_identifier sampleConfigNoId sampleServiceWithId sampleServiceNoId
      (by decide)).2.2.2⟩

/-- C9, code bug: `AddService` of a service without attribute map to an empty
record appends it with its nil map; merging into it a service of the same
protocol whose map has the entry `key2` panics at the first assignment of the
loop, and the existing service has no attribute.  On every other merge, where
the existing map is allocated or the incoming map has no entry, the attribute
map of the merged service is the key-wise union: a key of the incoming map has
the incoming value, every other key has what the existing map has for it (its
value, or nothing), and a key of the existing map is still a key; so it is
when `key2` is merged into the allocated map with `key1`.  The records of a
table built from the empty table have allocated maps, and the merges of
`handleEntry` do not panic. -/
theorem AddService_nil_map_panics :
    ({} : Config).AddService { Protocol := ProtocolMRP, Port := 49152, PropertiesNil := true } =
      sampleConfigNilMap ∧
    sampleConfigNilMap.GetService ProtocolMRP =
      some { Protocol := ProtocolMRP, Port := 49152, PropertiesNil := true } ∧
    sampleServiceWithId.Protocol = ProtocolMRP ∧
    GoMap.get sampleServiceWithId.Properties "key2" = some "value2" ∧
    sampleConfigNilMap.AddServicePanics sampleServiceWithId = true ∧
    ((sampleConfigNilMap.AddService sampleServiceWithId).GetService ProtocolMRP).map
      (fun e => (e.PropertiesNil, e.Properties)) = some (true, []) ∧
    (∀ (c : Config) (svc e : Service), c.GetService svc.Protocol = some e →
      (c.AddServicePanics svc = true ↔ (e.PropertiesNil = true ∧ svc.Properties ≠ []))) ∧
    (∀ (c : Config) (svc e : Service), c.GetService svc.Protocol = some e →
      c.AddServicePanics svc = false → GoMap.WF svc.Properties →
      ∃ e', (c.AddService svc).GetService svc.Protocol = some e' ∧
        (∀ k v, GoMap.get svc.Properties k = some v → GoMap.get e'.Properties k = some v) ∧
        (∀ k, GoMap.get svc.Properties k = none →
          GoMap.get e'.Properties k = GoMap.get e.Properties k) ∧
        (∀ k, GoMap.get e.Properties k ≠ none → GoMap.get e'.Properties k ≠ none)) ∧
    (sampleConfigNoId.AddServicePanics sampleServiceWithId = false ∧
      ((sampleConfigNoId.AddService sampleServiceWithId).GetService ProtocolMRP).map
        (fun e => e.Properties) = some [("key1", "value1"), ("key2", "value2")]) ∧
    (∀ (toLower : String → String) (opts : ScanOptions) (entries : List ServiceEntry)
        (service : Service),
      ∀ kc ∈ ((NewScanner opts).handleEntries toLower entries).devices,
        kc.2.AddServicePanics service = false) := by
  refine ⟨by decide, by decide, by decide, by decide, by decide, by decide, ?_,
    addService_properties_union, ⟨by decide, by decide⟩, newScanner_addService_total⟩
  intro c svc e h
  rw [mergePanics_of_addServicePanics c svc e h]
  unfold Service.mergePanics
  cases e.PropertiesNil <;> cases svc.Properties <;> simp

/-- C10: when `AddService` merges an incoming service into the existing service
of the same protocol, `Credentials` (and likewise `Password`) of the merged
service is the incoming value when that is non-empty and the existing value
when the incoming one is empty; a non-empty existing value never becomes
empty. -/
theorem AddService_merge_credentials (c : Config) (svc e : Service)
    (h : c.GetService svc.Protocol = some e) :
    ∃ e', (c.AddService svc).GetService svc.Protocol = some e' ∧
      (svc.Credentials ≠ "" → e'.Credentials = svc.Credentials) ∧
      (svc.Credentials = "" → e'.Credentials = e.Credentials) ∧
      (svc.Password ≠ "" → e'.Password = svc.Password) ∧
      (svc.Password = "" → e'.Password = e.Password) ∧
      (e.Credentials ≠ "" → e'.Credentials ≠ "") ∧
      (e.Password ≠ "" → e'.Password ≠ "") := by
  refine ⟨e.merge svc, getService_addService_merge c svc e h, ?_, ?_, ?_, ?_, ?_, ?_⟩
  · intro hc; rw [merge_Credentials, if_pos hc]
  · intro hc; rw [merge_Credentials, if_neg (not_not.mpr hc)]
  · intro hc; rw [merge_Password, if_pos hc]
  · intro hc; rw [merge_Password, if_neg (not_not.mpr hc)]
  · intro he
    rw [merge_Credentials]
    split_ifs with hc
    · exact hc
    · exact he
  · intro he
    rw [merge_Password]
    split_ifs with hc
    · exact hc
    · exact he

/-- Witness of C10: an incoming service without credentials and password
leaves `creds` and `secret` in place. -/
theorem AddService_merge_credentials_witness :
    ∃ e', (sampleConfigNoId.AddService sampleServiceWithId).GetService
        sampleServiceWithId.Protocol = some e' ∧
      e'.Credentials = "creds" ∧ e'.Password = "secret" :=
  match AddService_merge_credentials sampleConfigNoId sampleServiceWithId
      sampleServiceNoId (by decide) with
  | ⟨e', hget, _, hc, _, hp, _, _⟩ => ⟨e', hget, hc (by decide), hp (by decide)⟩

/-! ## The record identifier -/

/-- C11: in every table and for every sequence of announcements, a record whose
`Identifier` is non-empty still has that `Identifier` after the announcements
are handled; and a single announcement changes the identifier of the record of
a key (empty for a key without record) only when it was empty, the key is the
announcement's key, and the new value is the non-empty identifier of the
service built from the announcement. -/
theorem Identifier_set_once (toLower : String → String) (s : Scanner) :
    (∀ (entries : List ServiceEntry) (k : String) (c : Config),
      GoMap.get s.devices k = some c → c.Identifier ≠ "" →
      ∃ c', GoMap.get (s.handleEntries toLower entries).devices k = some c' ∧
        c'.Identifier = c.Identifier) ∧
    (∀ (a : ServiceEntry) (k : String) (c' : Config),
      GoMap.get (s.handleEntry toLower a).devices k = some c' →
      c'.Identifier ≠ ((GoMap.get s.devices k).map (fun c => c.Identifier)).getD "" →
      ((GoMap.get s.devices k).map (fun c => c.Identifier)).getD "" = "" ∧
      k = announcementKey a ∧
      c'.Identifier = (newService a (parseTxtRecords a.InfoFields)
        (getProtocolFromService a.Name)).Identifier ∧
      c'.Identifier ≠ "") :=
  ⟨fun entries k c h hne => handleEntries_identifier_kept toLower entries s k c h hne,
    fun a k c' h hch => handleEntry_identifier_change toLower s a k c' h hch⟩

/-- Witness of C11: the record made by the AirPlay announcement keeps its
identifier when the MRP announcement, whose service has another identifier, and
the AirPlay announcement again are handled. -/
theorem Identifier_set_once_witness :
    (GoMap.get ((NewScanner {}).handleEntry asciiToLower sampleAirPlay).devices
      "AA:BB:CC:DD:EE:FF").map (fun c => c.Identifier) = some "AA:BB:CC:DD:EE:FF" ∧
    (newService sampleMRP (parseTxtRecords sampleMRP.InfoFields)
      (getProtocolFromService sampleMRP.Name)).Identifier = "XYZ" ∧
    ∃ c', GoMap.get ((((NewScanner {}).handleEntry asciiToLower sampleAirPlay).handleEntries
        asciiToLower [sampleMRP, sampleAirPlay]).devices) "AA:BB:CC:DD:EE:FF" = some c' ∧
      c'.Identifier = "AA:BB:CC:DD:EE:FF" :=
  ⟨by decide, by decide,
    (Identifier_set_once asciiToLower ((NewScanner {}).handleEntry asciiToLower sampleAirPlay)).1
      [sampleMRP, sampleAirPlay] "AA:BB:CC:DD:EE:FF"
      (updateConfig asciiToLower (newConfig sampleAirPlay) sampleAirPlay
        (parseTxtRecords sampleAirPlay.InfoFields) (getProtocolFromService sampleAirPlay.Name))
      (by decide) (by decide)⟩

/-! ## `parseModel` and `getPairingRequirement` -/

/-- C12: for every raw model string whose lower-cased form contains one of the
hardware-revision tokens appletv3,1 / appletv3,2 / appletv5,3 / appletv6,2 /
appletv11,1 / appletv14,1, `parseModel` returns the model of the first of these
tokens (in this order) that it contains, whether or not the string also
contains `homepod`; the result is neither HomePod nor HomePodMini. -/
theorem parseModel_revision_precedence (toLower : String → String) (model : String)
    (hrev : ∃ t ∈ revisionTokens, GoStr.Contains (toLower model) t.1 = true) :
    (∃ t, revisionTokens.find? (fun t => GoStr.Contains (toLower model) t.1) = some t ∧
      parseModel toLower model = t.2) ∧
    parseModel toLower model ≠ DeviceModelHomePod ∧
    parseModel toLower model ≠ DeviceModelHomePodMini := by
  obtain ⟨t, ht, hc⟩ := hrev
  unfold parseModel
  simp only [revisionTokens, List.mem_cons, List.mem_singleton, List.not_mem_nil, or_false]
    at ht
  simp only [revisionTokens, List.find?_cons, List.find?_nil]
  cases h1 : GoStr.Contains (toLower model) "appletv3,1" <;>
    cases h2 : GoStr.Contains (toLower model) "appletv3,2" <;>
    cases h3 : GoStr.Contains (toLower model) "appletv5,3" <;>
    cases h4 : GoStr.Contains (toLower model) "appletv6,2" <;>
    cases h5 : GoStr.Contains (toLower model) "appletv11,1" <;>
    cases h6 : GoStr.Contains (toLower model) "appletv14,1" <;>
    rcases ht with e | e | e | e | e | e <;> rw [e] at hc <;> simp_all

/-- Witness of C12: a string with the revision token appletv6,2 in upper case
and the generic token homepod. -/
theorem parseModel_revision_precedence_witness :
    GoStr.Contains (asciiToLower "AppleTV6,2 (HomePod)") "homepod" = true ∧
    parseModel asciiToLower "AppleTV6,2 (HomePod)" = DeviceModelGen4K ∧
    parseModel asciiToLower "AppleTV6,2 (HomePod)" ≠ DeviceModelHomePod :=
  ⟨by decide, by decide,
    (parseModel_revision_precedence asciiToLower "AppleTV6,2 (HomePod)"
      ⟨("appletv6,2", DeviceModelGen4K), by decide, by decide⟩).2.1⟩

/-- C13: `parseModel` is the reference definition (lower-case the string, then
the model of the first token of the ordered list that occurs in it); it gives
the same model for two strings with the same lower-cased form and, `toLower`
being idempotent as `strings.ToLower` is, for a string and its lower-cased
form; a string whose lower-cased form contains none of the tokens yields
`DeviceModelUnknown`. -/
theorem parseModel_refines_spec (toLower : String → String)
    (hidem : ∀ s, toLower (toLower s) = toLower s) (model : String) :
    parseModel toLower model = specParseModel toLower model ∧
    parseModel toLower (toLower model) = parseModel toLower model ∧
    (∀ other, toLower other = toLower model →
      parseModel toLower other = parseModel toLower model) ∧
    ((∀ t ∈ modelTokens (toLower model), GoStr.Contains (toLower model) t.1 = false) →
      parseModel toLower model = DeviceModelUnknown) := by
  refine ⟨parseModel_eq_spec toLower model, ?_, ?_, ?_⟩
  · unfold parseModel
    simp only [hidem]
  · intro other h
    unfold parseModel
    simp only [h]
  · intro hnone
    rw [parseModel_eq_spec]
    unfold specParseModel
    have hfind : (modelTokens (toLower model)).find?
        (fun t => GoStr.Contains (toLower model) t.1) = none := by
      rw [List.find?_eq_none]
      intro t ht
      simp [hnone t ht]
    rw [hfind]

/-- Witness of C13: ASCII lower-casing is idempotent; upper and lower case give
the same model, and a string without token gives the unknown model. -/
theorem parseModel_refines_spec_witness :
    parseModel asciiToLower "HOMEPOD MINI" = DeviceModelHomePodMini ∧
    parseModel asciiToLower (asciiToLower "HOMEPOD MINI") =
      parseModel asciiToLower "HOMEPOD MINI" ∧
    parseModel asciiToLower "MacBookPro18,1" = DeviceModelUnknown :=
  ⟨by decide,
    (parseModel_refines_spec asciiToLower asciiToLower_idem "HOMEPOD MINI").2.1,
    (parseModel_refines_spec asciiToLower asciiToLower_idem "MacBookPro18,1").2.2.2
      (by decide)⟩

/-- C14: `getPairingRequirement` is Mandatory for MRP and for Companion; for
AirPlay it is Optional when the key `sf` is present in the map (whatever its
value) and NotNeeded when it is absent; for every other protocol value it is
NotNeeded; two maps that agree on the presence of `sf` get the same result. -/
theorem getPairingRequirement_policy (txtRecords : GoMap String) :
    getPairingRequirement txtRecords ProtocolMRP = PairingRequirementMandatory ∧
    getPairingRequirement txtRecords ProtocolCompanion = PairingRequirementMandatory ∧
    (∀ v, GoMap.get txtRecords "sf" = some v →
      getPairingRequirement txtRecords ProtocolAirPlay = PairingRequirementOptional) ∧
    (GoMap.get txtRecords "sf" = none →
      getPairingRequirement txtRecords ProtocolAirPlay = PairingRequirementNotNeeded) ∧
    (getPairingRequirement txtRecords ProtocolAirPlay = PairingRequirementOptional ↔
      GoMap.get txtRecords "sf" ≠ none) ∧
    getPairingRequirement txtRecords ProtocolDMAP = PairingRequirementNotNeeded ∧
    getPairingRequirement txtRecords ProtocolRAOP = PairingRequirementNotNeeded ∧
    (∀ p : Protocol, p ≠ ProtocolMRP → p ≠ ProtocolAirPlay → p ≠ ProtocolCompanion →
      getPairingRequirement txtRecords p = PairingRequirementNotNeeded) ∧
    (∀ (other : GoMap String) (p : Protocol),
      (GoMap.get other "sf").isSome = (GoMap.get txtRecords "sf").isSome →
      getPairingRequirement other p = getPairingRequirement txtRecords p) := by
  refine ⟨by simp [getPairingRequirement], by simp [getPairingRequirement], ?_, ?_, ?_,
    by simp [getPairingRequirement], by simp [getPairingRequirement], ?_, ?_⟩
  · intro v h
    simp [getPairingRequirement, h]
  · intro h
    simp [getPairingRequirement, h]
  · cases h : GoMap.get txtRecords "sf" <;> simp [getPairingRequirement, h]
  · intro p h1 h2 h3
    simp [getPairingRequirement, h1, h2, h3]
  · intro other p h
    unfold getPairingRequirement
    cases h1 : GoMap.get other "sf" <;> cases h2 : GoMap.get txtRecords "sf" <;>
      simp_all

/-- Witness of C14: a bare `sf` flag makes AirPlay pairing optional. -/
theorem getPairingRequirement_policy_witness :
    GoMap.get (parseTxtRecords ["sf"]) "sf" = some "" ∧
    getPairingRequirement (parseTxtRecords ["sf"]) ProtocolAirPlay =
      PairingRequirementOptional ∧
    getPairingRequirement [] ProtocolAirPlay = PairingRequirementNotNeeded :=
  ⟨by decide,
    (getPairingRequirement_policy (parseTxtRecords ["sf"])).2.2.1 "" (by decide),
    (getPairingRequirement_policy []).2.2.2.1 (by decide)⟩

/-! ## Connecting, pairing and the placeholder handlers -/

/-- C15: `Connect` fails with `ErrNoService` when the config has no services
(whatever its `Identifier`), fails with `ErrDeviceIDMissing` when it has a
service and an empty `Identifier`, and otherwise returns, without error, the
connection to the config, marked connected; the two errors are different and
neither is the other in the sense of `errors.Is`. -/
theorem Connect_misuse_errors (ctx : Context) (config : Config) (opts : ConnectOptions) :
    (config.Services = [] → Connect ctx config opts = .error ErrNoService) ∧
    (config.Services ≠ [] → config.Identifier = "" →
      Connect ctx config opts = .error ErrDeviceIDMissing) ∧
    (config.Services ≠ [] → config.Identifier ≠ "" →
      Connect ctx config opts = .ok { config := config, opts := opts, connected := true }) ∧
    ErrNoService ≠ ErrDeviceIDMissing ∧
    errorsIs ErrNoService ErrDeviceIDMissing = false ∧
    errorsIs ErrDeviceIDMissing ErrNoService = false := by
  refine ⟨?_, ?_, ?_, by decide, by decide, by decide⟩
  · intro h
    simp [Connect, h]
  · intro h hid
    have hlen : ¬ config.Services.length = 0 := by
      simpa [List.length_eq_zero] using h
    simp [Connect, hlen, hid]
  · intro h hid
    have hlen : ¬ config.Services.length = 0 := by
      simpa [List.length_eq_zero] using h
    simp [Connect, hlen, hid, NewAppleTVConnection, AppleTVConnection.Connect]

/-- Witness of C15: a record without services, a record with a service and no
identifier, and a ready record with identifier. -/
theorem Connect_misuse_errors_witness :
    Connect {} {} {} = .error ErrNoService ∧
    Connect {} sampleConfigNoId {} = .error ErrDeviceIDMissing ∧
    Connect {} (sampleReady "id1") {} =
      .ok { config := sampleReady "id1", opts := {}, connected := true } :=
  ⟨(Connect_misuse_errors {} {} {}).1 rfl,
    (Connect_misuse_errors {} sampleConfigNoId {}).2.1 (by decide) (by decide),
    (Connect_misuse_errors {} (sampleReady "id1") {}).2.2.1 (by decide) (by decide)⟩

/-- C16: `Pair` returns an error that wraps `ErrNoService` exactly when
`GetService` finds no service of the protocol; when it finds one, `Pair`
returns, without error, a handler whose `Service()` is that service and whose
`HasPaired()` is false. -/
theorem Pair_no_service_iff (ctx : Context) (config : Config) (protocol : Protocol)
    (opts : PairOptions) :
    ((∃ err, Pair ctx config protocol opts = .error err ∧ errorsIs err ErrNoService = true) ↔
      config.GetService protocol = none) ∧
    ((∃ err, Pair ctx config protocol opts = .error err) ↔
      config.GetService protocol = none) ∧
    (∀ service, config.GetService protocol = some service →
      ∃ handler, Pair ctx config protocol opts = .ok handler ∧
        handler.Service = config.GetService protocol ∧
        handler.HasPaired = false) := by
  cases h : config.GetService protocol with
  | none =>
    have hp := Pair_of_no_service ctx config protocol opts h
    refine ⟨⟨fun _ => rfl, fun _ => ⟨_, hp, ?_⟩⟩, ⟨fun _ => rfl, fun _ => ⟨_, hp⟩⟩, ?_⟩
    · simp [errorsIs]
    · intro service hs
      exact Option.noConfusion hs
  | some service =>
    have hp := Pair_of_service ctx config protocol opts service h
    refine ⟨⟨?_, fun hn => Option.noConfusion hn⟩, ⟨?_, fun hn => Option.noConfusion hn⟩, ?_⟩
    · rintro ⟨err, he, _⟩
      rw [hp] at he
      exact Except.noConfusion he
    · rintro ⟨err, he⟩
      rw [hp] at he
      exact Except.noConfusion he
    · intro service' _
      exact ⟨_, hp, rfl, rfl⟩

/-- Witness of C16: pairing MRP with the record that has an MRP service gives
a handler for it; pairing AirPlay gives the wrapped error. -/
theorem Pair_no_service_iff_witness :
    (∃ handler, Pair {} sampleConfigNoId ProtocolMRP {} = .ok handler ∧
      handler.Service = sampleConfigNoId.GetService ProtocolMRP ∧
      handler.HasPaired = false) ∧
    (∃ err, Pair {} sampleConfigNoId ProtocolAirPlay {} = .error err ∧
      errorsIs err ErrNoService = true) :=
  ⟨(Pair_no_service_iff {} sampleConfigNoId ProtocolMRP {}).2.2 sampleServiceNoId
      (by decide),
    (Pair_no_service_iff {} sampleConfigNoId ProtocolAirPlay {}).1.mpr (by decide)⟩

/-- C17: `GetService` returns the first service of `Services` whose protocol
is the given one (the services before it have another protocol), and returns
nil exactly when no service has the protocol. -/
theorem GetService_first_match (c : Config) (p : Protocol) :
    (c.GetService p = none ↔ ∀ s ∈ c.Services, s.Protocol ≠ p) ∧
    (∀ e, c.GetService p = some e ↔
      ∃ before after, c.Services = before ++ e :: after ∧ e.Protocol = p ∧
        ∀ s ∈ before, s.Protocol ≠ p) := by
  unfold Config.GetService
  constructor
  · rw [List.find?_eq_none]
    simp
  · intro e
    rw [List.find?_eq_some]
    constructor
    · rintro ⟨he, before, after, hl, hb⟩
      exact ⟨before, after, hl, by simpa using he, fun s hs => by simpa using hb s hs⟩
    · rintro ⟨before, after, hl, he, hb⟩
      exact ⟨by simpa using he, before, after, hl, fun s hs => by simpa using hb s hs⟩

/-- Witness of C17: the configuration of `TestConfigGetService`. -/
theorem GetService_first_match_witness :
    Config.GetService
      { Services := [{ Protocol := ProtocolMRP, Port := 49152 },
                     { Protocol := ProtocolAirPlay, Port := 7000 }] } ProtocolDMAP = none ∧
    Config.GetService
      { Services := [{ Protocol := ProtocolMRP, Port := 49152 },
                     { Protocol := ProtocolAirPlay, Port := 7000 }] } ProtocolAirPlay =
      some { Protocol := ProtocolAirPlay, Port := 7000 } :=
  ⟨(GetService_first_match _ ProtocolDMAP).1.mpr (by decide),
    ((GetService_first_match _ ProtocolAirPlay).2 _).mpr
      ⟨[{ Protocol := ProtocolMRP, Port := 49152 }], [], rfl, rfl, by decide⟩⟩

/-- C18: `AllIdentifiers` is the list of the `Identifier` fields of the
services, in service order, with the empty ones removed; its length is the
number of services with a non-empty identifier, it does not contain the empty
string, and a string is a member exactly when it is the non-empty identifier
of a service. -/
theorem AllIdentifiers_nonempty_in_order (c : Config) :
    c.AllIdentifiers =
      (c.Services.map (fun s => s.Identifier)).filter (fun i => decide (i ≠ "")) ∧
    c.AllIdentifiers.length = c.Services.countP (fun s => decide (s.Identifier ≠ "")) ∧
    "" ∉ c.AllIdentifiers ∧
    (∀ id, id ∈ c.AllIdentifiers ↔ id ≠ "" ∧ ∃ s ∈ c.Services, s.Identifier = id) := by
  refine ⟨?_, ?_, ?_, mem_AllIdentifiers c⟩
  · unfold Config.AllIdentifiers
    rw [List.filter_map]
    rfl
  · unfold Config.AllIdentifiers
    rw [List.length_map, List.countP_eq_length_filter]
  · intro h
    exact ((mem_AllIdentifiers c "").mp h).1 rfl

/-- C19: the record with an AirPlay and a RAOP service of the same `deviceid`,
as `handleEntry` builds it from the two announcements, has the identifier twice
in `AllIdentifiers`: the list is not free of duplicates. -/
theorem AllIdentifiers_repeats_identifier :
    (GoMap.values ((NewScanner {}).handleEntries asciiToLower
      [sampleAirPlay, sampleRAOP]).devices).map
      (fun c => (c.Services.map (fun e => (e.Protocol, e.Identifier)), c.AllIdentifiers)) =
      [([(ProtocolAirPlay, "AA:BB:CC:DD:EE:FF"), (ProtocolRAOP, "AA:BB:CC:DD:EE:FF")],
        ["AA:BB:CC:DD:EE:FF", "AA:BB:CC:DD:EE:FF"])] ∧
    sampleAirPlayRaop.AllIdentifiers = ["AA:BB:CC:DD:EE:FF", "AA:BB:CC:DD:EE:FF"] ∧
    ¬ sampleAirPlayRaop.AllIdentifiers.Nodup ∧
    ¬ (∀ c : Config, c.AllIdentifiers.Nodup) := by
  refine ⟨by decide, by decide, by decide, ?_⟩
  intro h
  exact absurd (h sampleAirPlayRaop) (by decide)

/-- C20: for every connection and all arguments, each of the 27 operations of
the connection's `RemoteControl`, the metadata retrievals `Artwork` and
`Playing` and the streaming operations `PlayURL` and `StreamFile` return
`ErrNotSupported`. -/
theorem placeholders_not_supported (atv : AppleTVConnection) (ctx : Context) :
    (∀ action : InputAction, atv.RemoteControl.Up ctx action = some ErrNotSupported) ∧
    (∀ action : InputAction, atv.RemoteControl.Down ctx action = some ErrNotSupported) ∧
    (∀ action : InputAction, atv.RemoteControl.Left ctx action = some ErrNotSupported) ∧
    (∀ action : InputAction, atv.RemoteControl.Right ctx action = some ErrNotSupported) ∧
    (atv.RemoteControl.Play ctx = some ErrNotSupported) ∧
    (atv.RemoteControl.PlayPause ctx = some ErrNotSupported) ∧
    (atv.RemoteControl.Pause ctx = some ErrNotSupported) ∧
    (atv.RemoteControl.Stop ctx = some ErrNotSupported) ∧
    (atv.RemoteControl.Next ctx = some ErrNotSupported) ∧
    (atv.RemoteControl.Previous ctx = some ErrNotSupported) ∧
    (∀ action : InputAction, atv.RemoteControl.Select ctx action = some ErrNotSupported) ∧
    (∀ action : InputAction, atv.RemoteControl.Menu ctx action = some ErrNotSupported) ∧
    (atv.RemoteControl.VolumeUp ctx = some ErrNotSupported) ∧
    (atv.RemoteControl.VolumeDown ctx = some ErrNotSupported) ∧
    (∀ action : InputAction, atv.RemoteControl.Home ctx action = some ErrNotSupported) ∧
    (atv.RemoteControl.HomeHold ctx = some ErrNotSupported) ∧
    (atv.RemoteControl.TopMenu ctx = some ErrNotSupported) ∧
    (atv.RemoteControl.Suspend ctx = some ErrNotSupported) ∧
    (atv.RemoteControl.WakeUp ctx = some ErrNotSupported) ∧
    (∀ timeInterval : Float, atv.RemoteControl.SkipForward ctx timeInterval = some ErrNotSupported) ∧
    (∀ timeInterval : Float, atv.RemoteControl.SkipBackward ctx timeInterval = some ErrNotSupported) ∧
    (∀ pos : Int, atv.RemoteControl.SetPosition ctx pos = some ErrNotSupported) ∧
    (∀ state : ShuffleState, atv.RemoteControl.SetShuffle ctx state = some ErrNotSupported) ∧
    (∀ state : RepeatState, atv.RemoteControl.SetRepeat ctx state = some ErrNotSupported) ∧
    (atv.RemoteControl.ChannelUp ctx = some ErrNotSupported) ∧
    (atv.RemoteControl.ChannelDown ctx = some ErrNotSupported) ∧
    (atv.RemoteControl.Screensaver ctx = some ErrNotSupported) ∧
    (∀ width height : Option Int,
      atv.Metadata.Artwork ctx width height = .error ErrNotSupported) ∧
    (atv.Metadata.Playing ctx = .error ErrNotSupported) ∧
    (∀ (Any : Type) (url : String) (options : GoMap Any),
      atv.Stream.PlayURL ctx url options = some ErrNotSupported) ∧
    (∀ (Any : Type) (file : Reader) (metadata : Option MediaMetadata)
        (overrideMissingMetadata : Bool) (options : GoMap Any),
      atv.Stream.StreamFile ctx file metadata overrideMissingMetadata options =
        some ErrNotSupported) :=
  ⟨fun _ => rfl, fun _ => rfl, fun _ => rfl, fun _ => rfl, rfl, rfl, rfl, rfl, rfl, rfl, fun _ => rfl, fun _ => rfl, rfl, rfl, fun _ => rfl, rfl, rfl, rfl, rfl, fun _ => rfl, fun _ => rfl, fun _ => rfl, fun _ => rfl, fun _ => rfl, rfl, rfl, rfl,
    fun _ _ => rfl, rfl, fun _ _ _ => rfl, fun _ _ _ _ _ => rfl⟩

/-! ## The pairing handler -/

/-- C21, as stated, fails for `Finish`: without PIN it returns
`ErrNoCredentials`, with a PIN it returns nil and marks the handler paired; in
neither case `ErrNotSupported`. -/
theorem Finish_not_unsupported :
    ((NewPairingHandler sampleConfigNoId (some sampleServiceNoId) ProtocolMRP {}).Finish {}).2 =
      some ErrNoCredentials ∧
    (((NewPairingHandler sampleConfigNoId (some sampleServiceNoId) ProtocolMRP {}).Pin
      "1234").Finish {}).2 = none ∧
    (((NewPairingHandler sampleConfigNoId (some sampleServiceNoId) ProtocolMRP {}).Pin
      "1234").Finish {}).1.HasPaired = true ∧
    ErrNoCredentials ≠ ErrNotSupported ∧
    ¬ (∀ (p : DefaultPairingHandler) (ctx : Context), (p.Finish ctx).2 = some ErrNotSupported) := by
  refine ⟨by decide, by decide, by decide, by decide, ?_⟩
  intro h
  exact absurd (h (NewPairingHandler sampleConfigNoId (some sampleServiceNoId) ProtocolMRP {}) {})
    (by decide)

/-- C21, amended: for every handler state `Begin` returns `ErrNotSupported` and
leaves the handler as it is; `Finish` returns `ErrNoCredentials`, leaving the
handler as it is, when no PIN is set, and returns nil and marks the handler
paired when a PIN is set; `Finish` never returns `ErrNotSupported`. -/
theorem Begin_unsupported_Finish_by_pin (p : DefaultPairingHandler) (ctx : Context) :
    p.Begin ctx = (p, some ErrNotSupported) ∧
    (p.pin = "" → p.Finish ctx = (p, some ErrNoCredentials)) ∧
    (p.pin ≠ "" → p.Finish ctx = ({ p with paired := true }, none)) ∧
    (p.Finish ctx).2 ≠ some ErrNotSupported := by
  refine ⟨rfl, ?_, ?_, ?_⟩
  · intro h
    simp [DefaultPairingHandler.Finish, h]
  · intro h
    simp [DefaultPairingHandler.Finish, h]
  · unfold DefaultPairingHandler.Finish
    split_ifs <;> simp

/-- Witness of C21, amended: a handler with the PIN 1234. -/
theorem Begin_unsupported_Finish_by_pin_witness :
    ((NewPairingHandler sampleConfigNoId (some sampleServiceNoId) ProtocolMRP {}).Pin "1234").pin
      ≠ "" ∧
    ((NewPairingHandler sampleConfigNoId (some sampleServiceNoId) ProtocolMRP {}).Pin
      "1234").Finish {} =
      ({ (NewPairingHandler sampleConfigNoId (some sampleServiceNoId) ProtocolMRP {}).Pin "1234"
          with paired := true }, none) :=
  ⟨by decide,
    (Begin_unsupported_Finish_by_pin
      ((NewPairingHandler sampleConfigNoId (some sampleServiceNoId) ProtocolMRP {}).Pin "1234")
      {}).2.2.1 (by decide)⟩

/-! ## `Discover` and `Scan` -/

/-- C22, as stated, fails: the filter visits the table in the order of Go's
`range` over a map, which is not fixed; two visits of the same table of two
ready records, in the two possible orders, return the records in different
sequences. -/
theorem Discover_order_follows_visit :
    [sampleReady "id1", sampleReady "id2"].Perm (GoMap.values sampleScannerTwo.devices) ∧
    [sampleReady "id2", sampleReady "id1"].Perm (GoMap.values sampleScannerTwo.devices) ∧
    sampleScannerTwo.filterDevices [sampleReady "id1", sampleReady "id2"] =
      [sampleReady "id1", sampleReady "id2"] ∧
    sampleScannerTwo.filterDevices [sampleReady "id2", sampleReady "id1"] =
      [sampleReady "id2", sampleReady "id1"] ∧
    sampleScannerTwo.filterDevices [sampleReady "id1", sampleReady "id2"] ≠
      sampleScannerTwo.filterDevices [sampleReady "id2", sampleReady "id1"] :=
  ⟨List.Perm.refl _, List.Perm.swap _ _ _, by decide, by decide, by decide⟩

/-- C22, amended: two evaluations of the result filter over the same table
return the same records up to their order (one result is a permutation of the
other), each in the order in which its evaluation visited the table. -/
theorem Discover_same_records_up_to_order (s : Scanner) (visited1 visited2 : List Config)
    (h1 : visited1.Perm (GoMap.values s.devices))
    (h2 : visited2.Perm (GoMap.values s.devices)) :
    (s.filterDevices visited1).Perm (s.filterDevices visited2) ∧
    (s.filterDevices visited1).Sublist visited1 ∧
    (s.filterDevices visited2).Sublist visited2 := by
  rw [filterDevices_eq_filter, filterDevices_eq_filter]
  exact ⟨(h1.trans h2.symm).filter _, List.filter_sublist _, List.filter_sublist _⟩

/-- Witness of C22, amended: the two visiting orders of the table of two ready
records. -/
theorem Discover_same_records_up_to_order_witness :
    (sampleScannerTwo.filterDevices [sampleReady "id1", sampleReady "id2"]).Perm
      (sampleScannerTwo.filterDevices [sampleReady "id2", sampleReady "id1"]) :=
  (Discover_same_records_up_to_order sampleScannerTwo
    [sampleReady "id1", sampleReady "id2"] [sampleReady "id2", sampleReady "id1"]
    (List.Perm.refl _) (List.Perm.swap _ _ _)).1

/-- C23: whatever the queries return and deliver, `Discover` and `Scan` return
a nil error; and when no record of the table is ready after the announcements
are handled, the returned list is empty. -/
theorem Discover_error_nil (toLower : String → String) (s : Scanner) (ctx : Context)
    (query : Transport) (visited : List Config)
    (hvisit : visited.Perm (GoMap.values (s.Discover toLower ctx query visited).scanner.devices)) :
    (s.Discover toLower ctx query visited).err = none ∧
    (∀ opts, (Scan toLower ctx opts query visited).err = none) ∧
    ((∀ c ∈ GoMap.values (s.Discover toLower ctx query visited).scanner.devices,
        c.Ready = false) →
      (s.Discover toLower ctx query visited).result = []) := by
  refine ⟨rfl, fun _ => rfl, ?_⟩
  intro hnone
  unfold Scanner.Discover at hvisit hnone ⊢
  simp only at hvisit hnone ⊢
  rw [filterDevices_eq_filter, List.filter_eq_nil_iff]
  intro c hc
  simp [hnone c (hvisit.mem_iff.mp hc)]

/-- Witness of C23: every query fails and delivers nothing; the error is nil
and the list is empty. -/
theorem Discover_error_nil_witness :
    ((NewScanner {}).Discover asciiToLower {} sampleFailingTransport []).err = none ∧
    ((NewScanner {}).Discover asciiToLower {} sampleFailingTransport []).result = [] ∧
    ((NewScanner {}).Discover asciiToLower {} sampleFailingTransport []).output.length = 5 :=
  ⟨(Discover_error_nil asciiToLower (NewScanner {}) {} sampleFailingTransport []
      (List.Perm.refl _)).1,
    (Discover_error_nil asciiToLower (NewScanner {}) {} sampleFailingTransport []
      (List.Perm.refl _)).2.2 (by decide),
    by decide⟩

/-- C25, code bug: `Scan` with a timeout of 300 ms and no restriction makes
five calls of `mdns.Query`, one after the other, each with the full 300 ms as
its timeout; with queries that block for their timeout the query loop takes
1.5 s, five times the deadline, and with a query that never returns it never
ends.  The context has no part in it: the scan is the same for every
context. -/
theorem Scan_blocks_past_deadline :
    (Scan asciiToLower {} { Timeout := 300000000 } sampleTransport []).queries =
      (NewScanner { Timeout := 300000000 }).queryParams ∧
    (Scan asciiToLower {} { Timeout := 300000000 } sampleTransport []).queries.map
        (fun q => (q.Service, q.Timeout)) =
      [("_mediaremotetv._tcp", 300000000), ("_dacp._tcp", 300000000),
       ("_airplay._tcp", 300000000), ("_raop._tcp", 300000000),
       ("_companion-link._tcp", 300000000)] ∧
    (NewScanner { Timeout := 300000000 }).queryLoopTime sampleBlocking = some 1500000000 ∧
    (300000000 : Int) < 1500000000 ∧
    (NewScanner { Timeout := 300000000 }).queryLoopTime sampleHanging = none ∧
    (∀ (toLower : String → String) (ctx : Context) (opts : ScanOptions) (query : Transport)
        (visited : List Config),
      (Scan toLower ctx opts query visited).queries =
        (Scan toLower {} opts query visited).queries ∧
      (Scan toLower ctx opts query visited).scanner =
        (Scan toLower {} opts query visited).scanner) :=
  ⟨rfl, by decide, by decide, by decide, by decide, fun _ _ _ _ _ => ⟨rfl, rfl⟩⟩

/-- C26: `Protocol.String` maps the five protocol constants to DMAP, MRP,
AirPlay, Companion and RAOP and every other integer, 0 included, to Unknown; it
is injective on the five constants. -/
theorem Protocol_String_table :
    Protocol.String ProtocolDMAP = "DMAP" ∧
    Protocol.String ProtocolMRP = "MRP" ∧
    Protocol.String ProtocolAirPlay = "AirPlay" ∧
    Protocol.String ProtocolCompanion = "Companion" ∧
    Protocol.String ProtocolRAOP = "RAOP" ∧
    Protocol.String 0 = "Unknown" ∧
    (∀ p : Protocol, p ≠ ProtocolDMAP → p ≠ ProtocolMRP → p ≠ ProtocolAirPlay →
      p ≠ ProtocolCompanion → p ≠ ProtocolRAOP → Protocol.String p = "Unknown") ∧
    (∀ p q : Protocol, 1 ≤ p → p ≤ 5 → 1 ≤ q → q ≤ 5 →
      Protocol.String p = Protocol.String q → p = q) := by
  refine ⟨by decide, by decide, by decide, by decide, by decide, by decide, ?_, ?_⟩
  · intro p h1 h2 h3 h4 h5
    simp [Protocol.String, h1, h2, h3, h4, h5]
  · intro p q hp1 hp5 hq1 hq5 h
    interval_cases p <;> interval_cases q <;> first | rfl | (revert h; decide)

/-! ## Parsing the attributes of an announcement -/

/-- C27: the attribute map `handleEntry` builds from an
attribute list has, for every key, the value of the last string of the list
with that key, where the key of a string is the text before its first `=` (the
whole string when it has none) and the value is everything after the first `=`
(empty when it has none); the keys of the map are exactly the keys of the
strings of the list, each once. -/
theorem parseTxtRecords_last_wins (infoFields : List String) :
    (∀ k, GoMap.get (parseTxtRecords infoFields) k =
      (infoFields.reverse.find? (fun txt => decide (attrKey txt = k))).map attrValue) ∧
    (∀ k, k ∈ GoMap.keys (parseTxtRecords infoFields) ↔ ∃ txt ∈ infoFields, attrKey txt = k) ∧
    GoMap.WF (parseTxtRecords infoFields) ∧
    (∀ k v : String, '=' ∉ k.data →
      attrKey (k ++ "=" ++ v) = k ∧ attrValue (k ++ "=" ++ v) = v) ∧
    (∀ txt : String, '=' ∉ txt.data → attrKey txt = txt ∧ attrValue txt = "") := by
  have hget : ∀ k, GoMap.get (parseTxtRecords infoFields) k =
      (infoFields.reverse.find? (fun txt => decide (attrKey txt = k))).map attrValue := by
    intro k
    rw [parseTxtRecords_eq_foldl, get_foldl_attr]
    cases infoFields.reverse.find? (fun txt => decide (attrKey txt = k)) <;> simp [GoMap.get]
  refine ⟨hget, ?_, parseTxtRecords_WF infoFields, ?_, attr_of_bare⟩
  · intro k
    rw [← get_ne_none_iff_mem_keys, hget]
    constructor
    · intro h
      cases hf : infoFields.reverse.find? (fun txt => decide (attrKey txt = k)) with
      | none => rw [hf] at h; exact absurd rfl h
      | some txt =>
        exact ⟨txt, List.mem_reverse.mp (List.mem_of_find?_eq_some hf),
          by simpa using List.find?_some hf⟩
    · rintro ⟨txt, hmem, hk⟩
      cases hf : infoFields.reverse.find? (fun txt => decide (attrKey txt = k)) with
      | none =>
        rw [List.find?_eq_none] at hf
        exact absurd (by simpa using hk) (hf txt (List.mem_reverse.mpr hmem))
      | some txt' => simp
  · intro k v hk
    unfold attrKey attrValue
    have hdata : (k ++ "=" ++ v).data = k.data ++ '=' :: v.data := by
      simp [String.data_append]
    rw [hdata, takeWhile_append_eq _ _ hk, dropWhile_append_eq _ _ hk]
    exact ⟨rfl, rfl⟩

/-- Witness of C27: a value with a further `=`, a bare flag and a key that
occurs twice. -/
theorem parseTxtRecords_last_wins_witness :
    parseTxtRecords ["a=b=c", "flag", "a=2"] = [("a", "2"), ("flag", "")] ∧
    attrKey "a=b=c" = "a" ∧ attrValue "a=b=c" = "b=c" ∧
    GoMap.get (parseTxtRecords ["a=b=c", "flag", "a=2"]) "a" = some "2" :=
  ⟨by decide, by decide, by decide,
    ((parseTxtRecords_last_wins ["a=b=c", "flag", "a=2"]).1 "a").trans (by decide)⟩

/-- C28: an announcement whose name contains none of the five service-type
substrings is discarded: `handleEntry` returns the scanner it was given, with
the same table, and so does handling any sequence of such announcements. -/
theorem handleEntry_discards_unrecognized (toLower : String → String) (s : Scanner)
    (a : ServiceEntry) (h : ∀ st ∈ serviceTypes, GoStr.Contains a.Name st.1 = false) :
    s.handleEntry toLower a = s ∧
    (s.handleEntry toLower a).devices = s.devices ∧
    (∀ k, GoMap.get (s.handleEntry toLower a).devices k = GoMap.get s.devices k) ∧
    s.handleEntries toLower [a, a] = s := by
  have he := handleEntry_of_unrecognized toLower s a
    (getProtocolFromService_of_no_type a.Name h)
  refine ⟨he, by rw [he], fun k => by rw [he], ?_⟩
  unfold Scanner.handleEntries
  simp only [List.foldl_cons, List.foldl_nil]
  rw [he, he]

/-- Witness of C28: an announcement of an HTTP service leaves the table of
three records as it is. -/
theorem handleEntry_discards_unrecognized_witness :
    (∀ st ∈ serviceTypes,
      GoStr.Contains "Printer._http._tcp.local." st.1 = false) ∧
    sampleScanner.handleEntry asciiToLower
      { Name := "Printer._http._tcp.local.", Port := 80, InfoFields := ["deviceid=AA"] } =
      sampleScanner :=
  ⟨by decide,
    (handleEntry_discards_unrecognized asciiToLower sampleScanner
      { Name := "Printer._http._tcp.local.", Port := 80, InfoFields := ["deviceid=AA"] }
      (by decide)).1⟩

/-- C29: `extractIdentifier` returns the value under the protocol's own key
when that key is present (MRP `UniqueIdentifier`, DMAP `HSGID`, AirPlay and RAOP
`deviceid`, Companion `rpHA`); when it is absent, and for every other protocol
value, the value under `deviceid` if present, else the value under `DeviceID`
if present, else the empty string.  An announcement whose service gets an
empty identifier still leaves a service of its protocol in the record and does
not change whether the record is ready (a new record is not ready). -/
theorem extractIdentifier_preference (txtRecords : GoMap String) :
    (∀ v, GoMap.get txtRecords "UniqueIdentifier" = some v →
      extractIdentifier txtRecords ProtocolMRP = v) ∧
    (∀ v, GoMap.get txtRecords "HSGID" = some v →
      extractIdentifier txtRecords ProtocolDMAP = v) ∧
    (∀ v, GoMap.get txtRecords "deviceid" = some v →
      extractIdentifier txtRecords ProtocolAirPlay = v) ∧
    (∀ v, GoMap.get txtRecords "deviceid" = some v →
      extractIdentifier txtRecords ProtocolRAOP = v) ∧
    (∀ v, GoMap.get txtRecords "rpHA" = some v →
      extractIdentifier txtRecords ProtocolCompanion = v) ∧
    (∀ p : Protocol,
      ((p = ProtocolMRP ∧ GoMap.get txtRecords "UniqueIdentifier" = none) ∨
        (p = ProtocolDMAP ∧ GoMap.get txtRecords "HSGID" = none) ∨
        (p = ProtocolAirPlay ∧ GoMap.get txtRecords "deviceid" = none) ∨
        (p = ProtocolRAOP ∧ GoMap.get txtRecords "deviceid" = none) ∨
        (p = ProtocolCompanion ∧ GoMap.get txtRecords "rpHA" = none) ∨
        (p ≠ ProtocolMRP ∧ p ≠ ProtocolDMAP ∧ p ≠ ProtocolAirPlay ∧ p ≠ ProtocolRAOP ∧
          p ≠ ProtocolCompanion)) →
      extractIdentifier txtRecords p =
        ((GoMap.get txtRecords "deviceid").orElse
          (fun _ => GoMap.get txtRecords "DeviceID")).getD "") ∧
    (∀ (toLower : String → String) (s : Scanner) (a : ServiceEntry),
      getProtocolFromService a.Name ≠ 0 →
      extractIdentifier (parseTxtRecords a.InfoFields) (getProtocolFromService a.Name) = "" →
      ∃ c', GoMap.get (s.handleEntry toLower a).devices (announcementKey a) = some c' ∧
        c'.GetService (getProtocolFromService a.Name) ≠ none ∧
        c'.Ready =
          ((GoMap.get s.devices (announcementKey a)).map (fun c => c.Ready)).getD false) := by
  have hfall : fallbackIdentifier txtRecords =
      ((GoMap.get txtRecords "deviceid").orElse
        (fun _ => GoMap.get txtRecords "DeviceID")).getD "" := by
    unfold fallbackIdentifier
    cases GoMap.get txtRecords "deviceid" <;> cases GoMap.get txtRecords "DeviceID" <;> rfl
  refine ⟨?_, ?_, ?_, ?_, ?_, ?_, ?_⟩
  · intro v h; simp [extractIdentifier, identifierKey, h]
  · intro v h; simp [extractIdentifier, identifierKey, h]
  · intro v h; simp [extractIdentifier, identifierKey, h]
  · intro v h; simp [extractIdentifier, identifierKey, h]
  · intro v h; simp [extractIdentifier, identifierKey, h]
  · intro p h
    rw [← hfall]
    rcases h with ⟨rfl, h⟩ | ⟨rfl, h⟩ | ⟨rfl, h⟩ | ⟨rfl, h⟩ | ⟨rfl, h⟩ | ⟨h1, h2, h3, h4, h5⟩
    · simp [extractIdentifier, identifierKey, h]
    · simp [extractIdentifier, identifierKey, h]
    · simp [extractIdentifier, identifierKey, h]
    · simp [extractIdentifier, identifierKey, h]
    · simp [extractIdentifier, identifierKey, h]
    · simp [extractIdentifier, identifierKey, h1, h2, h3, h4, h5]
  · intro toLower s a hp hid
    refine ⟨_, by rw [handleEntry_devices toLower s a hp, GoMap.get_set_self], ?_, ?_⟩
    · rw [Ne, getService_eq_none_iff, updateConfig_eq]
      exact fun hn => hn (addServiceLoop_mem_protocols _ (newService a _ _))
    · rw [ready_updateConfig, ready_addService_empty _ _ hid]
      cases GoMap.get s.devices (announcementKey a) with
      | none => simp [newConfig_Ready]
      | some c => simp

/-- Witness of C29: MRP announcements with and without `UniqueIdentifier`; the
one without any attribute leaves a record with an MRP service, not ready. -/
theorem extractIdentifier_preference_witness :
    extractIdentifier (parseTxtRecords sampleMRP.InfoFields) ProtocolMRP = "XYZ" ∧
    extractIdentifier [("DeviceID", "AA:BB")] ProtocolMRP = "AA:BB" ∧
    ∃ c', GoMap.get ((NewScanner {}).handleEntry asciiToLower sampleMRPNoId).devices
        (announcementKey sampleMRPNoId) = some c' ∧
      c'.GetService (getProtocolFromService sampleMRPNoId.Name) ≠ none ∧
      c'.Ready = ((GoMap.get (NewScanner {}).devices (announcementKey sampleMRPNoId)).map
        (fun c => c.Ready)).getD false :=
  ⟨(extractIdentifier_preference (parseTxtRecords sampleMRP.InfoFields)).1 "XYZ" (by decide),
    ((extractIdentifier_preference [("DeviceID", "AA:BB")]).2.2.2.2.2.1 ProtocolMRP
      (Or.inl ⟨rfl, by decide⟩)).trans (by decide),
    (extractIdentifier_preference []).2.2.2.2.2.2 asciiToLower (NewScanner {}) sampleMRPNoId
      (by decide) (by decide)⟩

/-- C30, as stated, fails: an announcement whose `model`, `osvers` and `srcvers`
attributes are present with an empty value, handled for a record with a filled
metadata block, empties the raw model, the OS version and the build string;
only the hardware address stays. -/
theorem updateDeviceInfo_erases_by_empty_value :
    parseTxtRecords sampleSparse.InfoFields = [("model", ""), ("osvers", ""), ("srcvers", "")] ∧
    (GoMap.get sampleScannerWithInfo.devices "10.0.0.2").map
      (fun c => (c.DeviceInfo.RawModel, c.DeviceInfo.Version, c.DeviceInfo.BuildNumber,
        c.DeviceInfo.MAC)) = some ("AppleTV6,2", "17.4", "21L227", "AA:BB:CC:DD:EE:FF") ∧
    (GoMap.get (sampleScannerWithInfo.handleEntry asciiToLower sampleSparse).devices
      "10.0.0.2").map
      (fun c => (c.DeviceInfo.RawModel, c.DeviceInfo.Version, c.DeviceInfo.BuildNumber,
        c.DeviceInfo.MAC)) = some ("", "", "", "AA:BB:CC:DD:EE:FF") := by
  decide

/-- C30, amended: the metadata is patched by presence of the attribute: raw
model, OS version and build string become the value of `model`, `osvers`,
`srcvers` when the attribute is present, also when that value is empty, and
stay as they are when it is absent; the hardware address becomes the value of
`deviceid` only when that value contains a colon and stays as it is otherwise,
so a non-empty hardware address is never emptied.  The record of an
announcement's key gets this patch of the metadata block it had. -/
theorem updateDeviceInfo_by_presence (toLower : String → String) (info : DeviceInfo)
    (txtRecords : GoMap String) (protocol : Protocol) :
    (updateDeviceInfo toLower info txtRecords protocol).RawModel =
      (GoMap.get txtRecords "model").getD info.RawModel ∧
    (updateDeviceInfo toLower info txtRecords protocol).Version =
      (GoMap.get txtRecords "osvers").getD info.Version ∧
    (updateDeviceInfo toLower info txtRecords protocol).BuildNumber =
      (GoMap.get txtRecords "srcvers").getD info.BuildNumber ∧
    (updateDeviceInfo toLower info txtRecords protocol).MAC =
      (match GoMap.get txtRecords "deviceid" with
        | some mac => if GoStr.Contains mac ":" then mac else info.MAC
        | none => info.MAC) ∧
    (info.MAC ≠ "" → (updateDeviceInfo toLower info txtRecords protocol).MAC ≠ "") ∧
    (∀ (s : Scanner) (a : ServiceEntry), getProtocolFromService a.Name ≠ 0 →
      ∃ c', GoMap.get (s.handleEntry toLower a).devices (announcementKey a) = some c' ∧
        c'.DeviceInfo = updateDeviceInfo toLower
          ((GoMap.get s.devices (announcementKey a)).getD (newConfig a)).DeviceInfo
          (parseTxtRecords a.InfoFields) (getProtocolFromService a.Name)) := by
  refine ⟨by rw [updateDeviceInfo_eq], by rw [updateDeviceInfo_eq], by rw [updateDeviceInfo_eq],
    by rw [updateDeviceInfo_eq], ?_, ?_⟩
  · intro hmac
    rw [updateDeviceInfo_eq]
    simp only
    cases hd : GoMap.get txtRecords "deviceid" with
    | none => exact hmac
    | some mac =>
      simp only
      by_cases hc : GoStr.Contains mac ":" = true
      · rw [if_pos hc]
        exact contains_colon_ne_empty mac hc
      · rw [if_neg hc]
        exact hmac
  · intro s a hp
    refine ⟨_, by rw [handleEntry_devices toLower s a hp, GoMap.get_set_self], ?_⟩
    rw [updateConfig_eq]

/-- Witness of C30, amended: the sparse announcement for the record with the
filled metadata block. -/
theorem updateDeviceInfo_by_presence_witness :
    (updateDeviceInfo asciiToLower sampleConfigWithInfo.DeviceInfo
      (parseTxtRecords sampleSparse.InfoFields) ProtocolAirPlay).MAC = "AA:BB:CC:DD:EE:FF" ∧
    (updateDeviceInfo asciiToLower sampleConfigWithInfo.DeviceInfo
      (parseTxtRecords sampleSparse.InfoFields) ProtocolAirPlay).MAC ≠ "" :=
  ⟨by decide,
    (updateDeviceInfo_by_presence asciiToLower sampleConfigWithInfo.DeviceInfo
      (parseTxtRecords sampleSparse.InfoFields) ProtocolAirPlay).2.2.2.2.1 (by decide)⟩

/-! ## The metadata block -/

/-- C31, as stated, fails: the `deviceid` value `host:7000` is not made of
colon-separated hex octets, and `updateDeviceInfo` stores it as the hardware
address, as it does for `x:`. -/
theorem updateDeviceInfo_takes_any_colon :
    isColonHexOctets "host:7000" = false ∧ isColonHexOctets "x:" = false ∧
    isColonHexOctets "AA:BB:CC:DD:EE:FF" = true ∧
    (updateDeviceInfo asciiToLower {} (parseTxtRecords sampleHostPort.InfoFields)
      ProtocolAirPlay).MAC = "host:7000" ∧
    (updateDeviceInfo asciiToLower sampleConfigWithInfo.DeviceInfo [("deviceid", "x:")]
      ProtocolAirPlay).MAC = "x:" ∧
    sampleConfigWithInfo.DeviceInfo.MAC = "AA:BB:CC:DD:EE:FF" := by
  decide

/-- C31, amended: the hardware address is taken from an announcement exactly
when the `deviceid` attribute is present and its value contains a colon, and is
then that value; for every other attribute map `updateDeviceInfo` leaves the
hardware address unchanged. -/
theorem updateDeviceInfo_MAC_by_colon (toLower : String → String) (info : DeviceInfo)
    (txtRecords : GoMap String) (protocol : Protocol) :
    (∀ mac, GoMap.get txtRecords "deviceid" = some mac → GoStr.Contains mac ":" = true →
      (updateDeviceInfo toLower info txtRecords protocol).MAC = mac) ∧
    (∀ mac, GoMap.get txtRecords "deviceid" = some mac → GoStr.Contains mac ":" = false →
      (updateDeviceInfo toLower info txtRecords protocol).MAC = info.MAC) ∧
    (GoMap.get txtRecords "deviceid" = none →
      (updateDeviceInfo toLower info txtRecords protocol).MAC = info.MAC) := by
  refine ⟨?_, ?_, ?_⟩
  · intro mac h hc
    rw [updateDeviceInfo_eq]
    simp [h, hc]
  · intro mac h hc
    rw [updateDeviceInfo_eq]
    simp [h, hc]
  · intro h
    rw [updateDeviceInfo_eq]
    simp [h]

/-- Witness of C31, amended: a hardware address with colons is taken, a value
without colon is not. -/
theorem updateDeviceInfo_MAC_by_colon_witness :
    (updateDeviceInfo asciiToLower {} (parseTxtRecords sampleAirPlay.InfoFields)
      ProtocolAirPlay).MAC = "AA:BB:CC:DD:EE:FF" ∧
    (updateDeviceInfo asciiToLower sampleConfigWithInfo.DeviceInfo
      [("deviceid", "AABBCCDDEEFF")] ProtocolAirPlay).MAC = sampleConfigWithInfo.DeviceInfo.MAC :=
  ⟨(updateDeviceInfo_MAC_by_colon asciiToLower {} (parseTxtRecords sampleAirPlay.InfoFields)
      ProtocolAirPlay).1 "AA:BB:CC:DD:EE:FF" (by decide) (by decide),
    (updateDeviceInfo_MAC_by_colon asciiToLower sampleConfigWithInfo.DeviceInfo
      [("deviceid", "AABBCCDDEEFF")] ProtocolAirPlay).2.1 "AABBCCDDEEFF" (by decide)
      (by decide)⟩

/-- C32: `updateDeviceInfo` is total; with none of the keys `model`, `osvers`,
`srcvers`, `deviceid` in the map it returns the metadata block unchanged (the
zero block for a new record); a field changes only when its key is present:
`model` gives `RawModel` and `Model`, `osvers` gives `Version` and the tvOS
operating system, `srcvers` gives `BuildNumber`, `deviceid` can change `MAC`
alone, and `OutputDeviceID` never changes. -/
theorem updateDeviceInfo_frame (toLower : String → String) (info : DeviceInfo)
    (txtRecords : GoMap String) (protocol : Protocol) :
    (GoMap.get txtRecords "model" = none → GoMap.get txtRecords "osvers" = none →
      GoMap.get txtRecords "srcvers" = none → GoMap.get txtRecords "deviceid" = none →
      updateDeviceInfo toLower info txtRecords protocol = info) ∧
    (GoMap.get txtRecords "model" = none →
      (updateDeviceInfo toLower info txtRecords protocol).RawModel = info.RawModel ∧
      (updateDeviceInfo toLower info txtRecords protocol).Model = info.Model) ∧
    (GoMap.get txtRecords "osvers" = none →
      (updateDeviceInfo toLower info txtRecords protocol).Version = info.Version ∧
      (updateDeviceInfo toLower info txtRecords protocol).OperatingSystem =
        info.OperatingSystem) ∧
    (GoMap.get txtRecords "srcvers" = none →
      (updateDeviceInfo toLower info txtRecords protocol).BuildNumber = info.BuildNumber) ∧
    (GoMap.get txtRecords "deviceid" = none →
      (updateDeviceInfo toLower info txtRecords protocol).MAC = info.MAC) ∧
    (updateDeviceInfo toLower info txtRecords protocol).OutputDeviceID = info.OutputDeviceID ∧
    (∀ model, GoMap.get txtRecords "model" = some model →
      (updateDeviceInfo toLower info txtRecords protocol).RawModel = model ∧
      (updateDeviceInfo toLower info txtRecords protocol).Model = parseModel toLower model) ∧
    (∀ osv, GoMap.get txtRecords "osvers" = some osv →
      (updateDeviceInfo toLower info txtRecords protocol).Version = osv ∧
      (updateDeviceInfo toLower info txtRecords protocol).OperatingSystem =
        OperatingSystemTvOS) ∧
    (∀ build, GoMap.get txtRecords "srcvers" = some build →
      (updateDeviceInfo toLower info txtRecords protocol).BuildNumber = build) ∧
    (∀ entry : ServiceEntry, (newConfig entry).DeviceInfo = {}) := by
  refine ⟨?_, ?_, ?_, ?_, ?_, ?_, ?_, ?_, ?_, ?_⟩
  · intro h1 h2 h3 h4
    rw [updateDeviceInfo_eq]
    simp [h1, h2, h3, h4]
  · intro h
    rw [updateDeviceInfo_eq]
    simp [h]
  · intro h
    rw [updateDeviceInfo_eq]
    simp [h]
  · intro h
    rw [updateDeviceInfo_eq]
    simp [h]
  · intro h
    rw [updateDeviceInfo_eq]
    simp [h]
  · rw [updateDeviceInfo_eq]
  · intro model h
    rw [updateDeviceInfo_eq]
    simp [h]
  · intro osv h
    rw [updateDeviceInfo_eq]
    simp [h]
  · intro build h
    rw [updateDeviceInfo_eq]
    simp [h]
  · intro entry
    unfold newConfig
    simp only
    split_ifs <;> rfl

/-- Witness of C32: an attribute map with other keys only leaves the filled
metadata block as it is. -/
theorem updateDeviceInfo_frame_witness :
    updateDeviceInfo asciiToLower sampleConfigWithInfo.DeviceInfo
      (parseTxtRecords ["UniqueIdentifier=XYZ", "sf=0x4"]) ProtocolMRP =
      sampleConfigWithInfo.DeviceInfo :=
  (updateDeviceInfo_frame asciiToLower sampleConfigWithInfo.DeviceInfo
    (parseTxtRecords ["UniqueIdentifier=XYZ", "sf=0x4"]) ProtocolMRP).1
    (by decide) (by decide) (by decide) (by decide)

/-! ## Creating and updating a record -/

/-- C33: when `handleEntry` handles a recognized announcement whose key has no
record, the record it creates has as display name the text of the announcement
name before the first `._` (the whole name when `._` does not occur; the name
is a prefix of the announcement name, followed by `._` or by nothing, no `._`
starts inside it and it does not contain `._`), and as address the v4 address
when there is one, else the v6 address; the record starts with no service, a
zero metadata block, no snapshot and an empty identity, to which the
announcement is then applied. -/
theorem handleEntry_creates_record (toLower : String → String) (s : Scanner)
    (a : ServiceEntry) (hrec : getProtocolFromService a.Name ≠ 0)
    (hnew : GoMap.get s.devices (announcementKey a) = none) :
    (∃ c', GoMap.get (s.handleEntry toLower a).devices (announcementKey a) = some c' ∧
      c' = updateConfig toLower (newConfig a) a (parseTxtRecords a.InfoFields)
        (getProtocolFromService a.Name) ∧
      c'.Name = extractName a.Name ∧
      c'.Address = (match a.AddrV4 with
        | some ip => some ip
        | none => a.AddrV6)) ∧
    extractName a.Name = textBeforeFirst a.Name "._" ∧
    (∃ rest, a.Name.data = (extractName a.Name).data ++ rest ∧
      (rest = [] ∨ GoStr.startsWith rest ("._" : String).data = true)) ∧
    (∀ i, i < (extractName a.Name).data.length →
      GoStr.startsWith (a.Name.data.drop i) ("._" : String).data = false) ∧
    GoStr.Contains (extractName a.Name) "._" = false ∧
    (GoStr.Contains a.Name "._" = false → extractName a.Name = a.Name) ∧
    (newConfig a).Services = [] ∧ (newConfig a).DeviceInfo = {} ∧
    (newConfig a).Properties = [] ∧ (newConfig a).Identifier = "" := by
  have hname : (newConfig a).Name = extractName a.Name := by
    unfold newConfig
    simp only
    split_ifs <;> rfl
  have haddr : (newConfig a).Address = (match a.AddrV4 with
      | some ip => some ip
      | none => a.AddrV6) := by
    unfold newConfig
    cases h4 : a.AddrV4 <;> cases h6 : a.AddrV6 <;> simp
  refine ⟨⟨_, by rw [handleEntry_devices toLower s a hrec, GoMap.get_set_self], ?_, ?_, ?_⟩,
    extractName_eq a.Name, ?_, ?_, ?_, ?_, newConfig_Services a, ?_, ?_, newConfig_Identifier a⟩
  · rw [hnew, Option.getD_none]
  · rw [hnew, Option.getD_none, updateConfig_eq]
    simp only [hname]
    split_ifs with h
    · rfl
    · rfl
  · rw [hnew, Option.getD_none, updateConfig_eq]
    exact haddr
  · rw [extractName_eq]
    exact beforeFirstChars_prefix _ _
  · intro i hi
    rw [extractName_eq] at hi
    exact beforeFirstChars_no_earlier _ _ i hi
  · rw [extractName_eq]
    exact beforeFirstChars_not_contains _ _ (by decide)
  · intro h
    rw [extractName_eq]
    unfold textBeforeFirst
    rw [beforeFirstChars_of_not_contains _ _ h]
  · unfold newConfig
    simp only
    split_ifs <;> rfl
  · unfold newConfig
    simp only
    split_ifs <;> rfl

/-- Witness of C33: the AirPlay announcement for an empty table makes the
record `Living Room` at 10.0.0.2. -/
theorem handleEntry_creates_record_witness :
    GoMap.get (NewScanner {}).devices (announcementKey sampleAirPlay) = none ∧
    ∃ c', GoMap.get ((NewScanner {}).handleEntry asciiToLower sampleAirPlay).devices
        (announcementKey sampleAirPlay) = some c' ∧
      c'.Name = "Living Room" ∧ c'.Address = some ⟨"10.0.0.2"⟩ :=
  ⟨by decide,
    match (handleEntry_creates_record asciiToLower (NewScanner {}) sampleAirPlay (by decide)
      (by decide)).1 with
    | ⟨c', hget, _, hname, haddr⟩ =>
      ⟨c', hget, hname.trans (by decide), haddr.trans (by decide)⟩⟩

/-- C34: when a recognized announcement is handled for an existing record, the
record's name becomes the extracted name of the announcement if it was empty
and stays as it is otherwise, and its address stays as it is; so through every
sequence of announcements a non-empty display name and the address of an
existing record are kept. -/
theorem handleEntry_backfills_name (toLower : String → String) (s : Scanner)
    (a : ServiceEntry) (c : Config) (hrec : getProtocolFromService a.Name ≠ 0)
    (hold : GoMap.get s.devices (announcementKey a) = some c) :
    (∃ c', GoMap.get (s.handleEntry toLower a).devices (announcementKey a) = some c' ∧
      (c.Name = "" → c'.Name = extractName a.Name) ∧
      (c.Name ≠ "" → c'.Name = c.Name) ∧
      c'.Address = c.Address) ∧
    (∀ (entries : List ServiceEntry) (k : String) (d : Config),
      GoMap.get s.devices k = some d →
      ∃ d', GoMap.get (s.handleEntries toLower entries).devices k = some d' ∧
        d'.Address = d.Address ∧ (d.Name ≠ "" → d'.Name = d.Name)) := by
  refine ⟨⟨_, by rw [handleEntry_devices toLower s a hrec, GoMap.get_set_self], ?_, ?_, ?_⟩,
    fun entries k d hd => handleEntries_name_address_kept toLower entries s k d hd⟩
  · intro h
    rw [hold, Option.getD_some, updateConfig_eq]
    simp [h]
  · intro h
    rw [hold, Option.getD_some, updateConfig_eq]
    simp [h]
  · rw [hold, Option.getD_some, updateConfig_eq]

/-- Witness of C34: the record made by an announcement whose name starts with
`._` has an empty name, which the next announcement of the same key fills in;
its v6 address stays. -/
theorem handleEntry_backfills_name_witness :
    (GoMap.get ((NewScanner {}).handleEntry asciiToLower sampleV6).devices "fe80::1").map
      (fun c => (c.Name, c.Address)) = some ("", some ⟨"fe80::1"⟩) ∧
    ∃ c', GoMap.get (((NewScanner {}).handleEntry asciiToLower sampleV6).handleEntry asciiToLower
        { sampleV6 with Name := "Den._mediaremotetv._tcp.local.", AddrV4 := none }).devices
        "fe80::1" = some c' ∧
      c'.Name = "Den" ∧ c'.Address = some ⟨"fe80::1"⟩ :=
  ⟨by decide,
    match (handleEntry_backfills_name asciiToLower
      ((NewScanner {}).handleEntry asciiToLower sampleV6)
      { sampleV6 with Name := "Den._mediaremotetv._tcp.local.", AddrV4 := none }
      (updateConfig asciiToLower (newConfig sampleV6) sampleV6
        (parseTxtRecords sampleV6.InfoFields) (getProtocolFromService sampleV6.Name))
      (by decide) (by decide)).1 with
    | ⟨c', hget, hempty, _, haddr⟩ =>
      ⟨c', hget, (hempty (by decide)).trans (by decide), haddr.trans (by decide)⟩⟩

/-- C35: after `handleEntry` handled a recognized announcement of protocol `p`,
the snapshot of the record under the service-type string of `p` is the
attribute map of that announcement alone, and the snapshot under every other
string is the one the record had (none for a new record). -/
theorem handleEntry_snapshot (toLower : String → String) (s : Scanner) (a : ServiceEntry)
    (hrec : getProtocolFromService a.Name ≠ 0) :
    ∃ c', GoMap.get (s.handleEntry toLower a).devices (announcementKey a) = some c' ∧
      GoMap.get c'.Properties (getServiceTypeForProtocol (getProtocolFromService a.Name)) =
        some (parseTxtRecords a.InfoFields) ∧
      (∀ t, t ≠ getServiceTypeForProtocol (getProtocolFromService a.Name) →
        GoMap.get c'.Properties t =
          (match GoMap.get s.devices (announcementKey a) with
            | some c => GoMap.get c.Properties t
            | none => none)) := by
  refine ⟨_, by rw [handleEntry_devices toLower s a hrec, GoMap.get_set_self], ?_, ?_⟩
  · rw [updateConfig_eq]
    exact GoMap.get_set_self _ _ _
  · intro t ht
    rw [updateConfig_eq]
    simp only
    rw [GoMap.get_set_ne _ _ (fun e => ht e.symm)]
    cases hget : GoMap.get s.devices (announcementKey a) with
    | none =>
      have hprops : (newConfig a).Properties = [] := by
        unfold newConfig
        simp only
        split_ifs <;> rfl
      simp [hprops, GoMap.get]
    | some c => simp

/-- Witness of C35: the later AirPlay announcement replaces the AirPlay
snapshot, while the AirPlay service has the union of both attribute maps, and
the MRP snapshot stays. -/
theorem handleEntry_snapshot_witness :
    (GoMap.get (((NewScanner {}).handleEntries asciiToLower
      [sampleAirPlay, sampleMRP]).handleEntry asciiToLower sampleAirPlayLater).devices
      "AA:BB:CC:DD:EE:FF").map
      (fun c => (GoMap.get c.Properties "_airplay._tcp", GoMap.get c.Properties
        "_mediaremotetv._tcp", (c.GetService ProtocolAirPlay).map (fun e => e.Properties))) =
      some (some [("deviceid", "AA:BB:CC:DD:EE:FF"), ("sf", "0x4")],
        some [("DeviceID", "AA:BB:CC:DD:EE:FF"), ("UniqueIdentifier", "XYZ")],
        some [("deviceid", "AA:BB:CC:DD:EE:FF"), ("model", "AppleTV6,2"), ("sf", "0x4")]) ∧
    ∃ c', GoMap.get (((NewScanner {}).handleEntries asciiToLower
        [sampleAirPlay, sampleMRP]).handleEntry asciiToLower sampleAirPlayLater).devices
        (announcementKey sampleAirPlayLater) = some c' ∧
      GoMap.get c'.Properties
        (getServiceTypeForProtocol (getProtocolFromService sampleAirPlayLater.Name)) =
        some (parseTxtRecords sampleAirPlayLater.InfoFields) :=
  ⟨by decide,
    match handleEntry_snapshot asciiToLower
      ((NewScanner {}).handleEntries asciiToLower [sampleAirPlay, sampleMRP])
      sampleAirPlayLater (by decide) with
    | ⟨c', hget, hsnap, _⟩ => ⟨c', hget, hsnap⟩⟩

/-! ## Queries, readiness and classification -/

/-- C36: the calls of `mdns.Query` that `Discover` makes depend on the protocol
restriction alone: without restriction one call for each of the five service
types, in the order of the table; with a restriction to one of the five
protocols the single call for the type of that protocol; with a restriction to
any other protocol value no call.  Every call gets the timeout of the scan.
The announcements `Discover` handles and the warnings it prints are those of
these calls, in this order, and `Discover` depends on the transport through
these calls only. -/
theorem Discover_queries_by_restriction (toLower : String → String) (s : Scanner)
    (ctx : Context) (query : Transport) (visited : List Config) :
    (s.opts.Protocol = none →
      (s.Discover toLower ctx query visited).queries.map (fun q => q.Service) =
        ["_mediaremotetv._tcp", "_dacp._tcp", "_airplay._tcp", "_raop._tcp",
         "_companion-link._tcp"]) ∧
    (∀ st ∈ serviceTypes, s.opts.Protocol = some st.2 →
      (s.Discover toLower ctx query visited).queries.map (fun q => q.Service) = [st.1]) ∧
    (∀ p : Protocol, s.opts.Protocol = some p → (∀ st ∈ serviceTypes, st.2 ≠ p) →
      (s.Discover toLower ctx query visited).queries = []) ∧
    (∀ (other : Scanner) (toLower2 : String → String) (ctx2 : Context) (query2 : Transport)
        (visited2 : List Config),
      other.opts.Protocol = s.opts.Protocol →
      (other.Discover toLower2 ctx2 query2 visited2).queries.map (fun q => q.Service) =
        (s.Discover toLower ctx query visited).queries.map (fun q => q.Service)) ∧
    (∀ q ∈ (s.Discover toLower ctx query visited).queries,
      q.Timeout = s.timeout ∧ q.WantUnicastResponse = true) ∧
    (s.Discover toLower ctx query visited).scanner =
      s.handleEntries toLower
        (((s.Discover toLower ctx query visited).queries.map
          (fun q => (query q).entries)).flatten) ∧
    (s.Discover toLower ctx query visited).output =
      (s.Discover toLower ctx query visited).queries.filterMap
        (fun q =>
          match (query q).err with
          | some err =>
            if !GoStr.Contains err.Error "no such host" then
              some ("Warning: failed to query " ++ q.Service ++ ": " ++ err.Error ++ "\n")
            else none
          | none => none) ∧
    (∀ query2 : Transport,
      (∀ q ∈ (s.Discover toLower ctx query visited).queries, query2 q = query q) →
      s.Discover toLower ctx query2 visited = s.Discover toLower ctx query visited) := by
  have hq : (s.Discover toLower ctx query visited).queries = s.queryParams := rfl
  rw [hq]
  obtain ⟨h1, h2, h3, h4, h5⟩ := queryParams_services s
  refine ⟨h1, h2, h3, ?_, h5, rfl, rfl, ?_⟩
  · intro other toLower2 ctx2 query2 visited2 h
    exact h4 other h
  · intro query2 h
    exact Discover_congr toLower s ctx query query2 visited h

/-- Witness of C36: a scan restricted to RAOP makes the one call for
`_raop._tcp`, a scan restricted to the protocol value 7 makes none and finds
nothing, and an unrestricted scan makes five calls. -/
theorem Discover_queries_by_restriction_witness :
    ((Scan asciiToLower {} { Protocol := some ProtocolRAOP } sampleTransport []).queries.map
      (fun q => q.Service) = ["_raop._tcp"]) ∧
    (Scan asciiToLower {} { Protocol := some 7 } sampleTransport []).queries = [] ∧
    (Scan asciiToLower {} { Protocol := some 7 } sampleTransport []).scanner.devices = [] ∧
    (Scan asciiToLower {} {} sampleTransport []).queries.length = 5 :=
  ⟨(Discover_queries_by_restriction asciiToLower
      (NewScanner { Protocol := some ProtocolRAOP, Timeout := 5 * 1000000000 }) {}
      sampleTransport []).2.1 (ServiceTypeRAOP, ProtocolRAOP) (by decide) rfl,
    (Discover_queries_by_restriction asciiToLower
      (NewScanner { Protocol := some 7, Timeout := 5 * 1000000000 }) {}
      sampleTransport []).2.2.1 7 rfl (by decide),
    by decide, by decide⟩

/-- C37: in every table built from the empty table by a sequence of
announcements, a ready record has a service and a non-empty `Identifier`; so
`Connect` on a record that `Scan` returns gives a connection, neither
`ErrNoService` nor `ErrDeviceIDMissing`.  The converse fails: the record built
from an MRP announcement without and one with identifier has the `Identifier`
XYZ and is not ready. -/
theorem ready_record_connects (toLower : String → String) (opts : ScanOptions) :
    (∀ (entries : List ServiceEntry),
      ∀ kc ∈ ((NewScanner opts).handleEntries toLower entries).devices,
        kc.2.Ready = true → kc.2.Services ≠ [] ∧ kc.2.Identifier ≠ "") ∧
    (∀ (ctx : Context) (query : Transport) (visited : List Config) (c : Config),
      visited.Perm (GoMap.values (Scan toLower ctx opts query visited).scanner.devices) →
      c ∈ (Scan toLower ctx opts query visited).result →
      ∀ (cctx : Context) (copts : ConnectOptions),
        Connect cctx c copts = .ok { config := c, opts := copts, connected := true }) ∧
    (∃ c ∈ GoMap.values ((NewScanner opts).handleEntries asciiToLower
        [sampleMRPNoId, sampleMRPWithId]).devices,
      c.Identifier = "XYZ" ∧ c.Ready = false) := by
  have hinv : ∀ (o : ScanOptions) (entries : List ServiceEntry),
      ∀ kc ∈ ((NewScanner o).handleEntries toLower entries).devices,
        kc.2.Ready = true → kc.2.Services ≠ [] ∧ kc.2.Identifier ≠ "" := by
    intro o entries kc hkc hr
    exact ⟨services_ne_nil_of_ready _ hr,
      handleEntries_readyHasIdentifier toLower entries _ (newScanner_readyHasIdentifier o)
        kc hkc hr⟩
  refine ⟨hinv opts, ?_, ?_⟩
  · intro ctx query visited c hvisit hc cctx copts
    unfold Scan Scanner.Discover at hvisit hc
    simp only at hvisit hc
    rw [filterDevices_eq_filter, List.mem_filter] at hc
    obtain ⟨hmem, hkeep⟩ := hc
    have hready : c.Ready = true := by
      simp only [Bool.and_eq_true] at hkeep
      exact hkeep.1
    obtain ⟨k, hk⟩ := (mem_values_iff _ c).mp (hvisit.mem_iff.mp hmem)
    obtain ⟨hs, hid⟩ := hinv _ _ (k, c) hk hready
    exact Connect_ok cctx c copts hs hid
  · refine ⟨(updateConfig asciiToLower
        (updateConfig asciiToLower (newConfig sampleMRPNoId) sampleMRPNoId
          (parseTxtRecords sampleMRPNoId.InfoFields) (getProtocolFromService sampleMRPNoId.Name))
        sampleMRPWithId (parseTxtRecords sampleMRPWithId.InfoFields)
        (getProtocolFromService sampleMRPWithId.Name)), ?_, by decide, by decide⟩
    have h : GoMap.values ((NewScanner opts).handleEntries asciiToLower
        [sampleMRPNoId, sampleMRPWithId]).devices =
        GoMap.values ((NewScanner {}).handleEntries asciiToLower
          [sampleMRPNoId, sampleMRPWithId]).devices := rfl
    rw [h]
    decide

/-- Witness of C37: `Scan` with the sample transport returns one record, and
`Connect` on what it returns gives a connection. -/
theorem ready_record_connects_witness :
    (Scan asciiToLower {} {} sampleTransport
      (GoMap.values (Scan asciiToLower {} {} sampleTransport []).scanner.devices)).result.length
      = 1 ∧
    (Scan asciiToLower {} {} sampleTransport
      (GoMap.values (Scan asciiToLower {} {} sampleTransport []).scanner.devices)).result.map
      (fun c => Connect {} c {}) =
    (Scan asciiToLower {} {} sampleTransport
      (GoMap.values (Scan asciiToLower {} {} sampleTransport []).scanner.devices)).result.map
      (fun c => Except.ok { config := c, opts := {}, connected := true }) :=
  ⟨by decide,
    List.map_congr_left (fun c hc =>
      (ready_record_connects asciiToLower {}).2.1 {} sampleTransport
        (GoMap.values (Scan asciiToLower {} {} sampleTransport []).scanner.devices) c
        (List.Perm.refl _) hc {} {})⟩

/-- C38: when `AddService` merges an incoming service into the existing
service of the same protocol, that service keeps its `Protocol`, `Port`,
`Enabled`, `RequiresPassword` and `Pairing`, and the services before and after
it in the list are the same; so a recognized announcement for a record that
already has a service of its protocol leaves the port and the pairing
requirement of that service as they were. -/
theorem AddService_merge_frame (c : Config) (svc e : Service)
    (h : c.GetService svc.Protocol = some e) :
    (∃ e', (c.AddService svc).GetService svc.Protocol = some e' ∧
      e'.Protocol = e.Protocol ∧ e'.Port = e.Port ∧ e'.Enabled = e.Enabled ∧
      e'.RequiresPassword = e.RequiresPassword ∧ e'.Pairing = e.Pairing ∧
      ∃ before after, c.Services = before ++ e :: after ∧
        (c.AddService svc).Services = before ++ e' :: after) ∧
    (∀ (toLower : String → String) (s : Scanner) (a : ServiceEntry),
      getProtocolFromService a.Name = svc.Protocol → svc.Protocol ≠ 0 →
      GoMap.get s.devices (announcementKey a) = some c →
      ∃ c' e', GoMap.get (s.handleEntry toLower a).devices (announcementKey a) = some c' ∧
        c'.GetService svc.Protocol = some e' ∧ e'.Port = e.Port ∧ e'.Pairing = e.Pairing ∧
        e'.Enabled = e.Enabled ∧ c'.Services.length = c.Services.length) := by
  obtain ⟨before, after, hl, hadd, _⟩ := addServiceLoop_merge_split c.Services svc e h
  obtain ⟨f1, f2, f3, f4, f5, _⟩ := merge_frame e svc
  refine ⟨⟨e.merge svc, getService_addService_merge c svc e h, f1, f2, f3, f4, f5,
    before, after, hl, hadd⟩, ?_⟩
  intro toLower s a hp hne hget
  have hrec : getProtocolFromService a.Name ≠ 0 := by rw [hp]; exact hne
  have hfind : c.Services.find?
      (fun x => decide (x.Protocol = (newService a (parseTxtRecords a.InfoFields)
        (getProtocolFromService a.Name)).Protocol)) = some e := by
    have : (newService a (parseTxtRecords a.InfoFields)
        (getProtocolFromService a.Name)).Protocol = svc.Protocol := hp
    rw [this]
    exact h
  obtain ⟨g1, g2, g3, g4, g5, _⟩ := merge_frame e
    (newService a (parseTxtRecords a.InfoFields) (getProtocolFromService a.Name))
  refine ⟨_, e.merge (newService a (parseTxtRecords a.InfoFields)
      (getProtocolFromService a.Name)),
    by rw [handleEntry_devices toLower s a hrec, GoMap.get_set_self], ?_, g2, g5, g3, ?_⟩
  · rw [hget, Option.getD_some, updateConfig_eq]
    have hm := find_addServiceLoop_merge c.Services
      (newService a (parseTxtRecords a.InfoFields) (getProtocolFromService a.Name)) e hfind
    have hproto : (newService a (parseTxtRecords a.InfoFields)
        (getProtocolFromService a.Name)).Protocol = svc.Protocol := hp
    rw [hproto] at hm
    exact hm
  · rw [hget, Option.getD_some, updateConfig_eq]
    simp only
    apply addServiceLoop_length_present
    have hproto : (newService a (parseTxtRecords a.InfoFields)
        (getProtocolFromService a.Name)).Protocol = svc.Protocol := hp
    rw [hproto]
    by_contra hn
    rw [(getService_eq_none_iff c _).mpr hn] at h
    exact Option.noConfusion h

/-- Witness of C38: after the later AirPlay announcement, on port 7100 and with
the flag `sf`, the AirPlay service still has port 7000 and pairing NotNeeded. -/
theorem AddService_merge_frame_witness :
    (newService sampleAirPlayLater (parseTxtRecords sampleAirPlayLater.InfoFields)
      ProtocolAirPlay).Port = 7100 ∧
    (newService sampleAirPlayLater (parseTxtRecords sampleAirPlayLater.InfoFields)
      ProtocolAirPlay).Pairing = PairingRequirementOptional ∧
    ∃ c' e', GoMap.get (((NewScanner {}).handleEntry asciiToLower sampleAirPlay).handleEntry
        asciiToLower sampleAirPlayLater).devices (announcementKey sampleAirPlayLater) =
        some c' ∧
      c'.GetService ProtocolAirPlay = some e' ∧ e'.Port = 7000 ∧
      e'.Pairing = PairingRequirementNotNeeded :=
  ⟨by decide, by decide,
    match (AddService_merge_frame
      (updateConfig asciiToLower (newConfig sampleAirPlay) sampleAirPlay
        (parseTxtRecords sampleAirPlay.InfoFields) ProtocolAirPlay)
      (newService sampleAirPlayLater (parseTxtRecords sampleAirPlayLater.InfoFields)
        ProtocolAirPlay)
      (newService sampleAirPlay (parseTxtRecords sampleAirPlay.InfoFields) ProtocolAirPlay)
      (by decide)).2 asciiToLower ((NewScanner {}).handleEntry asciiToLower sampleAirPlay)
      sampleAirPlayLater (by decide) (by decide) (by decide) with
    | ⟨c', e', hget, hsvc, hport, hpair, _, _⟩ =>
      ⟨c', e', hget, hsvc, hport.trans (by decide), hpair.trans (by decide)⟩⟩

/-- C39: for each of the five protocols, classifying its service-type string
gives the protocol back, and the service-type string of the protocol is the one
of the table; no service-type string is contained in another; and
`getProtocolFromService` returns 0 exactly for the names that contain none of
the five service-type strings. -/
theorem service_type_round_trip :
    (∀ st ∈ serviceTypes,
      getProtocolFromService (getServiceTypeForProtocol st.2) = st.2 ∧
      getServiceTypeForProtocol st.2 = st.1 ∧ st.2 ≠ 0) ∧
    serviceTypes.map (fun st => st.2) =
      [ProtocolMRP, ProtocolDMAP, ProtocolAirPlay, ProtocolRAOP, ProtocolCompanion] ∧
    (∀ st ∈ serviceTypes, ∀ other ∈ serviceTypes, st ≠ other →
      GoStr.Contains st.1 other.1 = false) ∧
    (∀ name : String, getProtocolFromService name = 0 ↔
      ∀ st ∈ serviceTypes, GoStr.Contains name st.1 = false) :=
  ⟨by decide, by decide, by decide, getProtocolFromService_eq_zero_iff⟩

/-- C40: a new handler is not paired; `Begin` returns `ErrNotSupported` and
leaves the handler as it is; `Finish` returns `ErrNoCredentials` exactly when
the stored PIN is empty, and then leaves the handler as it is; `Finish` with a
non-empty PIN returns nil and makes the handler paired.  So a handler reached
from a new one by calls of its methods is paired only if one of the calls was a
`Finish` made when a non-empty PIN was stored, and a paired handler stays
paired. -/
theorem pairing_state_machine (config : Config) (service : Option Service)
    (protocol : Protocol) (opts : PairOptions) (p : DefaultPairingHandler) (ctx : Context) :
    (NewPairingHandler config service protocol opts).HasPaired = false ∧
    p.Begin ctx = (p, some ErrNotSupported) ∧
    ((p.Finish ctx).2 = some ErrNoCredentials ↔ p.pin = "") ∧
    (p.pin = "" → (p.Finish ctx).1 = p) ∧
    (p.pin ≠ "" → (p.Finish ctx).2 = none ∧ (p.Finish ctx).1.HasPaired = true ∧
      (p.Finish ctx).1 = { p with paired := true }) ∧
    (∀ calls : List PairingCall,
      ((NewPairingHandler config service protocol opts).calls ctx calls).HasPaired = true →
      ∃ before after, calls = before ++ PairingCall.Finish :: after ∧
        ((NewPairingHandler config service protocol opts).calls ctx before).pin ≠ "") ∧
    (∀ calls : List PairingCall, p.HasPaired = true → (p.calls ctx calls).HasPaired = true) := by
  refine ⟨rfl, rfl, ?_, ?_, ?_, ?_, ?_⟩
  · unfold DefaultPairingHandler.Finish
    by_cases h : p.pin = ""
    · simp [h]
    · simp [h]
  · intro h
    simp [DefaultPairingHandler.Finish, h]
  · intro h
    simp [DefaultPairingHandler.Finish, h, DefaultPairingHandler.HasPaired]
  · intro calls h
    rcases calls_paired_cause ctx calls _ h with h0 | h1
    · exact absurd h0 (by simp [NewPairingHandler])
    · exact h1
  · intro calls h
    exact calls_paired_mono ctx calls p h

/-- Witness of C40: `Begin`, a `Finish` without PIN, then the PIN 1234 and
`Finish` pair the handler, and it stays paired when the PIN is cleared. -/
theorem pairing_state_machine_witness :
    ((NewPairingHandler sampleConfigNoId (some sampleServiceNoId) ProtocolMRP {}).calls {}
      [.Begin, .Finish]).HasPaired = false ∧
    ((NewPairingHandler sampleConfigNoId (some sampleServiceNoId) ProtocolMRP {}).calls {}
      [.Begin, .Finish, .Pin "1234", .Finish, .Pin "", .Finish]).HasPaired = true ∧
    ∃ before after,
      [PairingCall.Begin, .Finish, .Pin "1234", .Finish, .Pin "", .Finish] =
        before ++ PairingCall.Finish :: after ∧
      ((NewPairingHandler sampleConfigNoId (some sampleServiceNoId) ProtocolMRP {}).calls {}
        before).pin ≠ "" :=
  ⟨by decide, by decide,
    (pairing_state_machine sampleConfigNoId (some sampleServiceNoId) ProtocolMRP {}
      (NewPairingHandler sampleConfigNoId (some sampleServiceNoId) ProtocolMRP {}) {}).2.2.2.2.2.1
      [.Begin, .Finish, .Pin "1234", .Finish, .Pin "", .Finish] (by decide)⟩


end Pyatv
